import Mathlib

/-!
Verification of the Tool-Invocation Protocol Client and Parameter
Normalization Engine of the cost-reporting-mcp repository.

The embedding models Python values flowing through
`TestSuite._fix_basic_parameters`, `TestSuite._split_multiple_metric_queries`,
`TestSuite.run_single_query` (src/test/test_suite.py) and
`OfficialMCPClient` (src/web_app.py) as a JSON-like inductive type.
Python exceptions (TypeError, AttributeError, ValueError, KeyError,
IndexError) are modelled with `Except String`.
-/

namespace CostReporting

/-- Model of a Python float for sanitization purposes: the only facts the
code ever inspects are `math.isnan` and `math.isinf`, so finite floats are
represented by a rational payload and the three non-finite values are
explicit constructors. -/
inductive PyFloat where
  | finite (q : ℚ)
  | nan
  | inf
  | neginf
deriving DecidableEq, Repr

/-- Whether `math.isnan(f) or math.isinf(f)` holds (web_app.py line 231). -/
def PyFloat.nonfinite : PyFloat → Bool
  | .finite _ => false
  | .nan => true
  | .inf => true
  | .neginf => true

/-- JSON-like Python value: None, bool, int, float, str, list, dict.
Dict entries are kept in insertion order, as Python dicts do; keys are
assumed unique (Python dicts cannot hold duplicate keys). -/
inductive Json where
  | null
  | bool (b : Bool)
  | int (n : Int)
  | float (f : PyFloat)
  | str (s : String)
  | arr (xs : List Json)
  | obj (kvs : List (String × Json))
deriving Repr

/-- Association-list payload of a Python dict. -/
abbrev Params := List (String × Json)

mutual

/-- Structural (Boolean) equality of two values.  This models Python `==`
on JSON-shaped data; Python's cross-type numeric equalities
(`1 == 1.0`, `True == 1`) are not modelled, which only matters for values
that would make the source crash shortly afterwards anyway. -/
def Json.beq : Json → Json → Bool
  | .null, .null => true
  | .bool a, .bool b => a == b
  | .int a, .int b => a == b
  | .float a, .float b => a == b
  | .str a, .str b => a == b
  | .arr a, .arr b => Json.beqList a b
  | .obj a, .obj b => Json.beqObj a b
  | _, _ => false

/-- Pointwise equality of two value lists. -/
def Json.beqList : List Json → List Json → Bool
  | [], [] => true
  | a :: as, b :: bs => Json.beq a b && Json.beqList as bs
  | _, _ => false

/-- Pointwise equality of two dict payloads (same keys in the same
order with equal values). -/
def Json.beqObj : Params → Params → Bool
  | [], [] => true
  | (ka, va) :: as, (kb, vb) :: bs => ka == kb && Json.beq va vb && Json.beqObj as bs
  | _, _ => false

end

instance : BEq Json := ⟨Json.beq⟩

mutual

/-- Induction principle for the nested inductive `Json`: list and dict
entries are handled through membership hypotheses. -/
def Json.inductionOn {P : Json → Prop}
    (hnull : P .null) (hbool : ∀ b, P (.bool b)) (hint : ∀ n, P (.int n))
    (hfloat : ∀ f, P (.float f)) (hstr : ∀ s, P (.str s))
    (harr : ∀ xs, (∀ x ∈ xs, P x) → P (.arr xs))
    (hobj : ∀ kvs : Params, (∀ kv ∈ kvs, P (Prod.snd kv)) → P (.obj kvs)) :
    ∀ j, P j
  | .null => hnull
  | .bool b => hbool b
  | .int n => hint n
  | .float f => hfloat f
  | .str s => hstr s
  | .arr xs => harr xs (Json.inductionArr hnull hbool hint hfloat hstr harr hobj xs)
  | .obj kvs => hobj kvs (Json.inductionObj hnull hbool hint hfloat hstr harr hobj kvs)

/-- Membership form of the induction principle for value lists. -/
def Json.inductionArr {P : Json → Prop}
    (hnull : P .null) (hbool : ∀ b, P (.bool b)) (hint : ∀ n, P (.int n))
    (hfloat : ∀ f, P (.float f)) (hstr : ∀ s, P (.str s))
    (harr : ∀ xs, (∀ x ∈ xs, P x) → P (.arr xs))
    (hobj : ∀ kvs : Params, (∀ kv ∈ kvs, P (Prod.snd kv)) → P (.obj kvs)) :
    ∀ xs : List Json, ∀ x ∈ xs, P x
  | y :: ys, x, h => by
    rcases List.mem_cons.mp h with h1 | h2
    · exact h1 ▸ Json.inductionOn hnull hbool hint hfloat hstr harr hobj y
    · exact Json.inductionArr hnull hbool hint hfloat hstr harr hobj ys x h2

/-- Membership form of the induction principle for dict payloads. -/
def Json.inductionObj {P : Json → Prop}
    (hnull : P .null) (hbool : ∀ b, P (.bool b)) (hint : ∀ n, P (.int n))
    (hfloat : ∀ f, P (.float f)) (hstr : ∀ s, P (.str s))
    (harr : ∀ xs, (∀ x ∈ xs, P x) → P (.arr xs))
    (hobj : ∀ kvs : Params, (∀ kv ∈ kvs, P (Prod.snd kv)) → P (.obj kvs)) :
    ∀ kvs : Params, ∀ kv ∈ kvs, P (Prod.snd kv)
  | y :: ys, kv, h => by
    rcases List.mem_cons.mp h with h1 | h2
    · exact h1 ▸ Json.inductionOn hnull hbool hint hfloat hstr harr hobj y.2
    · exact Json.inductionObj hnull hbool hint hfloat hstr harr hobj ys kv h2

end

theorem Json.beq_iff : ∀ a b : Json, (Json.beq a b = true) ↔ a = b := by
  intro a
  induction a using Json.inductionOn with
  | hnull => intro b; cases b <;> simp [Json.beq]
  | hbool b0 => intro b; cases b <;> simp [Json.beq]
  | hint n => intro b; cases b <;> simp [Json.beq]
  | hfloat f => intro b; cases b <;> simp [Json.beq]
  | hstr s => intro b; cases b <;> simp [Json.beq]
  | harr xs ih =>
    intro b; cases b <;> simp [Json.beq]
    rename_i ys
    induction xs generalizing ys with
    | nil => cases ys <;> simp [Json.beqList]
    | cons x xs ihx =>
      cases ys with
      | nil => simp [Json.beqList]
      | cons y ys =>
        have hx := ih x (List.mem_cons_self x xs)
        have hrest := ihx (fun z hz => ih z (List.mem_cons_of_mem x hz)) ys
        simp [Json.beqList, hx y, hrest]
  | hobj kvs ih =>
    intro b; cases b <;> simp [Json.beq]
    rename_i ys
    induction kvs generalizing ys with
    | nil => cases ys <;> simp [Json.beqObj]
    | cons x xs ihx =>
      cases ys with
      | nil => simp [Json.beqObj]
      | cons y ys =>
        have hx := ih x (List.mem_cons_self x xs)
        have hrest := ihx (fun z hz => ih z (List.mem_cons_of_mem x hz)) ys
        obtain ⟨k1, v1⟩ := x
        obtain ⟨k2, v2⟩ := y
        simp [Json.beqObj, hx v2, hrest]

instance : DecidableEq Json := fun a b =>
  decidable_of_iff (Json.beq a b = true) (Json.beq_iff a b)

instance : LawfulBEq Json where
  eq_of_beq h := (Json.beq_iff _ _).mp h
  rfl := by intro a; exact (Json.beq_iff a a).mpr rfl

/-! ### Python dict operations (insertion-ordered association lists) -/

/-- Dict lookup `d[k]` / `k in d`: value of the first binding of `k`. -/
def getKey (k : String) : Params → Option Json
  | [] => none
  | (k2, v) :: rest => if k2 = k then some v else getKey k rest

/-- Dict assignment `d[k] = v`: replaces the binding in place when the key
is present, otherwise appends it at the end — Python insertion-order
semantics. -/
def setKey (k : String) (v : Json) : Params → Params
  | [] => [(k, v)]
  | (k2, v2) :: rest => if k2 = k then (k, v) :: rest else (k2, v2) :: setKey k v rest

/-- Dict deletion `d.pop(k)` / `del d[k]` (keys are unique, so removing
every binding of `k` is the same as removing the one binding). -/
def removeKey (k : String) : Params → Params
  | [] => []
  | (k2, v) :: rest => if k2 = k then removeKey k rest else (k2, v) :: removeKey k rest

/-! ### Python primitive semantics -/

/-- Python truthiness of a JSON-shaped value. -/
def truthy : Json → Bool
  | .null => false
  | .bool b => b
  | .int n => n != 0
  | .float f =>
    match f with
    | .finite q => q != 0
    | _ => true
  | .str s => !s.data.isEmpty
  | .arr xs => !xs.isEmpty
  | .obj kvs => !kvs.isEmpty

/-- Occurrence of `pat` as a contiguous substring of `l` (Python
`pat in s` for strings). -/
def containsSub (pat : List Char) : List Char → Bool
  | [] => pat.isEmpty
  | c :: rest => pat.isPrefixOf (c :: rest) || containsSub pat rest

/-- Python `key in v`: dict key test, string substring test, list element
test; a `TypeError` on non-container scalars. -/
def pyIn (key : String) : Json → Except String Bool
  | .obj kvs => .ok (getKey key kvs).isSome
  | .str s => .ok (containsSub key.data s.data)
  | .arr xs => .ok (xs.contains (Json.str key))
  | _ => .error "TypeError"

/-- Python `v[key]` with a string key: dict indexing; everything else
raises (`TypeError` for non-dicts, `KeyError` for a missing key). -/
def subscript (v : Json) (key : String) : Except String Json :=
  match v with
  | .obj kvs =>
    match getKey key kvs with
    | some x => .ok x
    | none => .error "KeyError"
  | _ => .error "TypeError"

/-- Python `v.get(key)` — only dicts have `.get`; other receivers raise
`AttributeError`. Returns `none` for a missing key (Python `None`). -/
def pyGetOpt (v : Json) (key : String) : Except String (Option Json) :=
  match v with
  | .obj kvs => .ok (getKey key kvs)
  | _ => .error "AttributeError"

/-! ### Strings, digits and dates -/

/-- Decimal value of a digit string (most significant digit first). -/
def digitsVal : List Char → Nat
  | [] => 0
  | c :: cs => (c.toNat - 48) * 10 ^ cs.length + digitsVal cs

/-- Decimal digits of `n`, accumulated onto `acc`; structurally recursive
on a fuel argument (any fuel at least `n` yields all digits). -/
def natDigitsAux : Nat → Nat → List Char → List Char
  | 0, _, acc => acc
  | fuel + 1, n, acc =>
    if n = 0 then acc
    else natDigitsAux fuel (n / 10) (Char.ofNat (48 + n % 10) :: acc)

/-- Decimal rendering of a natural number (Python `str(n)` for `n ≥ 0`). -/
def natToDigits (n : Nat) : List Char :=
  if n = 0 then [Char.ofNat 48] else natDigitsAux n n []

/-- Left-pad with ASCII zeros to width `w`. -/
def padZeros (w : Nat) (cs : List Char) : List Char :=
  List.replicate (w - cs.length) (Char.ofNat 48) ++ cs

/-- Python `f-string` formatting with format spec `0{w}d`: minimum total
width `w`, zero-padded, sign included in the width. -/
def pyFormat0d (w : Nat) (n : Int) : String :=
  if n < 0 then String.mk (Char.ofNat 45 :: padZeros (w - 1) (natToDigits (-n).toNat))
  else String.mk (padZeros w (natToDigits n.toNat))

/-- Rejoin the pieces produced by `splitOnChar` (specification helper for
reasoning about `split`). -/
def joinSep (c : Char) : List (List Char) → List Char
  | [] => []
  | [x] => x
  | x :: xs => x ++ c :: joinSep c xs

/-- Model of Python `int(s)`: optional surrounding whitespace, optional
sign, a nonempty run of decimal digits.  (Underscore digit grouping is not
modelled; it only affects which inputs raise `ValueError`.) -/
def pyIntOfChars (cs0 : List Char) : Option Int :=
  let cs := ((cs0.dropWhile Char.isWhitespace).reverse.dropWhile Char.isWhitespace).reverse
  match cs with
  | [] => none
  | c :: rest =>
    if c = Char.ofNat 45 then
      if !rest.isEmpty && rest.all Char.isDigit then some (-(digitsVal rest : Int)) else none
    else if c = Char.ofNat 43 then
      if !rest.isEmpty && rest.all Char.isDigit then some ((digitsVal rest : Int)) else none
    else if (c :: rest).all Char.isDigit then some ((digitsVal (c :: rest) : Int)) else none

/-- Python `s.split(sep)` for a single-character separator. -/
def splitOnChar (c : Char) : List Char → List (List Char)
  | [] => [[]]
  | x :: xs =>
    let r := splitOnChar c xs
    if x = c then [] :: r
    else
      match r with
      | h :: t => (x :: h) :: t
      | [] => [[x]]

/-- Python `s.split(sep, 1)[0] / [1]` for a single-character separator:
the text before the first occurrence and the text after it. -/
def splitFirst (c : Char) : List Char → List Char × List Char
  | [] => ([], [])
  | x :: xs =>
    if x = c then ([], xs)
    else
      let p := splitFirst c xs
      (x :: p.1, p.2)

/-- Python code-point string slicing `s[:n]`. -/
def strTake (s : String) (n : Nat) : String := String.mk (s.data.take n)

/-- Python `len(s)` for strings (code points). -/
def strLen (s : String) : Nat := s.data.length

/-- Python `s.startswith(p)`. -/
def strStartsWith (s p : String) : Bool := p.data.isPrefixOf s.data

/-- Python `pat in hay` for strings. -/
def strSubstr (pat hay : String) : Bool := containsSub pat.data hay.data

/-- Python `s.lower()` (ASCII; the metric and tool names the source
lowercases are ASCII). -/
def strLower (s : String) : String := String.mk (s.data.map Char.toLower)

/-- Lexicographic code-point comparison of character lists. -/
def charListLt : List Char → List Char → Bool
  | [], [] => false
  | [], _ :: _ => true
  | _ :: _, [] => false
  | a :: as, b :: bs =>
    if a.toNat < b.toNat then true
    else if b.toNat < a.toNat then false
    else charListLt as bs

/-- Python `a < b` for strings (lexicographic by code point). -/
def strLtB (a b : String) : Bool := charListLt a.data b.data

/-- Parse `"YYYY-MM"`-shaped text the way
`year, month = map(int, s.split('-'))` does: exactly two dash-separated
fields, each a Python integer literal; otherwise `ValueError`. -/
def parseYM (s : String) : Except String (Int × Int) :=
  match (splitOnChar (Char.ofNat 45) s.data).map pyIntOfChars with
  | [some y, some m] => .ok (y, m)
  | _ => .error "ValueError"

/-- First day of the month after `(year, month)` — the
`if month == 12` arithmetic at test_suite.py lines 353-356. -/
def nextMonth (ym : Int × Int) : Int × Int :=
  if ym.2 = 12 then (ym.1 + 1, 1) else (ym.1, ym.2 + 1)

/-- Month before `(year, month)` — the `if month == 1` arithmetic at
test_suite.py lines 392-395. -/
def prevMonth (ym : Int × Int) : Int × Int :=
  if ym.2 = 1 then (ym.1 - 1, 12) else (ym.1, ym.2 - 1)

/-- Render `f"{year:04d}-{month:02d}-01"`. -/
def fmtYM01 (ym : Int × Int) : String :=
  pyFormat0d 4 ym.1 ++ "-" ++ pyFormat0d 2 ym.2 ++ "-01"

/-- Well-formed `YYYY-MM-DD` date text: three dash-separated all-digit
fields of widths 4, 2, 2, with year at least 1 and month in 1..12 (day
digits are never inspected by the source, so they are not constrained). -/
def isYMD (s : String) : Bool :=
  match splitOnChar (Char.ofNat 45) s.data with
  | [y, m, d] =>
    y.length = 4 && y.all Char.isDigit && 1 ≤ digitsVal y &&
    m.length = 2 && m.all Char.isDigit && 1 ≤ digitsVal m && digitsVal m ≤ 12 &&
    d.length = 2 && d.all Char.isDigit
  | _ => false

/-! ### The parameter normalizer `TestSuite._fix_basic_parameters`
(src/test/test_suite.py lines 232-450).

The Python function copies the top-level dict (`parameters.copy()`, a
shallow copy) and applies twelve correction rules in order.  Each rule is
embedded below as one definition; `fix_params_pipeline` chains them.
Python exceptions are modelled as `Except.error` with the exception class
name as the message (messages are approximate where the source would raise
a different exception class on an equally-crashing path).
`today` stands for `datetime.now().strftime("%Y-%m-%d")`. -/

/-- Python `len(v)` — strings, lists and dicts have a length, scalars
raise `TypeError`. -/
def pyLen (v : Json) : Except String Nat :=
  match v with
  | .str s => .ok s.data.length
  | .arr xs => .ok xs.length
  | .obj kvs => .ok kvs.length
  | _ => .error "TypeError"

/-- Python `v[0]` — first list element, first character of a string,
otherwise an error (`KeyError` for string-keyed dicts, `IndexError` when
empty, `TypeError` for scalars). -/
def pyIndex0 (v : Json) : Except String Json :=
  match v with
  | .arr [] => .error "IndexError"
  | .arr (x :: _) => .ok x
  | .str s =>
    match s.data with
    | [] => .error "IndexError"
    | c :: _ => .ok (.str (String.mk [c]))
  | .obj _ => .error "KeyError"
  | _ => .error "TypeError"

/-- Test_suite.py lines 260 and 296: `tool_name and 'forecast' in
tool_name.lower()` — a falsy tool name short-circuits to false, a truthy
non-string raises `AttributeError` on `.lower()`. -/
def isForecastTool (tool_name : Json) : Except String Bool :=
  if truthy tool_name then
    match tool_name with
    | .str s => .ok (strSubstr "forecast" (strLower s))
    | _ => .error "AttributeError"
  else .ok false

/-- Rule 1 (lines 239-246): a `group_by` list is collapsed to its first
element's `Key` value when that element is a dict carrying `Key`, to the
first element when it is a string, and to `None` when the list is empty. -/
def fixGroupByShape (fp : Params) : Params :=
  match getKey "group_by" fp with
  | some (.arr gb) =>
    match gb with
    | g0 :: _ =>
      match g0 with
      | .obj kvs =>
        match getKey "Key" kvs with
        | some kv => setKey "group_by" kv fp
        | none => fp
      | .str s => setKey "group_by" (.str s) fp
      | _ => fp
    | [] => setKey "group_by" Json.null fp
  | _ => fp

/-- Rule 2 (lines 249-253): clamp `date_range.start_date` to today when it
is lexicographically after today.  The comparison `start > today` raises
`TypeError` unless the start is a string; `'start_date' in
fixed_params['date_range']` itself raises on scalars, and a true substring
or element containment on a string/list is followed by a raising
string-keyed indexing. -/
def fixForecastStartDate (today : String) (fp : Params) : Except String Params :=
  match getKey "date_range" fp with
  | some dr =>
    match pyIn "start_date" dr with
    | .error e => .error e
    | .ok false => .ok fp
    | .ok true =>
      match dr with
      | .obj drkvs =>
        match getKey "start_date" drkvs with
        | some (.str s) =>
          if strLtB today s then
            .ok (setKey "date_range" (.obj (setKey "start_date" (.str today) drkvs)) fp)
          else .ok fp
        | some _ => .error "TypeError"
        | none => .error "KeyError"
      | _ => .error "TypeError"
  | none => .ok fp

/-- Forecast-family metric case table (lines 261-272). -/
def forecast_mapping : List (String × String) :=
  [("UnblendedCost", "UNBLENDED_COST"), ("BlendedCost", "BLENDED_COST"),
   ("AmortizedCost", "AMORTIZED_COST"), ("NetAmortizedCost", "NET_AMORTIZED_COST"),
   ("NetUnblendedCost", "NET_UNBLENDED_COST"), ("UNBLENDED_COST", "UNBLENDED_COST"),
   ("BLENDED_COST", "BLENDED_COST"), ("AMORTIZED_COST", "AMORTIZED_COST"),
   ("NET_AMORTIZED_COST", "NET_AMORTIZED_COST"), ("NET_UNBLENDED_COST", "NET_UNBLENDED_COST")]

/-- Usage-family metric case table (lines 277-290). -/
def usage_mapping : List (String × String) :=
  [("UNBLENDED_COST", "UnblendedCost"), ("BLENDED_COST", "BlendedCost"),
   ("AMORTIZED_COST", "AmortizedCost"), ("NET_AMORTIZED_COST", "NetAmortizedCost"),
   ("NET_UNBLENDED_COST", "NetUnblendedCost"), ("USAGE_QUANTITY", "UsageQuantity"),
   ("UnblendedCost", "UnblendedCost"), ("BlendedCost", "BlendedCost"),
   ("AmortizedCost", "AmortizedCost"), ("NetAmortizedCost", "NetAmortizedCost"),
   ("NetUnblendedCost", "NetUnblendedCost"), ("UsageQuantity", "UsageQuantity")]

/-- First-match lookup in a string-to-string table. -/
def lookupStr (k : String) : List (String × String) → Option String
  | [] => none
  | (k2, v) :: rest => if k2 = k then some v else lookupStr k rest

/-- A value usable as a Python dict-membership probe; lists and dicts are
unhashable and raise `TypeError`. -/
def hashable : Json → Bool
  | .arr _ => false
  | .obj _ => false
  | _ => true

/-- Rule 3 (lines 256-292): rewrite `metric` through the case table of the
target tool's family; unrecognized (or non-string hashable) metrics pass
through, unhashable ones raise. -/
def fixMetricNames (tool_name : Json) (fp : Params) : Except String Params :=
  match getKey "metric" fp with
  | some metric =>
    match isForecastTool tool_name with
    | .error e => .error e
    | .ok fc =>
      if !hashable metric then .error "TypeError"
      else
        match metric with
        | .str m =>
          match lookupStr m (if fc then forecast_mapping else usage_mapping) with
          | some m2 => .ok (setKey "metric" (.str m2) fp)
          | none => .ok fp
        | _ => .ok fp
  | none => .ok fp

/-- Rule 4 (lines 295-302): `metric == 'BOTH'` becomes the family default
(`UNBLENDED_COST` for forecast tools, `AmortizedCost` otherwise). -/
def fixMetricBoth (tool_name : Json) (fp : Params) : Except String Params :=
  match getKey "metric" fp with
  | some (.str m) =>
    if m = "BOTH" then
      match isForecastTool tool_name with
      | .error e => .error e
      | .ok true => .ok (setKey "metric" (.str "UNBLENDED_COST") fp)
      | .ok false => .ok (setKey "metric" (.str "AmortizedCost") fp)
    else .ok fp
  | _ => .ok fp

/-- Rule 5 (lines 305-310): a string metric whose lowercase form names
both the amortized and the blended cost bases collapses to
`AmortizedCost`. -/
def fixMetricMultiple (fp : Params) : Params :=
  match getKey "metric" fp with
  | some (.str m) =>
    let ml := strLower m
    if strSubstr "amortized" ml && strSubstr "blended" ml then
      setKey "metric" (.str "AmortizedCost") fp
    else fp
  | _ => fp

/-- Dict entry tagged `Type = 'TAG'` (`group.get('Type') == 'TAG'`,
line 315). -/
def isTagTyped (g : Json) : Bool :=
  match g with
  | .obj kvs => getKey "Type" kvs == some (Json.str "TAG")
  | _ => false

/-- Rule 6 (lines 313-319): inside a `group_by` list, every dict entry
tagged `Type = 'TAG'` is replaced (in place) by the string `'SERVICE'`. -/
def fixGroupByTagEntries (fp : Params) : Params :=
  match getKey "group_by" fp with
  | some (.arr gb) =>
    setKey "group_by" (.arr (gb.map fun g => if isTagTyped g then Json.str "SERVICE" else g)) fp
  | _ => fp

/-- Known-invalid pseudo-dimension names (line 324). -/
def invalid_dimensions : List String :=
  ["CostCenter", "Environment", "Project", "Team", "Department", "USAGE_TYPE_GROUP"]

/-- Rule 7 (lines 322-327): a string `group_by` naming a known-invalid
dimension becomes `'SERVICE'`. -/
def fixGroupByInvalidDimension (fp : Params) : Params :=
  match getKey "group_by" fp with
  | some (.str g) =>
    if invalid_dimensions.contains g then setKey "group_by" (.str "SERVICE") fp else fp
  | _ => fp

/-- Rule 8 (lines 330-333): when both `current_period` and
`previous_period` are present, pop them and store their values under
`baseline_date_range` and `comparison_date_range`. -/
def fixComparisonKeyNames (fp : Params) : Params :=
  match getKey "current_period" fp, getKey "previous_period" fp with
  | some cur, some prev =>
    setKey "comparison_date_range" prev
      (removeKey "previous_period" (setKey "baseline_date_range" cur (removeKey "current_period" fp)))
  | _, _ => fp

/-- Rule 9 body (lines 337-357 for the baseline, 361-380 for the
comparison range): when the range has both `start_date` and `end_date`,
truncate each 7-plus-character date to `YYYY-MM` plus `-01`, then
recompute the end date as the first day of the month after the (updated)
start date.  Non-string dates raise on `len`, slicing-plus-concatenation,
or `.split`, except that a sized non-string `end_date` shorter than 7
passes through untouched (it is overwritten anyway). -/
def alignRangeMonth (r : Json) : Except String Json :=
  match pyIn "start_date" r with
  | .error e => .error e
  | .ok hasStart =>
    match (if hasStart then pyIn "end_date" r else .ok false) with
    | .error e => .error e
    | .ok hasEnd =>
      if hasStart && hasEnd then
        match r with
        | .obj kvs =>
          match getKey "start_date" kvs, getKey "end_date" kvs with
          | some (.str sd), some edv =>
            let sd1 := if 7 ≤ sd.data.length then strTake sd 7 ++ "-01" else sd
            let kvsA := setKey "start_date" (.str sd1) kvs
            match pyLen edv with
            | .error e => .error e
            | .ok edLen =>
              match (match edv with
                | .str ed =>
                  .ok (if 7 ≤ ed.data.length then
                    setKey "end_date" (.str (strTake ed 7 ++ "-01")) kvsA else kvsA)
                | _ =>
                  if 7 ≤ edLen then .error "TypeError"
                  else .ok kvsA : Except String Params) with
              | .error e => .error e
              | .ok kvsB =>
                match parseYM (strTake sd1 7) with
                | .error e => .error e
                | .ok ym => .ok (Json.obj (setKey "end_date" (.str (fmtYM01 (nextMonth ym))) kvsB))
          | some _, some _ => .error "TypeError"
          | _, _ => .error "KeyError"
        | _ => .error "TypeError"
      else .ok r

/-- Rule 9 applied to the range stored under `key`. -/
def fixRangeAlign (key : String) (fp : Params) : Except String Params :=
  match getKey key fp with
  | some r =>
    match alignRangeMonth r with
    | .error e => .error e
    | .ok r2 => .ok (setKey key r2 fp)
  | none => .ok fp

/-- Rule 10 (lines 383-409): a range whose start date begins with the
current `YYYY-MM` is moved back to span the previous month (start = first
of previous month, end = first of current month). -/
def shiftCurrentMonthRange (today : String) (key : String) (fp : Params) : Except String Params :=
  match getKey key fp with
  | some r =>
    match pyIn "start_date" r with
    | .error e => .error e
    | .ok false => .ok fp
    | .ok true =>
      match r with
      | .obj kvs =>
        match getKey "start_date" kvs with
        | some (.str sd) =>
          if strStartsWith sd (strTake today 7) then
            match parseYM (strTake today 7) with
            | .error e => .error e
            | .ok ym =>
              .ok (setKey key (.obj (setKey "end_date" (.str (fmtYM01 ym))
                (setKey "start_date" (.str (fmtYM01 (prevMonth ym))) kvs))) fp)
          else .ok fp
        | some _ => .error "AttributeError"
        | none => .error "KeyError"
      | _ => .error "TypeError"
  | none => .ok fp

/-- Rule 11 (lines 412-426): when the baseline and comparison ranges have
equal `start_date`s and equal `end_date`s (`.get`, so missing keys compare
as `None`), the comparison range is shifted one month earlier than its own
start month. -/
def fixComparisonCollision (fp : Params) : Except String Params :=
  match getKey "baseline_date_range" fp, getKey "comparison_date_range" fp with
  | some b, some c =>
    match pyGetOpt b "start_date" with
    | .error e => .error e
    | .ok bs =>
      match pyGetOpt c "start_date" with
      | .error e => .error e
      | .ok cs =>
        if bs == cs then
          match pyGetOpt b "end_date" with
          | .error e => .error e
          | .ok be =>
            match pyGetOpt c "end_date" with
            | .error e => .error e
            | .ok ce =>
              if be == ce then
                match cs with
                | some (.str s) =>
                  match parseYM (strTake s 7) with
                  | .error e => .error e
                  | .ok ym =>
                    match c with
                    | .obj kvs =>
                      .ok (setKey "comparison_date_range"
                        (.obj (setKey "end_date" (.str (fmtYM01 ym))
                          (setKey "start_date" (.str (fmtYM01 (prevMonth ym))) kvs))) fp)
                    | _ => .error "AttributeError"
                | some _ => .error "TypeError"
                | none => .error "KeyError"
              else .ok fp
        else .ok fp
  | _, _ => .ok fp

/-- Rule 12 (lines 428-448): a `filter_expression` dict holding a
`Dimensions` dict with `Key == 'TAG'` is rewritten: the first value, when
it contains a colon, becomes a `Tags` filter split on the first colon with
`MatchOptions ['EQUALS']`, and the `Dimensions` entry is removed; with no
colon the `Dimensions` entry is simply dropped. -/
def fixFilterTagDimension (fp : Params) : Except String Params :=
  match getKey "filter_expression" fp with
  | some (.obj fe) =>
    match getKey "Dimensions" fe with
    | some (.obj dkvs) =>
      if getKey "Key" dkvs == some (Json.str "TAG") then
        match pyIndex0 ((getKey "Values" dkvs).getD (Json.arr [Json.str ""])) with
        | .error e => .error e
        | .ok tkv =>
          match pyIn ":" tkv with
          | .error e => .error e
          | .ok true =>
            match tkv with
            | .str s =>
              let p := splitFirst (Char.ofNat 58) s.data
              .ok (setKey "filter_expression"
                (.obj (removeKey "Dimensions" (setKey "Tags" (Json.obj
                  [("Key", .str (String.mk p.1)),
                   ("Values", .arr [.str (String.mk p.2)]),
                   ("MatchOptions", .arr [.str "EQUALS"])]) fe))) fp)
            | _ => .error "AttributeError"
          | .ok false =>
            .ok (setKey "filter_expression" (.obj (removeKey "Dimensions" fe)) fp)
      else .ok fp
    | _ => .ok fp
  | _ => .ok fp

/-- Error-propagating sequencing of two pipeline steps (the implicit
control flow of straight-line Python code that may raise). -/
def exBind {α β : Type} (x : Except String α) (f : α → Except String β) : Except String β :=
  match x with
  | .error e => .error e
  | .ok a => f a

/-- The ordered twelve-rule pipeline of `_fix_basic_parameters` applied to
the (shallow-copied) top-level dict payload. -/
def fix_params_pipeline (today : String) (tool_name : Json) (fp0 : Params) :
    Except String Params :=
  exBind (fixForecastStartDate today (fixGroupByShape fp0)) fun fp2 =>
  exBind (fixMetricNames tool_name fp2) fun fp3 =>
  exBind (fixMetricBoth tool_name fp3) fun fp4 =>
  exBind (fixRangeAlign "baseline_date_range"
      (fixComparisonKeyNames (fixGroupByInvalidDimension
        (fixGroupByTagEntries (fixMetricMultiple fp4))))) fun fp9 =>
  exBind (fixRangeAlign "comparison_date_range" fp9) fun fp10 =>
  exBind (shiftCurrentMonthRange today "baseline_date_range" fp10) fun fp11 =>
  exBind (shiftCurrentMonthRange today "comparison_date_range" fp11) fun fp12 =>
  exBind (fixComparisonCollision fp12) fun fp13 =>
  fixFilterTagDimension fp13

/-- Value returned by `TestSuite._fix_basic_parameters(parameters,
tool_name)` (test_suite.py lines 232-450), with `today` standing for
`datetime.now().strftime("%Y-%m-%d")`.  A dict goes through the pipeline;
a list survives `parameters.copy()` and is returned unchanged unless one
of the guard keys occurs among its elements, in which case the first such
guard raises `TypeError` on string indexing; scalars raise
`AttributeError` on `.copy()`. -/
def fix_basic_parameters (today : String) (parameters : Json) (tool_name : Json) :
    Except String Json :=
  match parameters with
  | .obj kvs => (fix_params_pipeline today tool_name kvs).map Json.obj
  | .arr xs =>
    if xs.contains (Json.str "group_by") || xs.contains (Json.str "date_range") ||
       xs.contains (Json.str "metric") ||
       (xs.contains (Json.str "current_period") && xs.contains (Json.str "previous_period")) ||
       xs.contains (Json.str "baseline_date_range") ||
       xs.contains (Json.str "comparison_date_range") ||
       xs.contains (Json.str "filter_expression")
    then .error "TypeError"
    else .ok (.arr xs)
  | _ => .error "AttributeError"

/-! ### Caller-visible aliasing of `_fix_basic_parameters`

`fixed_params = parameters.copy()` (line 236) is a shallow copy: the
nested values are shared with the caller.  The source mutates, in place,
the `date_range` dict (line 253), the elements of an uncollapsed
`group_by` list (line 318), the baseline/comparison range dicts (lines
345-357, 367-380, 396-397, 408-409, 425-426) — which, when rule 8
renamed the generic period keys, are the caller's `current_period` /
`previous_period` dicts — and the `filter_expression` dict (lines
440-448).  Everything else is written to the copy only.  `caller_after`
computes what the caller's `parameters` value denotes after a successful
call, by replaying those shared-object mutations onto the original. -/

/-- Whether rule 1 reassigns the copy's `group_by` binding (detaching it
from the caller's list) rather than leaving it aliased. -/
def group_by_collapses (v : Json) : Bool :=
  match v with
  | .arr [] => true
  | .arr (g0 :: _) =>
    match g0 with
    | .obj kvs => (getKey "Key" kvs).isSome
    | .str _ => true
    | _ => false
  | _ => false

/-- Caller's view of `parameters` after `_fix_basic_parameters(parameters,
tool_name)` returns (successfully). -/
def caller_after (today : String) (parameters : Json) (tool_name : Json) :
    Except String Json :=
  match parameters with
  | .obj kvs =>
    match fix_params_pipeline today tool_name kvs with
    | .error e => .error e
    | .ok res =>
      let both := (getKey "current_period" kvs).isSome && (getKey "previous_period" kvs).isSome
      .ok (.obj (kvs.map fun kv =>
        let k := kv.1
        let v := kv.2
        if k = "date_range" then (k, (getKey "date_range" res).getD v)
        else if k = "group_by" then
          match v with
          | .arr l =>
            if group_by_collapses (.arr l) then (k, v) else (k, (getKey "group_by" res).getD v)
          | _ => (k, v)
        else if k = "current_period" then
          (k, if both then (getKey "baseline_date_range" res).getD v else v)
        else if k = "previous_period" then
          (k, if both then (getKey "comparison_date_range" res).getD v else v)
        else if k = "baseline_date_range" then
          (k, if both then v else (getKey "baseline_date_range" res).getD v)
        else if k = "comparison_date_range" then
          (k, if both then v else (getKey "comparison_date_range" res).getD v)
        else if k = "filter_expression" then (k, (getKey "filter_expression" res).getD v)
        else (k, v)))
  | _ =>
    match fix_basic_parameters today parameters tool_name with
    | .error e => .error e
    | .ok _ => .ok parameters

/-! ### The metric splitter `TestSuite._split_multiple_metric_queries`
(test_suite.py lines 184-230). -/

/-- Lines 194-200: the query (lowercased) indicates that several cost
bases are wanted.  All tests are Python substring tests. -/
def needs_multiple_metrics (ql : String) : Bool :=
  (strSubstr "amortized" ql && strSubstr "blended" ql) ||
  (strSubstr "amortized" ql && strSubstr "unblended" ql) ||
  (strSubstr "blended" ql && strSubstr "unblended" ql) ||
  (strSubstr "separate" ql && (strSubstr "metric" ql || strSubstr "cost" ql)) ||
  (strSubstr "both" ql && (strSubstr "metric" ql || strSubstr "cost" ql))

/-- Lines 209-219: the concrete metric list derived from the query, with
the `[AmortizedCost, BlendedCost]` default when no cost basis is named. -/
def metrics_to_use (ql : String) : List String :=
  let ms :=
    (if strSubstr "amortized" ql then ["AmortizedCost"] else []) ++
    (if strSubstr "blended" ql then ["BlendedCost"] else []) ++
    (if strSubstr "unblended" ql then ["UnblendedCost"] else [])
  if ms.isEmpty then ["AmortizedCost", "BlendedCost"] else ms

/-- Value returned by `TestSuite._split_multiple_metric_queries(tool_call,
query)`: the original call, or a list of per-metric copies of it.  A
non-dict `parameters` value raises `AttributeError` at the
`parameters.get('metric', '')` probe (line 191). -/
def split_multiple_metric_queries (tool_call : Json) (query : String) :
    Except String Json :=
  match tool_call with
  | .obj kvs =>
    if (getKey "tool_name" kvs).isSome then
      let ql := strLower query
      match (getKey "parameters" kvs).getD (Json.obj []) with
      | .obj ps =>
        if needs_multiple_metrics ql &&
           getKey "tool_name" kvs == some (Json.str "get_cost_and_usage") then
          .ok (.arr ((metrics_to_use ql).map fun m =>
            Json.obj (setKey "parameters" (.obj (setKey "metric" (.str m) ps)) kvs)))
        else .ok tool_call
      | _ => .error "AttributeError"
    else .ok tool_call
  | _ => .ok tool_call

/-! ### The dispatcher loop of `TestSuite.run_single_query`
(test_suite.py lines 126-159).

The per-call protocol interaction `self.mcp_client.call_tool(...)` is
abstracted as an oracle `exec : Json → Json → Except String Json`
(tool-name value and normalized parameters in, result value out; an
`error` models an exception escaping the call).  The progress print at
line 132 calls `call.get(...)` outside the `try`, so a non-dict call
aborts the whole loop — the theorems therefore quantify over batches of
dict-shaped calls. -/

/-- One iteration of the `for i, call in enumerate(tool_call)` loop,
producing the `{tool_call, result, call_index}` entry for 0-based position
`i`. -/
def run_tool_call_entry (exec : Json → Json → Except String Json) (today : String)
    (i : Nat) (call : Json) : Except String Json :=
  match call with
  | .obj kvs =>
    if truthy call && (getKey "tool_name" kvs).isSome then
      match (do
        let fixed ← fix_basic_parameters today ((getKey "parameters" kvs).getD (Json.obj []))
          ((getKey "tool_name" kvs).getD Json.null)
        exec ((getKey "tool_name" kvs).getD Json.null) fixed : Except String Json) with
      | .ok r =>
        .ok (.obj [("tool_call", call), ("result", r), ("call_index", .int (i + 1))])
      | .error e =>
        .ok (.obj [("tool_call", call), ("result", .obj [("error", .str e)]),
                   ("call_index", .int (i + 1))])
    else
      .ok (.obj [("tool_call", call),
                 ("result", .obj [("error", .str "Invalid tool call format")]),
                 ("call_index", .int (i + 1))])
  | _ => .error "AttributeError"

/-- The whole loop, accumulating `actual_data` in order; `i` is the
0-based position of the first call of `calls` in the batch. -/
def run_tool_calls (exec : Json → Json → Except String Json) (today : String) :
    List Json → Nat → Except String (List Json)
  | [], _ => .ok []
  | c :: rest, i => do
    let e ← run_tool_call_entry exec today i c
    let es ← run_tool_calls exec today rest (i + 1)
    pure (e :: es)

/-! ### The response sanitizer `OfficialMCPClient._sanitize_json_response`
(web_app.py lines 221-237). -/

mutual

/-- The inner `sanitize_value` function: recursively rebuild dicts and
lists, replace any NaN or infinite float by `None`, pass everything else
through. -/
def sanitize_value : Json → Json
  | .obj kvs => .obj (sanitizeObjList kvs)
  | .arr xs => .arr (sanitizeList xs)
  | .float f => if f.nonfinite then .null else .float f
  | j => j

/-- List comprehension arm of `sanitize_value` (line 229). -/
def sanitizeList : List Json → List Json
  | [] => []
  | x :: xs => sanitize_value x :: sanitizeList xs

/-- Dict comprehension arm of `sanitize_value` (line 227). -/
def sanitizeObjList : Params → Params
  | [] => []
  | (k, v) :: kvs => (k, sanitize_value v) :: sanitizeObjList kvs

end

/-! ### Protocol client `OfficialMCPClient` wire messages and response
handling (web_app.py lines 88-219). -/

/-- The `initialize` request (lines 92-104); its correlation id is the
literal 1. -/
def initialize_request : Json :=
  .obj [("jsonrpc", .str "2.0"), ("id", .int 1), ("method", .str "initialize"),
        ("params", .obj
          [("protocolVersion", .str "2024-11-05"),
           ("capabilities", .obj [("tools", .obj [])]),
           ("clientInfo", .obj
             [("name", .str "cost-explorer-web-client"), ("version", .str "1.0.0")])])]

/-- The `initialized` notification (lines 119-122); it has no id. -/
def initialized_notification : Json :=
  .obj [("jsonrpc", .str "2.0"), ("method", .str "notifications/initialized")]

/-- The `tools/list` request (line 144); its correlation id is the
literal 2. -/
def tools_list_request : Json :=
  .obj [("jsonrpc", .str "2.0"), ("id", .int 2), ("method", .str "tools/list")]

/-- The `tools/call` request built by `call_tool` (lines 175-180); its
correlation id is the literal 3 for every invocation, and falsy
`parameters` are replaced by an empty dict (`parameters or {}`). -/
def tools_call_request (tool_name : String) (parameters : Json) : Json :=
  .obj [("jsonrpc", .str "2.0"), ("id", .int 3), ("method", .str "tools/call"),
        ("params", .obj
          [("name", .str tool_name),
           ("arguments", if truthy parameters then parameters else .obj [])])]

/-- Correlation id carried by a protocol message, when any. -/
def request_id (msg : Json) : Option Json :=
  match msg with
  | .obj kvs => getKey "id" kvs
  | _ => none

/-- Ids of all requests written to the child process in one session
consisting of `load_tools` (one `initialize`, one `tools/list`) followed
by `n` `tools/call` invocations. -/
def session_request_ids (n : Nat) : List Int :=
  1 :: 2 :: List.replicate n 3

/-- Processing of the parsed response line by `call_tool` (web_app.py
lines 190-209): branch only on the presence of `result` (and then
`content`); the response id is never inspected.  `parseJson` abstracts
`json.loads` of the embedded `content[0].text` payload; exceptions inside
the handler are caught by the enclosing `except` and become
`{success: False, error: str(e)}` envelopes (error texts approximate). -/
def call_tool_handle_response (parseJson : String → Option Json) (response : Json) : Json :=
  match pyIn "result" response with
  | .error e => .obj [("success", .bool false), ("error", .str e)]
  | .ok hasResult =>
    if hasResult then
      match subscript response "result" with
      | .error e => .obj [("success", .bool false), ("error", .str e)]
      | .ok result =>
        match pyIn "content" result with
        | .error e => .obj [("success", .bool false), ("error", .str e)]
        | .ok hasContent =>
          if hasContent then
            match (do
              let content ← subscript result "content"
              let c0 ← pyIndex0 content
              subscript c0 "text" : Except String Json) with
            | .error e => .obj [("success", .bool false), ("error", .str e)]
            | .ok (.str ts) =>
              match parseJson ts with
              | some parsed => sanitize_value parsed
              | none =>
                .obj [("success", .bool false),
                      ("error", .str "Failed to parse MCP response")]
            | .ok _ => .obj [("success", .bool false), ("error", .str "TypeError")]
          else sanitize_value result
    else
      match pyGetOpt response "error" with
      | .ok (some ev) => .obj [("success", .bool false), ("error", ev)]
      | .ok none => .obj [("success", .bool false), ("error", .str "Unknown error")]
      | .error e => .obj [("success", .bool false), ("error", .str e)]

/-! ### Auxiliary definitions used by the claim statements -/

mutual

/-- Recursively detect a non-finite float anywhere in a value. -/
def hasNonFinite : Json → Bool
  | .obj kvs => hasNonFiniteObj kvs
  | .arr xs => hasNonFiniteList xs
  | .float f => f.nonfinite
  | _ => false

/-- List arm of `hasNonFinite`. -/
def hasNonFiniteList : List Json → Bool
  | [] => false
  | x :: xs => hasNonFinite x || hasNonFiniteList xs

/-- Dict arm of `hasNonFinite`. -/
def hasNonFiniteObj : Params → Bool
  | [] => false
  | kv :: kvs => hasNonFinite kv.2 || hasNonFiniteObj kvs

end

mutual

/-- Modelled from the spec (§4.3 and §8): the output has the same shape as
the input, every float that is NaN or infinite — at any depth — is
replaced by null, and every other mapping key, sequence element and scalar
value is unchanged. -/
inductive SpecSanitized : Json → Json → Prop where
  | null : SpecSanitized .null .null
  | bool (b : Bool) : SpecSanitized (.bool b) (.bool b)
  | int (n : Int) : SpecSanitized (.int n) (.int n)
  | str (s : String) : SpecSanitized (.str s) (.str s)
  | floatFinite (f : PyFloat) (h : f.nonfinite = false) : SpecSanitized (.float f) (.float f)
  | floatNonFinite (f : PyFloat) (h : f.nonfinite = true) : SpecSanitized (.float f) .null
  | arr (xs ys : List Json) (h : SpecSanitizedList xs ys) : SpecSanitized (.arr xs) (.arr ys)
  | obj (kvs kws : Params) (h : SpecSanitizedObj kvs kws) : SpecSanitized (.obj kvs) (.obj kws)

/-- Sequence arm of `SpecSanitized`: elementwise, same length. -/
inductive SpecSanitizedList : List Json → List Json → Prop where
  | nil : SpecSanitizedList [] []
  | cons (x y : Json) (xs ys : List Json) (h : SpecSanitized x y)
      (hs : SpecSanitizedList xs ys) : SpecSanitizedList (x :: xs) (y :: ys)

/-- Mapping arm of `SpecSanitized`: same keys in the same order, values
related elementwise. -/
inductive SpecSanitizedObj : Params → Params → Prop where
  | nil : SpecSanitizedObj [] []
  | cons (k : String) (v w : Json) (kvs kws : Params) (h : SpecSanitized v w)
      (hs : SpecSanitizedObj kvs kws) : SpecSanitizedObj ((k, v) :: kvs) ((k, w) :: kws)

end

/-- Sample executor for the C5 witness: the first tool's execution raises
`BrokenPipeError`, every other tool call succeeds. -/
def execSample : Json → Json → Except String Json := fun t _ =>
  if t == Json.str "broken_tool" then .error "BrokenPipeError"
  else .ok (.obj [("success", .bool true)])

/-- Sample batch for the C5 witness: a failing call, a well-formed call,
and a call missing `tool_name`. -/
def batchSample : List Json :=
  [.obj [("tool_name", .str "broken_tool")],
   .obj [("tool_name", .str "get_cost_and_usage")],
   .obj [("x", .int 1)]]

/-- Sample tool call payload for the C4 witness. -/
def splitKvsSample : Params :=
  [("tool_name", .str "get_cost_and_usage"),
   ("parameters", .obj [("metric", .str "AmortizedCost"), ("granularity", .str "MONTHLY")])]

/-- Sample query for the C4 witness (test_suite.py line 69). -/
def splitQuerySample : String := "Show me amortized costs vs blended costs for RIs"

/-- Sample input bag for the C10 witness. -/
def c10InSample : Params :=
  [("granularity", .str "MONTHLY"),
   ("current_period", .obj [("start_date", .str "2025-09-05"), ("end_date", .str "2025-09-20")]),
   ("previous_period", .obj [("start_date", .str "2025-08-03"), ("end_date", .str "2025-08-25")]),
   ("metric", .str "UNBLENDED_COST")]

/-- Normalizer output for `c10InSample` on 2026-01-15 with no tool name. -/
def c10OutSample : Params :=
  [("granularity", .str "MONTHLY"),
   ("metric", .str "UnblendedCost"),
   ("baseline_date_range", .obj [("start_date", .str "2025-09-01"), ("end_date", .str "2025-10-01")]),
   ("comparison_date_range", .obj [("start_date", .str "2025-08-01"), ("end_date", .str "2025-09-01")])]

/-- Baseline range from the C6 example. -/
def c6Range : Params :=
  [("start_date", Json.str "2025-09-05"), ("end_date", Json.str "2025-09-20")]

/-- Parameter bag holding only the C6 baseline range. -/
def c6Params : Params := [("baseline_date_range", Json.obj c6Range)]

/-- Normalizer output for `c6Params` on 2026-10-12: the range aligned to
the whole month of September 2025. -/
def c6AlignedOut : Json :=
  Json.obj [("baseline_date_range",
    Json.obj [("start_date", Json.str "2025-09-01"), ("end_date", Json.str "2025-10-01")])]

/-- Normalizer output for `c6Params` on 2025-09-10: rule 10 pushes the
aligned range back one further month because its start falls in the
current month. -/
def c6ShiftedOut : Json :=
  Json.obj [("baseline_date_range",
    Json.obj [("start_date", Json.str "2025-08-01"), ("end_date", Json.str "2025-09-01")])]

/-- Baseline range accompanying the comparison range in the C6 witness. -/
def c6BaseRange : Params :=
  [("start_date", Json.str "2025-08-03"), ("end_date", Json.str "2025-08-25")]

/-- Comparison range of the C6 witness — the claim's example dates. -/
def c6CmpRange : Params :=
  [("start_date", Json.str "2025-09-05"), ("end_date", Json.str "2025-09-20")]

/-- Parameter bag of the C6 witness: a baseline and a comparison range
with starts in different months. -/
def c6CmpParams : Params :=
  [("baseline_date_range", Json.obj c6BaseRange),
   ("comparison_date_range", Json.obj c6CmpRange)]

/-- Normalizer output for `c6CmpParams` on 2026-10-12: both ranges
aligned to whole months. -/
def c6CmpOut : Json :=
  Json.obj
    [("baseline_date_range",
      Json.obj [("start_date", Json.str "2025-08-01"), ("end_date", Json.str "2025-09-01")]),
     ("comparison_date_range",
      Json.obj [("start_date", Json.str "2025-09-01"), ("end_date", Json.str "2025-10-01")])]

/-! ### Value-level mirrors of the single-key rules

Rules 1, 3, 4, 5, 6 and 7 each read and write exactly one top-level key.
The functions below state their effect on that key's value alone; lemmas
later in the file prove that each rule agrees with its mirror. -/

/-- Effect of rule 1 on the `group_by` value. -/
def gbV1 : Option Json → Option Json
  | some (.arr (g0 :: rest)) =>
    match g0 with
    | .obj kvs =>
      match getKey "Key" kvs with
      | some kv => some kv
      | none => some (.arr (Json.obj kvs :: rest))
    | .str s => some (.str s)
    | _ => some (.arr (g0 :: rest))
  | some (.arr []) => some Json.null
  | g => g

/-- Rule 6's element map: TAG-typed dicts become the string `SERVICE`. -/
def tagMap (g : Json) : Json := if isTagTyped g then Json.str "SERVICE" else g

/-- Effect of rule 6 on the `group_by` value. -/
def gbV6 : Option Json → Option Json
  | some (.arr l) => some (.arr (l.map tagMap))
  | g => g

/-- Effect of rule 7 on the `group_by` value. -/
def gbV7 : Option Json → Option Json
  | some (.str g) =>
    if invalid_dimensions.contains g then some (.str "SERVICE") else some (.str g)
  | g => g

/-- Effect of rule 3 on the `metric` value (`fc` = forecast family). -/
def metV3 (fc : Bool) : Option Json → Option Json
  | some (.str m) =>
    match lookupStr m (if fc then forecast_mapping else usage_mapping) with
    | some m2 => some (.str m2)
    | none => some (.str m)
  | g => g

/-- Effect of rule 4 on the `metric` value. -/
def metV4 (fc : Bool) : Option Json → Option Json
  | some (.str m) =>
    if m = "BOTH" then
      some (.str (if fc then "UNBLENDED_COST" else "AmortizedCost"))
    else some (.str m)
  | g => g

/-- Effect of rule 5 on the `metric` value. -/
def metV5 : Option Json → Option Json
  | some (.str m) =>
    if strSubstr "amortized" (strLower m) && strSubstr "blended" (strLower m) then
      some (.str "AmortizedCost")
    else some (.str m)
  | g => g

/-! ### Preconditions of the amended idempotence claim -/

/-- `group_by` shapes on which a second pass cannot act again: the head of
a `group_by` list must not be a keyless TAG-typed dict (rule 6 would turn
it into a string that rule 1 then collapses), and a collapsing head's
`Key` value must not itself be a list (rule 1 would collapse it again). -/
def gbPre : Option Json → Bool
  | some (.arr (g0 :: _)) =>
    match g0 with
    | .obj kvs =>
      match getKey "Key" kvs with
      | some (.arr _) => false
      | some _ => true
      | none => !(getKey "Type" kvs == some (Json.str "TAG"))
    | _ => true
  | _ => true

/-- `metric` shapes on which a second pass cannot act again: a string
metric bound for a forecast tool must not name both the amortized and the
blended cost bases (rule 5 would produce `AmortizedCost`, which rule 3's
forecast table renames on the next pass), and a non-string metric must be
hashable. -/
def metPre (fc : Bool) : Option Json → Bool
  | some (.str m) =>
    !(fc && strSubstr "amortized" (strLower m) && strSubstr "blended" (strLower m))
  | some v => hashable v
  | none => true

/-- A present comparison-family range must be a dict with string dates
whose start is well-formed `YYYY-MM-DD` text not falling in the current
month once truncated (rule 10 would otherwise move the aligned range). -/
def rangePre (today : String) (rv : Option Json) : Prop :=
  ∀ v, rv = some v → ∃ kvs s e, v = Json.obj kvs ∧
    getKey "start_date" kvs = some (Json.str s) ∧
    getKey "end_date" kvs = some (Json.str e) ∧
    isYMD s = true ∧ 7 ≤ e.data.length ∧
    strStartsWith (strTake s 7 ++ "-01") (strTake today 7) = false

/-- When both ranges are present their starts must lie in different
months (rule 11 would otherwise shift the comparison range, possibly into
the current month where rule 10 moves it again on a second pass). -/
def rangesDistinct (bv cv : Option Json) : Prop :=
  ∀ bkvs ckvs sB sC, bv = some (Json.obj bkvs) → cv = some (Json.obj ckvs) →
    getKey "start_date" bkvs = some (Json.str sB) →
    getKey "start_date" ckvs = some (Json.str sC) →
    strTake sB 7 ≠ strTake sC 7

/-- Stable metric values: rules 3, 4 and 5 leave them alone. -/
def metStable (fc : Bool) : Option Json → Prop
  | some (.str m) =>
    (lookupStr m (if fc then forecast_mapping else usage_mapping) = some m ∨
     lookupStr m (if fc then forecast_mapping else usage_mapping) = none) ∧
    m ≠ "BOTH" ∧
    (strSubstr "amortized" (strLower m) && strSubstr "blended" (strLower m)) = false
  | some v => hashable v = true
  | none => True

/-- Input bag of the C1 counterexample: a `group_by` list headed by a
keyless TAG-typed dict. -/
def c1GbIn : Params := [("group_by", Json.arr [Json.obj [("Type", Json.str "TAG")]])]

/-- Input bag of the C1 witness. -/
def c1In : Params :=
  [("group_by", Json.arr [Json.obj [("Key", Json.str "SERVICE")]]),
   ("metric", Json.str "BOTH"),
   ("date_range", Json.obj [("start_date", Json.str "2026-11-20"),
     ("end_date", Json.str "2026-12-31")]),
   ("baseline_date_range", Json.obj [("start_date", Json.str "2025-09-05"),
     ("end_date", Json.str "2025-09-20")]),
   ("comparison_date_range", Json.obj [("start_date", Json.str "2025-08-03"),
     ("end_date", Json.str "2025-08-25")]),
   ("filter_expression", Json.obj [("Dimensions",
     Json.obj [("Key", Json.str "TAG"), ("Values", Json.arr [Json.str "team:alpha"])])])]

/-- Normalizer output for `c1In` on 2026-10-12 with the plain usage tool:
a fixed point of the normalizer. -/
def c1Out : Json :=
  Json.obj
    [("group_by", Json.str "SERVICE"),
     ("metric", Json.str "AmortizedCost"),
     ("date_range", Json.obj [("start_date", Json.str "2026-10-12"),
       ("end_date", Json.str "2026-12-31")]),
     ("baseline_date_range", Json.obj [("start_date", Json.str "2025-09-01"),
       ("end_date", Json.str "2025-10-01")]),
     ("comparison_date_range", Json.obj [("start_date", Json.str "2025-08-01"),
       ("end_date", Json.str "2025-09-01")]),
     ("filter_expression", Json.obj [("Tags",
       Json.obj [("Key", Json.str "team"), ("Values", Json.arr [Json.str "alpha"]),
         ("MatchOptions", Json.arr [Json.str "EQUALS"])])])]

/-! ## Lemmas about the dict operations -/

theorem getKey_setKey_same (k : String) (v : Json) (m : Params) :
    getKey k (setKey k v m) = some v := by
  induction m with
  | nil => simp [getKey, setKey]
  | cons kv rest ih =>
    obtain ⟨k2, v2⟩ := kv
    by_cases h : k2 = k
    · simp [getKey, setKey, h]
    · simp [getKey, setKey, h, ih]

theorem getKey_setKey_other (k k2 : String) (v : Json) (m : Params) (h : k2 ≠ k) :
    getKey k (setKey k2 v m) = getKey k m := by
  induction m with
  | nil => simp [getKey, setKey, h]
  | cons kv rest ih =>
    obtain ⟨k3, v3⟩ := kv
    by_cases h3 : k3 = k2
    · subst h3
      simp [getKey, setKey, h]
    · by_cases h4 : k3 = k <;> simp [getKey, setKey, h3, h4, ih, Ne.symm h]

theorem getKey_removeKey_same (k : String) (m : Params) :
    getKey k (removeKey k m) = none := by
  induction m with
  | nil => simp [getKey, removeKey]
  | cons kv rest ih =>
    obtain ⟨k2, v2⟩ := kv
    by_cases h : k2 = k <;> simp [getKey, removeKey, h, ih]

theorem getKey_removeKey_other (k k2 : String) (m : Params) (h : k2 ≠ k) :
    getKey k (removeKey k2 m) = getKey k m := by
  induction m with
  | nil => simp [getKey, removeKey]
  | cons kv rest ih =>
    obtain ⟨k3, v3⟩ := kv
    by_cases h3 : k3 = k2
    · subst h3
      simp [getKey, removeKey, h, ih]
    · by_cases h4 : k3 = k <;> simp [getKey, removeKey, h3, h4, ih, Ne.symm h]

theorem setKey_self (k : String) (v : Json) (m : Params) (h : getKey k m = some v) :
    setKey k v m = m := by
  induction m with
  | nil => simp [getKey] at h
  | cons kv rest ih =>
    obtain ⟨k2, v2⟩ := kv
    by_cases h2 : k2 = k
    · subst h2
      simp [getKey] at h
      simp [setKey, h]
    · simp [getKey, h2] at h
      simp [setKey, h2, ih h]

/-! ## Inversion and frame lemmas for the normalizer pipeline -/

theorem exBind_ok {α β : Type} {x : Except String α} {f : α → Except String β} {b : β}
    (h : exBind x f = .ok b) : ∃ a, x = .ok a ∧ f a = .ok b := by
  cases x with
  | error e => simp [exBind] at h
  | ok a => exact ⟨a, rfl, h⟩

/-- Success states of every stage of the pipeline, recovered from a
successful run. -/
theorem pipeline_steps {today : String} {tool_name : Json} {fp0 out : Params}
    (h : fix_params_pipeline today tool_name fp0 = .ok out) :
    ∃ fp2 fp3 fp4 fp9 fp10 fp11 fp12 fp13,
      fixForecastStartDate today (fixGroupByShape fp0) = .ok fp2 ∧
      fixMetricNames tool_name fp2 = .ok fp3 ∧
      fixMetricBoth tool_name fp3 = .ok fp4 ∧
      fixRangeAlign "baseline_date_range"
        (fixComparisonKeyNames (fixGroupByInvalidDimension
          (fixGroupByTagEntries (fixMetricMultiple fp4)))) = .ok fp9 ∧
      fixRangeAlign "comparison_date_range" fp9 = .ok fp10 ∧
      shiftCurrentMonthRange today "baseline_date_range" fp10 = .ok fp11 ∧
      shiftCurrentMonthRange today "comparison_date_range" fp11 = .ok fp12 ∧
      fixComparisonCollision fp12 = .ok fp13 ∧
      fixFilterTagDimension fp13 = .ok out := by
  unfold fix_params_pipeline at h
  obtain ⟨fp2, h2, h⟩ := exBind_ok h
  obtain ⟨fp3, h3, h⟩ := exBind_ok h
  obtain ⟨fp4, h4, h⟩ := exBind_ok h
  obtain ⟨fp9, h9, h⟩ := exBind_ok h
  obtain ⟨fp10, h10, h⟩ := exBind_ok h
  obtain ⟨fp11, h11, h⟩ := exBind_ok h
  obtain ⟨fp12, h12, h⟩ := exBind_ok h
  obtain ⟨fp13, h13, h⟩ := exBind_ok h
  exact ⟨fp2, fp3, fp4, fp9, fp10, fp11, fp12, fp13, h2, h3, h4, h9, h10, h11, h12, h13, h⟩

theorem fixGroupByShape_frame (fp : Params) (k : String) (hk : k ≠ "group_by") :
    getKey k (fixGroupByShape fp) = getKey k fp := by
  unfold fixGroupByShape
  repeat' split
  all_goals first
    | rfl
    | exact getKey_setKey_other _ _ _ _ (Ne.symm hk)

theorem fixMetricMultiple_frame (fp : Params) (k : String) (hk : k ≠ "metric") :
    getKey k (fixMetricMultiple fp) = getKey k fp := by
  unfold fixMetricMultiple
  dsimp only
  repeat' split
  all_goals first
    | rfl
    | exact getKey_setKey_other _ _ _ _ (Ne.symm hk)

theorem fixGroupByTagEntries_frame (fp : Params) (k : String) (hk : k ≠ "group_by") :
    getKey k (fixGroupByTagEntries fp) = getKey k fp := by
  unfold fixGroupByTagEntries
  repeat' split
  all_goals first
    | rfl
    | exact getKey_setKey_other _ _ _ _ (Ne.symm hk)

theorem fixGroupByInvalidDimension_frame (fp : Params) (k : String) (hk : k ≠ "group_by") :
    getKey k (fixGroupByInvalidDimension fp) = getKey k fp := by
  unfold fixGroupByInvalidDimension
  repeat' split
  all_goals first
    | rfl
    | exact getKey_setKey_other _ _ _ _ (Ne.symm hk)

theorem fixComparisonKeyNames_frame (fp : Params) (k : String)
    (h1 : k ≠ "current_period") (h2 : k ≠ "previous_period")
    (h3 : k ≠ "baseline_date_range") (h4 : k ≠ "comparison_date_range") :
    getKey k (fixComparisonKeyNames fp) = getKey k fp := by
  unfold fixComparisonKeyNames
  repeat' split
  all_goals try rfl
  rw [getKey_setKey_other _ _ _ _ (Ne.symm h4), getKey_removeKey_other _ _ _ (Ne.symm h2),
    getKey_setKey_other _ _ _ _ (Ne.symm h3), getKey_removeKey_other _ _ _ (Ne.symm h1)]

theorem fixForecastStartDate_frame {today : String} {fp fp2 : Params} (k : String)
    (h : fixForecastStartDate today fp = .ok fp2) (hk : k ≠ "date_range") :
    getKey k fp2 = getKey k fp := by
  unfold fixForecastStartDate at h
  repeat' split at h
  all_goals simp at h
  all_goals subst h
  all_goals first
    | rfl
    | exact getKey_setKey_other _ _ _ _ (Ne.symm hk)

theorem fixMetricNames_frame {tool_name : Json} {fp fp2 : Params} (k : String)
    (h : fixMetricNames tool_name fp = .ok fp2) (hk : k ≠ "metric") :
    getKey k fp2 = getKey k fp := by
  unfold fixMetricNames at h
  repeat' split at h
  all_goals simp at h
  all_goals subst h
  all_goals first
    | rfl
    | exact getKey_setKey_other _ _ _ _ (Ne.symm hk)

theorem fixMetricBoth_frame {tool_name : Json} {fp fp2 : Params} (k : String)
    (h : fixMetricBoth tool_name fp = .ok fp2) (hk : k ≠ "metric") :
    getKey k fp2 = getKey k fp := by
  unfold fixMetricBoth at h
  repeat' split at h
  all_goals simp at h
  all_goals subst h
  all_goals first
    | rfl
    | exact getKey_setKey_other _ _ _ _ (Ne.symm hk)

theorem fixRangeAlign_frame {key : String} {fp fp2 : Params} (k : String)
    (h : fixRangeAlign key fp = .ok fp2) (hk : k ≠ key) :
    getKey k fp2 = getKey k fp := by
  unfold fixRangeAlign at h
  repeat' split at h
  all_goals simp at h
  all_goals subst h
  all_goals first
    | rfl
    | exact getKey_setKey_other _ _ _ _ (Ne.symm hk)

theorem shiftCurrentMonthRange_frame {today key : String} {fp fp2 : Params} (k : String)
    (h : shiftCurrentMonthRange today key fp = .ok fp2) (hk : k ≠ key) :
    getKey k fp2 = getKey k fp := by
  unfold shiftCurrentMonthRange at h
  repeat' split at h
  all_goals simp at h
  all_goals subst h
  all_goals first
    | rfl
    | exact getKey_setKey_other _ _ _ _ (Ne.symm hk)

theorem fixComparisonCollision_frame {fp fp2 : Params} (k : String)
    (h : fixComparisonCollision fp = .ok fp2) (hk : k ≠ "comparison_date_range") :
    getKey k fp2 = getKey k fp := by
  unfold fixComparisonCollision at h
  repeat' split at h
  all_goals simp at h
  all_goals subst h
  all_goals first
    | rfl
    | exact getKey_setKey_other _ _ _ _ (Ne.symm hk)

theorem fixFilterTagDimension_frame {fp fp2 : Params} (k : String)
    (h : fixFilterTagDimension fp = .ok fp2) (hk : k ≠ "filter_expression") :
    getKey k fp2 = getKey k fp := by
  unfold fixFilterTagDimension at h
  repeat' split at h
  all_goals simp at h
  all_goals subst h
  all_goals first
    | rfl
    | exact getKey_setKey_other _ _ _ _ (Ne.symm hk)

/-! ## Claim C8 — the response sanitizer -/

mutual

/-- The sanitizer realizes the spec relation and purges non-finite
floats. -/
theorem sanitize_value_spec :
    ∀ j, SpecSanitized j (sanitize_value j) ∧ hasNonFinite (sanitize_value j) = false
  | .null => ⟨.null, rfl⟩
  | .bool b => ⟨.bool b, rfl⟩
  | .int n => ⟨.int n, rfl⟩
  | .str s => ⟨.str s, rfl⟩
  | .float f => by
    cases hf : f.nonfinite
    · exact ⟨by simpa [sanitize_value, hf] using SpecSanitized.floatFinite f hf,
        by simp [sanitize_value, hf, hasNonFinite]⟩
    · exact ⟨by simpa [sanitize_value, hf] using SpecSanitized.floatNonFinite f hf,
        by simp [sanitize_value, hf, hasNonFinite]⟩
  | .arr xs => by
    obtain ⟨h1, h2⟩ := sanitizeList_spec xs
    exact ⟨SpecSanitized.arr xs (sanitizeList xs) h1, by simpa [sanitize_value, hasNonFinite]⟩
  | .obj kvs => by
    obtain ⟨h1, h2⟩ := sanitizeObjList_spec kvs
    exact ⟨SpecSanitized.obj kvs (sanitizeObjList kvs) h1, by simpa [sanitize_value, hasNonFinite]⟩

/-- List arm of `sanitize_value_spec`. -/
theorem sanitizeList_spec :
    ∀ xs, SpecSanitizedList xs (sanitizeList xs) ∧ hasNonFiniteList (sanitizeList xs) = false
  | [] => ⟨.nil, rfl⟩
  | x :: xs => by
    obtain ⟨h1, h2⟩ := sanitize_value_spec x
    obtain ⟨h3, h4⟩ := sanitizeList_spec xs
    exact ⟨SpecSanitizedList.cons _ _ _ _ h1 h3, by simp [sanitizeList, hasNonFiniteList, h2, h4]⟩

/-- Dict arm of `sanitize_value_spec`. -/
theorem sanitizeObjList_spec :
    ∀ kvs, SpecSanitizedObj kvs (sanitizeObjList kvs) ∧ hasNonFiniteObj (sanitizeObjList kvs) = false
  | [] => ⟨.nil, rfl⟩
  | (k, v) :: kvs => by
    obtain ⟨h1, h2⟩ := sanitize_value_spec v
    obtain ⟨h3, h4⟩ := sanitizeObjList_spec kvs
    exact ⟨SpecSanitizedObj.cons k _ _ _ _ h1 h3,
      by simp [sanitizeObjList, hasNonFiniteObj, h2, h4]⟩

end

/-- C8: for every acyclic JSON-like value, `_sanitize_json_response`
returns a value of the same shape in which every NaN or infinite float,
at any depth, is replaced by null and every other mapping key, sequence
element and scalar value is unchanged (the `SpecSanitized` relation,
modelled from the spec's words), and consequently the output contains no
non-finite numeric value anywhere in the structure. -/
theorem C8_response_sanitizer (j : Json) :
    SpecSanitized j (sanitize_value j) ∧ hasNonFinite (sanitize_value j) = false :=
  sanitize_value_spec j

/-! ## Claim C2 — request-id discipline (code bug)

The claim (and spec §3/§8) requires unique, monotonically increasing
request ids and treats a response whose id differs from the outstanding
request's id as a protocol error.  The source instead hard-codes ids 1, 2
and 3 (web_app.py lines 94, 144, 177 — id 3 for *every* `tools/call`) and
`call_tool` never reads the response's `id` (lines 190-209).  Spec §9
itself flags the fixed ids as "a bug to fix, not to preserve". -/

/-- C2: the code violates the claim.  A session with two tool calls
writes ids `[1, 2, 3, 3]` — neither unique nor monotonically increasing;
every `tools/call` request carries the literal id 3 regardless of the
tool; and the response handler consumes a response carrying id 7 as the
answer of the id-3 request (returning its sanitized `result`) instead of
raising a protocol error. -/
theorem C2_fixed_ids_and_no_id_check :
    session_request_ids 2 = [1, 2, 3, 3] ∧
    ¬ (session_request_ids 2).Nodup ∧
    ¬ List.Pairwise (fun a b : Int => a < b) (session_request_ids 2) ∧
    request_id (tools_call_request "get_cost_and_usage" (Json.obj [])) = some (Json.int 3) ∧
    request_id (tools_call_request "get_cost_forecast" (Json.obj [])) = some (Json.int 3) ∧
    call_tool_handle_response (fun _ => none)
      (Json.obj [("jsonrpc", .str "2.0"), ("id", .int 7), ("result", .obj [("ok", .int 1)])]) =
      Json.obj [("ok", .int 1)] := by
  refine ⟨rfl, by decide, by decide, rfl, rfl, rfl⟩

/-! ## Claim C3 — group_by normalization examples (code bug)

`group_by = ["SERVICE"]` does normalize to `"SERVICE"`.  But
`group_by = [{"Type": "TAG", "Key": "owner"}]` normalizes to `"owner"`:
the list-collapse rule (test_suite.py lines 239-246) runs before the
tag-elision rule (lines 313-319) and extracts the `Key`, so the
tag-elision rule never sees the entry.  This contradicts the source's own
comment ("Tag grouping is not supported in group_by - convert to SERVICE
grouping", lines 316-317) and the spec example, which both require
`"SERVICE"`. -/

/-- C3: evaluation of the normalizer at the claim's two inputs.  The first
matches the claim (`["SERVICE"]` becomes `"SERVICE"`); the second refutes
it — `[{"Type": "TAG", "Key": "owner"}]` becomes `"owner"`, not
`"SERVICE"` — exhibiting the divergence between the code and its
documented intent. -/
theorem C3_group_by_tag_key_bug :
    fix_basic_parameters "2026-10-12" (Json.obj [("group_by", .arr [.str "SERVICE"])])
      Json.null = .ok (.obj [("group_by", .str "SERVICE")]) ∧
    fix_basic_parameters "2026-10-12"
      (Json.obj [("group_by", .arr [.obj [("Type", .str "TAG"), ("Key", .str "owner")]])])
      Json.null = .ok (.obj [("group_by", .str "owner")]) ∧
    Json.str "owner" ≠ Json.str "SERVICE" := by
  refine ⟨rfl, rfl, by decide⟩

/-! ## Claim C5 — dispatcher batch shape, indices and failure isolation -/

theorem run_tool_call_entry_ok (exec : Json → Json → Except String Json) (today : String)
    (i : Nat) (kvs : Params) :
    ∃ e, run_tool_call_entry exec today i (.obj kvs) = .ok e := by
  unfold run_tool_call_entry
  by_cases h : truthy (Json.obj kvs) && (getKey "tool_name" kvs).isSome
  · simp only [h, if_true]
    cases hb : (do
        let fixed ← fix_basic_parameters today ((getKey "parameters" kvs).getD (Json.obj []))
          ((getKey "tool_name" kvs).getD Json.null)
        exec ((getKey "tool_name" kvs).getD Json.null) fixed : Except String Json) with
    | ok r => exact ⟨_, rfl⟩
    | error e => exact ⟨_, rfl⟩
  · simp only [h, if_false]
    exact ⟨_, rfl⟩

theorem run_tool_calls_spec (exec : Json → Json → Except String Json) (today : String) :
    ∀ (calls : List Json) (i0 : Nat), (∀ c ∈ calls, ∃ kvs, c = Json.obj kvs) →
    ∃ outs : List Json, run_tool_calls exec today calls i0 = .ok outs ∧
      outs.length = calls.length ∧
      ∀ i (hi : i < calls.length) (hi2 : i < outs.length),
        run_tool_call_entry exec today (i0 + i) (calls.get ⟨i, hi⟩) = .ok (outs.get ⟨i, hi2⟩) := by
  intro calls
  induction calls with
  | nil =>
    intro i0 _
    exact ⟨[], rfl, rfl, by intro i hi _; exact absurd hi (Nat.not_lt_zero i)⟩
  | cons c rest ih =>
    intro i0 h
    obtain ⟨kvs, hc⟩ := h c (List.mem_cons_self c rest)
    obtain ⟨e, he⟩ := run_tool_call_entry_ok exec today i0 kvs
    obtain ⟨outs, houts, hlen, hidx⟩ := ih (i0 + 1) (fun x hx => h x (List.mem_cons_of_mem c hx))
    refine ⟨e :: outs, ?_, by simp [hlen], ?_⟩
    · rw [hc]
      simp only [run_tool_calls, he, houts]
      rfl
    · intro i hi hi2
      cases i with
      | zero => simpa [hc] using he
      | succ j =>
        have hj : j < rest.length := by simpa using hi
        have hj2 : j < outs.length := by simpa using hi2
        have := hidx j hj hj2
        simpa [Nat.add_assoc, Nat.add_comm 1 j] using this

/-- C5: for every batch of (dict-shaped) tool calls handed to the
dispatcher loop of `run_single_query`, the output list has the same
length as the input; the entry produced for each call carries
`call_index` equal to that call's 1-based position in the batch and
depends only on that call and its position (so a failing call — e.g. one
whose execution raises `BrokenPipeError` — or a call missing `tool_name`
yields an error entry at its index while every other call in the batch
still contributes its own entry; there is no early abort). -/
theorem C5_dispatcher_batch (exec : Json → Json → Except String Json) (today : String)
    (calls : List Json) (hobj : ∀ c ∈ calls, ∃ kvs, c = Json.obj kvs) :
    ∃ outs : List Json, run_tool_calls exec today calls 0 = .ok outs ∧
      outs.length = calls.length ∧
      (∀ i (hi : i < calls.length) (hi2 : i < outs.length),
        run_tool_call_entry exec today i (calls.get ⟨i, hi⟩) = .ok (outs.get ⟨i, hi2⟩)) ∧
      (∀ i (hi2 : i < outs.length), ∃ ekvs, outs.get ⟨i, hi2⟩ = Json.obj ekvs ∧
        getKey "call_index" ekvs = some (.int (i + 1))) ∧
      (∀ i (hi : i < calls.length) (hi2 : i < outs.length) (kvs : Params),
        calls.get ⟨i, hi⟩ = Json.obj kvs →
        ¬ (truthy (Json.obj kvs) && (getKey "tool_name" kvs).isSome) = true →
        outs.get ⟨i, hi2⟩ = Json.obj
          [("tool_call", Json.obj kvs),
           ("result", Json.obj [("error", .str "Invalid tool call format")]),
           ("call_index", .int (i + 1))]) ∧
      (∀ i (hi : i < calls.length) (hi2 : i < outs.length) (kvs : Params) (msg : String),
        calls.get ⟨i, hi⟩ = Json.obj kvs →
        (truthy (Json.obj kvs) && (getKey "tool_name" kvs).isSome) = true →
        (do
          let fixed ← fix_basic_parameters today ((getKey "parameters" kvs).getD (Json.obj []))
            ((getKey "tool_name" kvs).getD Json.null)
          exec ((getKey "tool_name" kvs).getD Json.null) fixed : Except String Json) = .error msg →
        outs.get ⟨i, hi2⟩ = Json.obj
          [("tool_call", Json.obj kvs),
           ("result", Json.obj [("error", .str msg)]),
           ("call_index", .int (i + 1))]) := by
  obtain ⟨outs, houts, hlen, hidx⟩ := run_tool_calls_spec exec today calls 0 hobj
  have hidx0 : ∀ i (hi : i < calls.length) (hi2 : i < outs.length),
      run_tool_call_entry exec today i (calls.get ⟨i, hi⟩) = .ok (outs.get ⟨i, hi2⟩) := by
    intro i hi hi2
    simpa using hidx i hi hi2
  refine ⟨outs, houts, hlen, hidx0, ?_, ?_, ?_⟩
  · intro i hi2
    have hi : i < calls.length := by omega
    obtain ⟨kvs, hc⟩ := hobj (calls.get ⟨i, hi⟩) (List.get_mem calls i hi)
    have he := hidx0 i hi hi2
    rw [hc] at he
    unfold run_tool_call_entry at he
    by_cases hcond : (truthy (Json.obj kvs) && (getKey "tool_name" kvs).isSome) = true
    · simp only [hcond, if_true] at he
      cases hb : (do
          let fixed ← fix_basic_parameters today ((getKey "parameters" kvs).getD (Json.obj []))
            ((getKey "tool_name" kvs).getD Json.null)
          exec ((getKey "tool_name" kvs).getD Json.null) fixed : Except String Json) with
      | ok r =>
        rw [hb] at he
        exact ⟨_, (Except.ok.injEq _ _).mp he.symm, rfl⟩
      | error msg =>
        rw [hb] at he
        exact ⟨_, (Except.ok.injEq _ _).mp he.symm, rfl⟩
    · simp only [hcond, if_false] at he
      exact ⟨_, (Except.ok.injEq _ _).mp he.symm, rfl⟩
  · intro i hi hi2 kvs hc hcond
    have he := hidx0 i hi hi2
    rw [hc] at he
    unfold run_tool_call_entry at he
    simp only [eq_false_of_ne_true (fun h => hcond h), if_false] at he
    exact ((Except.ok.injEq _ _).mp he).symm
  · intro i hi hi2 kvs msg hc hcond hb
    have he := hidx0 i hi hi2
    rw [hc] at he
    unfold run_tool_call_entry at he
    simp only [hcond, if_true] at he
    rw [hb] at he
    exact ((Except.ok.injEq _ _).mp he).symm

/-- C5 witness: the dispatcher theorem applied to a concrete 3-call batch
whose first call raises `BrokenPipeError` and whose last call is missing
`tool_name`. -/
theorem C5_dispatcher_batch_witness :
    ∃ outs : List Json, run_tool_calls execSample "2026-10-12" batchSample 0 = .ok outs ∧
      outs.length = batchSample.length ∧
      (∀ i (hi : i < batchSample.length) (hi2 : i < outs.length),
        run_tool_call_entry execSample "2026-10-12" i (batchSample.get ⟨i, hi⟩) =
          .ok (outs.get ⟨i, hi2⟩)) ∧
      (∀ i (hi2 : i < outs.length), ∃ ekvs, outs.get ⟨i, hi2⟩ = Json.obj ekvs ∧
        getKey "call_index" ekvs = some (.int (i + 1))) ∧
      (∀ i (hi : i < batchSample.length) (hi2 : i < outs.length) (kvs : Params),
        batchSample.get ⟨i, hi⟩ = Json.obj kvs →
        ¬ (truthy (Json.obj kvs) && (getKey "tool_name" kvs).isSome) = true →
        outs.get ⟨i, hi2⟩ = Json.obj
          [("tool_call", Json.obj kvs),
           ("result", Json.obj [("error", .str "Invalid tool call format")]),
           ("call_index", .int (i + 1))]) ∧
      (∀ i (hi : i < batchSample.length) (hi2 : i < outs.length) (kvs : Params) (msg : String),
        batchSample.get ⟨i, hi⟩ = Json.obj kvs →
        (truthy (Json.obj kvs) && (getKey "tool_name" kvs).isSome) = true →
        (do
          let fixed ← fix_basic_parameters "2026-10-12"
            ((getKey "parameters" kvs).getD (Json.obj []))
            ((getKey "tool_name" kvs).getD Json.null)
          execSample ((getKey "tool_name" kvs).getD Json.null) fixed : Except String Json) =
            .error msg →
        outs.get ⟨i, hi2⟩ = Json.obj
          [("tool_call", Json.obj kvs),
           ("result", Json.obj [("error", .str msg)]),
           ("call_index", .int (i + 1))]) :=
  C5_dispatcher_batch execSample "2026-10-12" batchSample (by
    intro c hc
    simp [batchSample] at hc
    rcases hc with h | h | h <;> exact ⟨_, h⟩)

/-! ## Claim C4 — splitting multi-metric queries -/

/-- C4: for a data-model tool call (a dict with a `tool_name` and a dict
`parameters`, possibly absent) aimed at `get_cost_and_usage` whose
originating query requests more than one cost-basis metric (the splitter
trigger `needs_multiple_metrics`), the splitter returns exactly one tool
call per requested metric — the requested metrics being the cost bases
named in the query, or the `[AmortizedCost, BlendedCost]` default when
the query asks for separate/both results without naming one — each call
identical to the original except for the `metric` field.  Any call whose
tool is different or whose query does not trigger the splitter is
returned unchanged as a single call. -/
theorem C4_metric_splitter (q : String) (kvs ps : Params) (tn : Json)
    (htool : getKey "tool_name" kvs = some tn)
    (hps : (getKey "parameters" kvs).getD (Json.obj []) = Json.obj ps) :
    (tn = Json.str "get_cost_and_usage" → needs_multiple_metrics (strLower q) = true →
      split_multiple_metric_queries (Json.obj kvs) q =
        .ok (.arr ((metrics_to_use (strLower q)).map fun m =>
          Json.obj (setKey "parameters" (.obj (setKey "metric" (.str m) ps)) kvs))) ∧
      1 ≤ (metrics_to_use (strLower q)).length) ∧
    ((tn ≠ Json.str "get_cost_and_usage" ∨ needs_multiple_metrics (strLower q) = false) →
      split_multiple_metric_queries (Json.obj kvs) q = .ok (.obj kvs)) ∧
    (∀ m, m ∈ metrics_to_use (strLower q) ↔
      ((m = "AmortizedCost" ∧ strSubstr "amortized" (strLower q) = true) ∨
       (m = "BlendedCost" ∧ strSubstr "blended" (strLower q) = true) ∨
       (m = "UnblendedCost" ∧ strSubstr "unblended" (strLower q) = true) ∨
       ((m = "AmortizedCost" ∨ m = "BlendedCost") ∧
        strSubstr "amortized" (strLower q) = false ∧
        strSubstr "blended" (strLower q) = false ∧
        strSubstr "unblended" (strLower q) = false))) := by
  refine ⟨?_, ?_, ?_⟩
  · intro htn hneeds
    subst htn
    constructor
    · simp [split_multiple_metric_queries, htool, hps, hneeds]
    · cases ha : strSubstr "amortized" (strLower q) <;>
        cases hb : strSubstr "blended" (strLower q) <;>
          cases hc : strSubstr "unblended" (strLower q) <;>
            simp [metrics_to_use, ha, hb, hc]
  · intro hother
    rcases hother with hne | hneeds
    · cases htn : tn == Json.str "get_cost_and_usage" with
      | true => exact absurd (eq_of_beq htn) hne
      | false =>
        simp [split_multiple_metric_queries, htool, hps, htn]
    · simp [split_multiple_metric_queries, htool, hps, hneeds]
  · intro m
    cases ha : strSubstr "amortized" (strLower q) <;>
      cases hb : strSubstr "blended" (strLower q) <;>
        cases hc : strSubstr "unblended" (strLower q) <;>
          simp [metrics_to_use, ha, hb, hc]

/-- C4 witness: the splitter theorem applied at a concrete two-basis
query and tool call. -/
theorem C4_metric_splitter_witness :
    (Json.str "get_cost_and_usage" = Json.str "get_cost_and_usage" →
      needs_multiple_metrics (strLower splitQuerySample) = true →
      split_multiple_metric_queries (Json.obj splitKvsSample) splitQuerySample =
        .ok (.arr ((metrics_to_use (strLower splitQuerySample)).map fun m =>
          Json.obj (setKey "parameters"
            (.obj (setKey "metric" (.str m)
              [("metric", .str "AmortizedCost"), ("granularity", .str "MONTHLY")]))
            splitKvsSample))) ∧
      1 ≤ (metrics_to_use (strLower splitQuerySample)).length) ∧
    ((Json.str "get_cost_and_usage" ≠ Json.str "get_cost_and_usage" ∨
      needs_multiple_metrics (strLower splitQuerySample) = false) →
      split_multiple_metric_queries (Json.obj splitKvsSample) splitQuerySample =
        .ok (.obj splitKvsSample)) ∧
    (∀ m, m ∈ metrics_to_use (strLower splitQuerySample) ↔
      ((m = "AmortizedCost" ∧ strSubstr "amortized" (strLower splitQuerySample) = true) ∨
       (m = "BlendedCost" ∧ strSubstr "blended" (strLower splitQuerySample) = true) ∨
       (m = "UnblendedCost" ∧ strSubstr "unblended" (strLower splitQuerySample) = true) ∨
       ((m = "AmortizedCost" ∨ m = "BlendedCost") ∧
        strSubstr "amortized" (strLower splitQuerySample) = false ∧
        strSubstr "blended" (strLower splitQuerySample) = false ∧
        strSubstr "unblended" (strLower splitQuerySample) = false))) :=
  C4_metric_splitter splitQuerySample splitKvsSample
    [("metric", .str "AmortizedCost"), ("granularity", .str "MONTHLY")]
    (Json.str "get_cost_and_usage") rfl rfl

/-! ## Claim C7 — TAG-as-dimension filter rewrite -/

/-- C7: for every parameter bag on which the normalizer succeeds and whose
`filter_expression` holds a `Dimensions` dict with `Key = "TAG"` and a
first value that is a string: when that value contains a colon, the
`Dimensions` entry is removed and a `Tags` filter is added whose `Key` is
the text before the first colon, whose `Values` is the one-element list of
the text after it, and whose `MatchOptions` is `["EQUALS"]`; when it
contains no colon, the `Dimensions` entry is dropped rather than passed
through. -/
theorem C7_tag_dimension_filter (today : String) (tool_name : Json)
    (kvs out fe dkvs : Params) (v : String) (rest : List Json)
    (h : fix_basic_parameters today (.obj kvs) tool_name = .ok (.obj out))
    (hfe : getKey "filter_expression" kvs = some (.obj fe))
    (hdims : getKey "Dimensions" fe = some (.obj dkvs))
    (hkey : getKey "Key" dkvs = some (.str "TAG"))
    (hvals : getKey "Values" dkvs = some (.arr (Json.str v :: rest))) :
    getKey "filter_expression" out = some (.obj
      (if strSubstr ":" v then
        removeKey "Dimensions" (setKey "Tags" (Json.obj
          [("Key", .str (String.mk (splitFirst (Char.ofNat 58) v.data).1)),
           ("Values", .arr [.str (String.mk (splitFirst (Char.ofNat 58) v.data).2)]),
           ("MatchOptions", .arr [.str "EQUALS"])]) fe)
       else removeKey "Dimensions" fe)) := by
  have hp : ∃ out2, fix_params_pipeline today tool_name kvs = .ok out2 ∧ out2 = out := by
    unfold fix_basic_parameters at h
    dsimp only at h
    cases hpp : fix_params_pipeline today tool_name kvs with
    | error e => rw [hpp] at h; simp [Except.map] at h
    | ok o =>
      rw [hpp] at h
      simp only [Except.map, Except.ok.injEq, Json.obj.injEq] at h
      exact ⟨o, rfl, h⟩
  obtain ⟨out2, hpp, hoo⟩ := hp
  subst hoo
  obtain ⟨fp2, fp3, fp4, fp9, fp10, fp11, fp12, fp13, h2, h3, h4, h9, h10, h11, h12, h13, h14⟩ :=
    pipeline_steps hpp
  have hchain : getKey "filter_expression" fp13 = some (.obj fe) := by
    rw [fixComparisonCollision_frame _ h13 (by decide),
        shiftCurrentMonthRange_frame _ h12 (by decide),
        shiftCurrentMonthRange_frame _ h11 (by decide),
        fixRangeAlign_frame _ h10 (by decide),
        fixRangeAlign_frame _ h9 (by decide),
        fixComparisonKeyNames_frame _ _ (by decide) (by decide) (by decide) (by decide),
        fixGroupByInvalidDimension_frame _ _ (by decide),
        fixGroupByTagEntries_frame _ _ (by decide),
        fixMetricMultiple_frame _ _ (by decide),
        fixMetricBoth_frame _ h4 (by decide),
        fixMetricNames_frame _ h3 (by decide),
        fixForecastStartDate_frame _ h2 (by decide),
        fixGroupByShape_frame _ _ (by decide)]
    exact hfe
  unfold fixFilterTagDimension at h14
  rw [hchain] at h14
  simp only [hdims, hkey, hvals, Option.getD, pyIndex0, pyIn] at h14
  have hcs : containsSub (String.data ":") v.data = strSubstr ":" v := rfl
  rw [hcs] at h14
  cases hcolon : strSubstr ":" v with
  | true =>
    rw [hcolon] at h14
    simp only [beq_self_eq_true, if_true] at h14
    simp only [Except.ok.injEq] at h14
    subst h14
    simp [hcolon, getKey_setKey_same]
  | false =>
    rw [hcolon] at h14
    simp only [beq_self_eq_true, if_true] at h14
    simp only [Except.ok.injEq] at h14
    subst h14
    simp [hcolon, getKey_setKey_same]

/-- C7 witness: the theorem applied to the claim's concrete example
`{Key: "TAG", Values: ["team:alpha"]}`, which rewrites to
`{Tags: {Key: "team", Values: ["alpha"], MatchOptions: ["EQUALS"]}}`. -/
theorem C7_tag_dimension_filter_witness :
    getKey "filter_expression"
      [("filter_expression", Json.obj
        [("Tags", .obj [("Key", .str "team"), ("Values", .arr [.str "alpha"]),
                        ("MatchOptions", .arr [.str "EQUALS"])])])] = some (.obj
      (if strSubstr ":" "team:alpha" then
        removeKey "Dimensions" (setKey "Tags" (Json.obj
          [("Key", .str (String.mk (splitFirst (Char.ofNat 58) ("team:alpha").data).1)),
           ("Values", .arr [.str (String.mk (splitFirst (Char.ofNat 58) ("team:alpha").data).2)]),
           ("MatchOptions", .arr [.str "EQUALS"])])
          [("Dimensions", .obj [("Key", .str "TAG"), ("Values", .arr [.str "team:alpha"])])])
       else removeKey "Dimensions"
         [("Dimensions", .obj [("Key", .str "TAG"), ("Values", .arr [.str "team:alpha"])])])) :=
  C7_tag_dimension_filter "2026-10-12" Json.null
    [("filter_expression", .obj
      [("Dimensions", .obj [("Key", .str "TAG"), ("Values", .arr [.str "team:alpha"])])])]
    [("filter_expression", Json.obj
      [("Tags", .obj [("Key", .str "team"), ("Values", .arr [.str "alpha"]),
                      ("MatchOptions", .arr [.str "EQUALS"])])])]
    [("Dimensions", .obj [("Key", .str "TAG"), ("Values", .arr [.str "team:alpha"])])]
    [("Key", .str "TAG"), ("Values", .arr [.str "team:alpha"])]
    "team:alpha" [] rfl rfl rfl rfl rfl

/-! ## Claim C9 — observable in-place mutation (corrected)

The shallow `parameters.copy()` shares every nested value with the
caller, and several rules mutate those shared values in place, so the
claim "the caller's parameter value is unchanged after the call,
including its nested values" is false: clamping a future
`date_range.start_date` (rule 2) is visible to the caller. -/

/-- C9 counterexample: with today = `2026-10-12` and
`parameters = {date_range: {start_date: "9999-12-31"}}`, the caller's
value after the call has `start_date = "2026-10-12"` — the nested dict
was mutated in place, refuting the claim as stated. -/
theorem C9_counterexample_mutation :
    caller_after "2026-10-12"
      (.obj [("date_range", .obj [("start_date", .str "9999-12-31")])]) Json.null =
      .ok (.obj [("date_range", .obj [("start_date", .str "2026-10-12")])]) ∧
    Json.obj [("date_range", .obj [("start_date", .str "2026-10-12")])] ≠
      Json.obj [("date_range", .obj [("start_date", .str "9999-12-31")])] := by
  exact ⟨rfl, by decide⟩

theorem getKey_none_not_mem {k : String} {kvs : Params} (h : getKey k kvs = none) :
    ∀ kv ∈ kvs, kv.1 ≠ k := by
  induction kvs with
  | nil => intro kv hkv; cases hkv
  | cons kv2 rest ih =>
    intro kv hkv
    obtain ⟨k2, v2⟩ := kv2
    by_cases hk2 : k2 = k
    · simp [getKey, hk2] at h
    · simp [getKey, hk2] at h
      rcases List.mem_cons.mp hkv with h1 | h1
      · subst h1; exact hk2
      · exact ih h kv h1

theorem list_map_id_of_mem {α : Type} {f : α → α} :
    ∀ (l : List α), (∀ x ∈ l, f x = x) → l.map f = l := by
  intro l
  induction l with
  | nil => intro _; rfl
  | cons x xs ih =>
    intro h
    simp only [List.map_cons]
    rw [h x (List.mem_cons_self x xs), ih (fun y hy => h y (List.mem_cons_of_mem x hy))]

/-- C9 (amended): the normalizer returns a new top-level parameter bag
and never mutates the caller's top-level mapping, but the nested values
(`date_range`, `current_period`, `previous_period`,
`baseline_date_range`, `comparison_date_range`, `filter_expression`, and
an uncollapsed `group_by` list) are shared with the caller and may be
mutated in place.  Consequently, whenever the bag binds none of those six
keys and none of its `group_by` bindings is a sequence, a successful call
leaves the caller's value exactly unchanged. -/
theorem C9_no_mutation_without_shared_fields (today : String) (tool_name : Json)
    (kvs : Params) (out : Json)
    (h : caller_after today (.obj kvs) tool_name = .ok out)
    (hdr : getKey "date_range" kvs = none)
    (hcp : getKey "current_period" kvs = none)
    (hpp : getKey "previous_period" kvs = none)
    (hbl : getKey "baseline_date_range" kvs = none)
    (hcm : getKey "comparison_date_range" kvs = none)
    (hfl : getKey "filter_expression" kvs = none)
    (hgb : ∀ kv ∈ kvs, kv.1 = "group_by" → ∀ l, kv.2 ≠ Json.arr l) :
    out = .obj kvs := by
  unfold caller_after at h
  dsimp only at h
  cases hpipe : fix_params_pipeline today tool_name kvs with
  | error e => rw [hpipe] at h; exact absurd h (by simp)
  | ok res =>
    rw [hpipe] at h
    simp only [Except.ok.injEq] at h
    have hpt : ∀ kv ∈ kvs, kv.1 ≠ "date_range" ∧ kv.1 ≠ "current_period" ∧
        kv.1 ≠ "previous_period" ∧ kv.1 ≠ "baseline_date_range" ∧
        kv.1 ≠ "comparison_date_range" ∧ kv.1 ≠ "filter_expression" := by
      intro kv hkv
      exact ⟨getKey_none_not_mem hdr kv hkv, getKey_none_not_mem hcp kv hkv,
        getKey_none_not_mem hpp kv hkv, getKey_none_not_mem hbl kv hkv,
        getKey_none_not_mem hcm kv hkv, getKey_none_not_mem hfl kv hkv⟩
    rw [← h]
    congr 1
    apply list_map_id_of_mem
    intro kv hkv
    obtain ⟨k, v⟩ := kv
    obtain ⟨n1, n2, n3, n4, n5, n6⟩ := hpt (k, v) hkv
    simp only at n1 n2 n3 n4 n5 n6
    by_cases hk : k = "group_by"
    · subst hk
      cases v with
      | arr l => exact absurd rfl (hgb _ hkv rfl l)
      | null => simp
      | bool b => simp
      | int n => simp
      | float f => simp
      | str s => simp
      | obj o => simp
    · simp [n1, n2, n3, n4, n5, n6, hk]

/-- C9 witness: the amended no-mutation theorem applied to a concrete bag
holding only `granularity` and a string `group_by`. -/
theorem C9_no_mutation_witness :
    Json.obj [("granularity", .str "MONTHLY"), ("group_by", .str "SERVICE")] =
      .obj [("granularity", .str "MONTHLY"), ("group_by", .str "SERVICE")] :=
  C9_no_mutation_without_shared_fields "2026-10-12" Json.null
    [("granularity", .str "MONTHLY"), ("group_by", .str "SERVICE")]
    (.obj [("granularity", .str "MONTHLY"), ("group_by", .str "SERVICE")])
    rfl rfl rfl rfl rfl rfl rfl
    (by
      intro kv hkv hk l
      simp [List.mem_cons] at hkv
      rcases hkv with h1 | h1 <;> rw [h1] <;> simp)

/-! ## Claim C10 — top-level frame of the normalizer (corrected)

Every rule writes only to `group_by`, `metric`, `date_range`, the four
period/range keys, or `filter_expression`; the only keys ever removed are
`current_period` / `previous_period`, popped by the renaming rule when
both are present.  But the renamed values are *not* preserved verbatim:
the comparison date rules (9-11) rewrite them afterwards. -/

/-- C10 counterexample: the renamed `baseline_date_range` value is the
month-aligned range, not the original `current_period` value, refuting
the claim's "with their values preserved". -/
theorem C10_counterexample_rename_not_verbatim :
    fix_basic_parameters "2026-01-15"
      (.obj [("current_period", .obj [("start_date", .str "2025-09-05"),
                                      ("end_date", .str "2025-09-20")]),
             ("previous_period", .obj [("start_date", .str "2025-08-03"),
                                       ("end_date", .str "2025-08-25")])]) Json.null =
      .ok (.obj [("baseline_date_range", .obj [("start_date", .str "2025-09-01"),
                                               ("end_date", .str "2025-10-01")]),
                 ("comparison_date_range", .obj [("start_date", .str "2025-08-01"),
                                                 ("end_date", .str "2025-09-01")])]) ∧
    Json.obj [("start_date", .str "2025-09-01"), ("end_date", .str "2025-10-01")] ≠
      Json.obj [("start_date", .str "2025-09-05"), ("end_date", .str "2025-09-20")] :=
  ⟨by rfl, by decide⟩

theorem getKey_setKey_ne_none {k k2 : String} {v : Json} {fp : Params}
    (h : getKey k fp ≠ none) : getKey k (setKey k2 v fp) ≠ none := by
  by_cases hk : k2 = k
  · subst hk; simp [getKey_setKey_same]
  · rw [getKey_setKey_other _ _ _ _ hk]; exact h

theorem fixGroupByShape_presence (fp : Params) (k : String) (hp : getKey k fp ≠ none) :
    getKey k (fixGroupByShape fp) ≠ none := by
  unfold fixGroupByShape
  repeat' split
  all_goals (repeat apply getKey_setKey_ne_none)
  all_goals exact hp

theorem fixMetricMultiple_presence (fp : Params) (k : String) (hp : getKey k fp ≠ none) :
    getKey k (fixMetricMultiple fp) ≠ none := by
  unfold fixMetricMultiple
  dsimp only
  repeat' split
  all_goals (repeat apply getKey_setKey_ne_none)
  all_goals exact hp

theorem fixGroupByTagEntries_presence (fp : Params) (k : String) (hp : getKey k fp ≠ none) :
    getKey k (fixGroupByTagEntries fp) ≠ none := by
  unfold fixGroupByTagEntries
  repeat' split
  all_goals (repeat apply getKey_setKey_ne_none)
  all_goals exact hp

theorem fixGroupByInvalidDimension_presence (fp : Params) (k : String)
    (hp : getKey k fp ≠ none) : getKey k (fixGroupByInvalidDimension fp) ≠ none := by
  unfold fixGroupByInvalidDimension
  repeat' split
  all_goals (repeat apply getKey_setKey_ne_none)
  all_goals exact hp

theorem fixForecastStartDate_presence {today : String} {fp fp2 : Params} (k : String)
    (h : fixForecastStartDate today fp = .ok fp2) (hp : getKey k fp ≠ none) :
    getKey k fp2 ≠ none := by
  unfold fixForecastStartDate at h
  repeat' split at h
  all_goals simp at h
  all_goals subst h
  all_goals (repeat apply getKey_setKey_ne_none)
  all_goals exact hp

theorem fixMetricNames_presence {tool_name : Json} {fp fp2 : Params} (k : String)
    (h : fixMetricNames tool_name fp = .ok fp2) (hp : getKey k fp ≠ none) :
    getKey k fp2 ≠ none := by
  unfold fixMetricNames at h
  repeat' split at h
  all_goals simp at h
  all_goals subst h
  all_goals (repeat apply getKey_setKey_ne_none)
  all_goals exact hp

theorem fixMetricBoth_presence {tool_name : Json} {fp fp2 : Params} (k : String)
    (h : fixMetricBoth tool_name fp = .ok fp2) (hp : getKey k fp ≠ none) :
    getKey k fp2 ≠ none := by
  unfold fixMetricBoth at h
  repeat' split at h
  all_goals simp at h
  all_goals subst h
  all_goals (repeat apply getKey_setKey_ne_none)
  all_goals exact hp

theorem fixRangeAlign_presence {key : String} {fp fp2 : Params} (k : String)
    (h : fixRangeAlign key fp = .ok fp2) (hp : getKey k fp ≠ none) :
    getKey k fp2 ≠ none := by
  unfold fixRangeAlign at h
  repeat' split at h
  all_goals simp at h
  all_goals subst h
  all_goals (repeat apply getKey_setKey_ne_none)
  all_goals exact hp

theorem shiftCurrentMonthRange_presence {today key : String} {fp fp2 : Params} (k : String)
    (h : shiftCurrentMonthRange today key fp = .ok fp2) (hp : getKey k fp ≠ none) :
    getKey k fp2 ≠ none := by
  unfold shiftCurrentMonthRange at h
  repeat' split at h
  all_goals simp at h
  all_goals subst h
  all_goals (repeat apply getKey_setKey_ne_none)
  all_goals exact hp

theorem fixComparisonCollision_presence {fp fp2 : Params} (k : String)
    (h : fixComparisonCollision fp = .ok fp2) (hp : getKey k fp ≠ none) :
    getKey k fp2 ≠ none := by
  unfold fixComparisonCollision at h
  repeat' split at h
  all_goals simp at h
  all_goals subst h
  all_goals (repeat apply getKey_setKey_ne_none)
  all_goals exact hp

theorem fixFilterTagDimension_presence {fp fp2 : Params} (k : String)
    (h : fixFilterTagDimension fp = .ok fp2) (hp : getKey k fp ≠ none) :
    getKey k fp2 ≠ none := by
  unfold fixFilterTagDimension at h
  repeat' split at h
  all_goals simp at h
  all_goals subst h
  all_goals (repeat apply getKey_setKey_ne_none)
  all_goals exact hp

theorem fixComparisonKeyNames_eq_self {fp : Params}
    (h : getKey "current_period" fp = none ∨ getKey "previous_period" fp = none) :
    fixComparisonKeyNames fp = fp := by
  unfold fixComparisonKeyNames
  rcases h with h | h
  · rw [h]
  · rw [h]
    cases h1 : getKey "current_period" fp <;> rfl

theorem fixComparisonKeyNames_both {fp : Params} {cur prev : Json}
    (h1 : getKey "current_period" fp = some cur)
    (h2 : getKey "previous_period" fp = some prev) :
    fixComparisonKeyNames fp =
      setKey "comparison_date_range" prev
        (removeKey "previous_period"
          (setKey "baseline_date_range" cur (removeKey "current_period" fp))) := by
  unfold fixComparisonKeyNames
  rw [h1, h2]

theorem fixComparisonKeyNames_presence {fp : Params} (k : String)
    (hk1 : k ≠ "current_period") (hk2 : k ≠ "previous_period")
    (hp : getKey k fp ≠ none) : getKey k (fixComparisonKeyNames fp) ≠ none := by
  unfold fixComparisonKeyNames
  split
  · apply getKey_setKey_ne_none
    rw [getKey_removeKey_other _ _ _ (Ne.symm hk2)]
    apply getKey_setKey_ne_none
    rw [getKey_removeKey_other _ _ _ (Ne.symm hk1)]
    exact hp
  · exact hp

/-- C10 (amended): a successful run of the normalizer preserves, with
identical values, every top-level key other than `group_by`, `metric`,
`date_range`, `current_period`, `previous_period`, `baseline_date_range`,
`comparison_date_range` and `filter_expression`; the only top-level keys
it ever removes are `current_period` and `previous_period`, which are
removed exactly when both are present — in that case both
`baseline_date_range` and `comparison_date_range` are present in the
output, carrying the renamed values as further normalized by the
comparison date rules (not verbatim — see the counterexample). -/
theorem C10_top_level_frame (today : String) (tool_name : Json) (kvs out : Params)
    (h : fix_basic_parameters today (.obj kvs) tool_name = .ok (.obj out)) :
    (∀ k, k ≠ "group_by" → k ≠ "metric" → k ≠ "date_range" → k ≠ "current_period" →
      k ≠ "previous_period" → k ≠ "baseline_date_range" → k ≠ "comparison_date_range" →
      k ≠ "filter_expression" → getKey k out = getKey k kvs) ∧
    (∀ k, getKey k kvs ≠ none → getKey k out = none →
      k = "current_period" ∨ k = "previous_period") ∧
    (((getKey "current_period" kvs).isSome && (getKey "previous_period" kvs).isSome) = true →
      getKey "current_period" out = none ∧ getKey "previous_period" out = none ∧
      getKey "baseline_date_range" out ≠ none ∧ getKey "comparison_date_range" out ≠ none) ∧
    (((getKey "current_period" kvs).isSome && (getKey "previous_period" kvs).isSome) = false →
      getKey "current_period" out = getKey "current_period" kvs ∧
      getKey "previous_period" out = getKey "previous_period" kvs) := by
  have hp : ∃ out2, fix_params_pipeline today tool_name kvs = .ok out2 ∧ out2 = out := by
    unfold fix_basic_parameters at h
    dsimp only at h
    cases hpp : fix_params_pipeline today tool_name kvs with
    | error e => rw [hpp] at h; simp [Except.map] at h
    | ok o =>
      rw [hpp] at h
      simp only [Except.map, Except.ok.injEq, Json.obj.injEq] at h
      exact ⟨o, rfl, h⟩
  obtain ⟨out2, hpp, hoo⟩ := hp
  rw [hoo] at hpp
  obtain ⟨fp2, fp3, fp4, fp9, fp10, fp11, fp12, fp13, s2, s3, s4, s9, s10, s11, s12, s13, s14⟩ :=
    pipeline_steps hpp
  -- value of an untouched key before the renaming rule
  have pre8 : ∀ k, k ≠ "group_by" → k ≠ "metric" → k ≠ "date_range" →
      getKey k (fixGroupByInvalidDimension (fixGroupByTagEntries (fixMetricMultiple fp4))) =
      getKey k kvs := by
    intro k n1 n2 n3
    rw [fixGroupByInvalidDimension_frame _ _ n1, fixGroupByTagEntries_frame _ _ n1,
      fixMetricMultiple_frame _ _ n2, fixMetricBoth_frame _ s4 n2,
      fixMetricNames_frame _ s3 n2, fixForecastStartDate_frame _ s2 n3,
      fixGroupByShape_frame _ _ n1]
  -- a key the date rules do not touch is carried unchanged from the
  -- renaming rule's output to the final output
  have post8 : ∀ k, k ≠ "baseline_date_range" → k ≠ "comparison_date_range" →
      k ≠ "filter_expression" →
      getKey k out =
      getKey k (fixComparisonKeyNames (fixGroupByInvalidDimension
        (fixGroupByTagEntries (fixMetricMultiple fp4)))) := by
    intro k n6 n7 n8
    rw [fixFilterTagDimension_frame _ s14 n8, fixComparisonCollision_frame _ s13 n7,
      shiftCurrentMonthRange_frame _ s12 n7, shiftCurrentMonthRange_frame _ s11 n6,
      fixRangeAlign_frame _ s10 n7, fixRangeAlign_frame _ s9 n6]
  -- presence/value of current_period and previous_period before the renaming rule
  have cur8 : getKey "current_period"
      (fixGroupByInvalidDimension (fixGroupByTagEntries (fixMetricMultiple fp4))) =
      getKey "current_period" kvs := pre8 _ (by decide) (by decide) (by decide)
  have prev8 : getKey "previous_period"
      (fixGroupByInvalidDimension (fixGroupByTagEntries (fixMetricMultiple fp4))) =
      getKey "previous_period" kvs := pre8 _ (by decide) (by decide) (by decide)
  refine ⟨?_, ?_, ?_, ?_⟩
  · -- frame clause
    intro k n1 n2 n3 n4 n5 n6 n7 n8
    rw [post8 k n6 n7 n8, fixComparisonKeyNames_frame _ _ n4 n5 n6 n7, pre8 k n1 n2 n3]
  · -- removal-only clause
    intro k hpres hnone
    by_cases hc : k = "current_period"
    · exact Or.inl hc
    by_cases hv : k = "previous_period"
    · exact Or.inr hv
    exfalso
    apply absurd hnone
    have p1 := fixGroupByShape_presence kvs k hpres
    have p2 := fixForecastStartDate_presence k s2 p1
    have p3 := fixMetricNames_presence k s3 p2
    have p4 := fixMetricBoth_presence k s4 p3
    have p5 := fixMetricMultiple_presence _ k p4
    have p6 := fixGroupByTagEntries_presence _ k p5
    have p7 := fixGroupByInvalidDimension_presence _ k p6
    have p8 := fixComparisonKeyNames_presence k hc hv p7
    have p9 := fixRangeAlign_presence k s9 p8
    have p10 := fixRangeAlign_presence k s10 p9
    have p11 := shiftCurrentMonthRange_presence k s11 p10
    have p12 := shiftCurrentMonthRange_presence k s12 p11
    have p13 := fixComparisonCollision_presence k s13 p12
    exact fixFilterTagDimension_presence k s14 p13
  · -- both present: removed and renamed
    intro hboth
    simp only [Bool.and_eq_true, Option.isSome_iff_exists] at hboth
    obtain ⟨⟨cur, hcur⟩, ⟨prev, hprev⟩⟩ := hboth
    have hcur8 : getKey "current_period"
        (fixGroupByInvalidDimension (fixGroupByTagEntries (fixMetricMultiple fp4))) =
        some cur := by rw [cur8, hcur]
    have hprev8 : getKey "previous_period"
        (fixGroupByInvalidDimension (fixGroupByTagEntries (fixMetricMultiple fp4))) =
        some prev := by rw [prev8, hprev]
    have h8 := fixComparisonKeyNames_both hcur8 hprev8
    refine ⟨?_, ?_, ?_, ?_⟩
    · rw [post8 "current_period" (by decide) (by decide) (by decide), h8,
        getKey_setKey_other _ _ _ _ (by decide), getKey_removeKey_other _ _ _ (by decide),
        getKey_setKey_other _ _ _ _ (by decide), getKey_removeKey_same]
    · rw [post8 "previous_period" (by decide) (by decide) (by decide), h8,
        getKey_setKey_other _ _ _ _ (by decide), getKey_removeKey_same]
    · have hb8 : getKey "baseline_date_range"
          (fixComparisonKeyNames (fixGroupByInvalidDimension
            (fixGroupByTagEntries (fixMetricMultiple fp4)))) ≠ none := by
        rw [h8, getKey_setKey_other _ _ _ _ (by decide),
          getKey_removeKey_other _ _ _ (by decide), getKey_setKey_same]
        simp
      have q9 := fixRangeAlign_presence "baseline_date_range" s9 hb8
      have q10 := fixRangeAlign_presence "baseline_date_range" s10 q9
      have q11 := shiftCurrentMonthRange_presence "baseline_date_range" s11 q10
      have q12 := shiftCurrentMonthRange_presence "baseline_date_range" s12 q11
      have q13 := fixComparisonCollision_presence "baseline_date_range" s13 q12
      exact fixFilterTagDimension_presence "baseline_date_range" s14 q13
    · have hc8 : getKey "comparison_date_range"
          (fixComparisonKeyNames (fixGroupByInvalidDimension
            (fixGroupByTagEntries (fixMetricMultiple fp4)))) ≠ none := by
        rw [h8, getKey_setKey_same]
        simp
      have q9 := fixRangeAlign_presence "comparison_date_range" s9 hc8
      have q10 := fixRangeAlign_presence "comparison_date_range" s10 q9
      have q11 := shiftCurrentMonthRange_presence "comparison_date_range" s11 q10
      have q12 := shiftCurrentMonthRange_presence "comparison_date_range" s12 q11
      have q13 := fixComparisonCollision_presence "comparison_date_range" s13 q12
      exact fixFilterTagDimension_presence "comparison_date_range" s14 q13
  · -- not both present: current_period / previous_period pass through
    intro hboth
    have h8eq : fixComparisonKeyNames (fixGroupByInvalidDimension
        (fixGroupByTagEntries (fixMetricMultiple fp4))) =
        fixGroupByInvalidDimension (fixGroupByTagEntries (fixMetricMultiple fp4)) := by
      apply fixComparisonKeyNames_eq_self
      rcases Bool.and_eq_false_iff.mp hboth with hne | hne
      · left
        rw [cur8]
        cases hval : getKey "current_period" kvs
        · rfl
        · rw [hval] at hne; simp at hne
      · right
        rw [prev8]
        cases hval : getKey "previous_period" kvs
        · rfl
        · rw [hval] at hne; simp at hne
    constructor
    · rw [post8 "current_period" (by decide) (by decide) (by decide), h8eq, cur8]
    · rw [post8 "previous_period" (by decide) (by decide) (by decide), h8eq, prev8]

/-- C10 witness: the frame theorem applied to a concrete bag carrying a
pass-through key (`granularity`), both period keys, and a metric. -/
theorem C10_top_level_frame_witness :
    ((∀ k, k ≠ "group_by" → k ≠ "metric" → k ≠ "date_range" → k ≠ "current_period" →
      k ≠ "previous_period" → k ≠ "baseline_date_range" → k ≠ "comparison_date_range" →
      k ≠ "filter_expression" →
      getKey k c10OutSample = getKey k c10InSample) ∧
    (∀ k, getKey k c10InSample ≠ none → getKey k c10OutSample = none →
      k = "current_period" ∨ k = "previous_period") ∧
    (((getKey "current_period" c10InSample).isSome &&
        (getKey "previous_period" c10InSample).isSome) = true →
      getKey "current_period" c10OutSample = none ∧
      getKey "previous_period" c10OutSample = none ∧
      getKey "baseline_date_range" c10OutSample ≠ none ∧
      getKey "comparison_date_range" c10OutSample ≠ none) ∧
    (((getKey "current_period" c10InSample).isSome &&
        (getKey "previous_period" c10InSample).isSome) = false →
      getKey "current_period" c10OutSample = getKey "current_period" c10InSample ∧
      getKey "previous_period" c10OutSample = getKey "previous_period" c10InSample)) :=
  C10_top_level_frame "2026-01-15" Json.null c10InSample c10OutSample (by rfl)

/-! ## Decimal strings: rendering, padding and parsing -/

theorem digit_char_toNat {r : Nat} (h : r < 10) : (Char.ofNat (48 + r)).toNat = 48 + r := by
  interval_cases r <;> decide

theorem digit_char_isDigit {r : Nat} (h : r < 10) : (Char.ofNat (48 + r)).isDigit = true := by
  interval_cases r <;> decide

theorem isDigit_not_ws {c : Char} (h : c.isDigit = true) : c.isWhitespace = false := by
  simp [Char.isDigit] at h
  simp [Char.isWhitespace]
  refine ⟨⟨⟨?_, ?_⟩, ?_⟩, ?_⟩ <;> (intro he; subst he; exact absurd h (by decide))

theorem isDigit_ne_dash {c : Char} (h : c.isDigit = true) : ¬ c = Char.ofNat 45 := by
  simp [Char.isDigit] at h
  intro he; subst he; exact absurd h (by decide)

theorem isDigit_ne_plus {c : Char} (h : c.isDigit = true) : ¬ c = Char.ofNat 43 := by
  simp [Char.isDigit] at h
  intro he; subst he; exact absurd h (by decide)

theorem digitsVal_append (a b : List Char) :
    digitsVal (a ++ b) = digitsVal a * 10 ^ b.length + digitsVal b := by
  induction a with
  | nil => simp [digitsVal]
  | cons c cs ih =>
    simp only [List.cons_append, digitsVal, ih, List.append_eq, List.length_append]
    ring

theorem natDigitsAux_spec : ∀ (fuel n : Nat) (acc : List Char), n ≤ fuel →
    digitsVal (natDigitsAux fuel n acc) = n * 10 ^ acc.length + digitsVal acc ∧
    (natDigitsAux fuel n acc).all Char.isDigit = acc.all Char.isDigit ∧
    acc.length ≤ (natDigitsAux fuel n acc).length ∧
    (∀ k, n < 10 ^ k → (natDigitsAux fuel n acc).length ≤ acc.length + k) := by
  intro fuel
  induction fuel with
  | zero =>
    intro n acc hn
    interval_cases n
    simp [natDigitsAux, digitsVal]
  | succ fuel ih =>
    intro n acc hn
    by_cases h0 : n = 0
    · subst h0
      simp [natDigitsAux, digitsVal]
    · have hd : n % 10 < 10 := Nat.mod_lt n (by omega)
      have hrec := ih (n / 10) (Char.ofNat (48 + n % 10) :: acc)
        (by
          have : n / 10 < n := Nat.div_lt_self (by omega) (by omega)
          omega)
      obtain ⟨hv, hall, hlen1, hlen2⟩ := hrec
      have hchar := digit_char_toNat hd
      have hdig := digit_char_isDigit hd
      refine ⟨?_, ?_, ?_, ?_⟩
      · rw [natDigitsAux]
        simp only [h0, if_false]
        rw [hv]
        simp only [digitsVal, List.length_cons, hchar]
        have hr : 48 + n % 10 - 48 = n % 10 := by omega
        rw [hr]
        have hdm : 10 * (n / 10) + n % 10 = n := Nat.div_add_mod n 10
        have hcalc : n / 10 * 10 ^ (acc.length + 1) + (n % 10 * 10 ^ acc.length + digitsVal acc)
            = (10 * (n / 10) + n % 10) * 10 ^ acc.length + digitsVal acc := by ring
        rw [hcalc, hdm]
      · rw [natDigitsAux]
        simp only [h0, if_false]
        rw [hall]
        simp [hdig]
      · rw [natDigitsAux]
        simp only [h0, if_false]
        simp only [List.length_cons] at hlen1
        omega
      · intro k hk
        rw [natDigitsAux]
        simp only [h0, if_false]
        have hk1 : 1 ≤ k := by
          by_contra hcon
          interval_cases k
          · simp at hk; omega
        have hdiv : n / 10 < 10 ^ (k - 1) := by
          have hke : k - 1 + 1 = k := by omega
          have h10 : 10 ^ k = 10 ^ (k - 1) * 10 := by
            conv_lhs => rw [← hke]
            rw [pow_succ]
          apply Nat.div_lt_of_lt_mul
          omega
        have := hlen2 (k - 1) hdiv
        simp only [List.length_cons] at this
        omega

theorem natToDigits_spec (n : Nat) :
    digitsVal (natToDigits n) = n ∧ (natToDigits n).all Char.isDigit = true ∧
    1 ≤ (natToDigits n).length ∧ (∀ k, 1 ≤ k → n < 10 ^ k → (natToDigits n).length ≤ k) := by
  by_cases h0 : n = 0
  · subst h0
    refine ⟨by decide, by decide, by decide, ?_⟩
    intro k hk _
    have : (natToDigits 0).length = 1 := by decide
    omega
  · obtain ⟨hv, hall, hlen1, hlen2⟩ := natDigitsAux_spec n n [] (le_refl n)
    unfold natToDigits
    simp only [h0, if_false]
    refine ⟨?_, ?_, ?_, ?_⟩
    · rw [hv]; simp [digitsVal]
    · rw [hall]; rfl
    · rcases hne : natDigitsAux n n [] with _ | ⟨c, cs⟩
      · exfalso
        rw [hne] at hv
        simp [digitsVal] at hv
        exact h0 (by omega)
      · simp
    · intro k _ hk
      have := hlen2 k hk
      simpa using this

theorem digitsVal_replicate_zero (k : Nat) (cs : List Char) :
    digitsVal (List.replicate k (Char.ofNat 48) ++ cs) = digitsVal cs := by
  induction k with
  | zero => simp
  | succ k ih =>
    simp only [List.replicate_succ, List.cons_append, digitsVal]
    have h48 : (Char.ofNat 48).toNat = 48 := by decide
    simp [h48]
    exact ih

theorem padZeros_spec (w : Nat) (cs : List Char) (hlen : cs.length ≤ w)
    (hd : cs.all Char.isDigit = true) :
    digitsVal (padZeros w cs) = digitsVal cs ∧ (padZeros w cs).length = w ∧
    (padZeros w cs).all Char.isDigit = true := by
  unfold padZeros
  refine ⟨digitsVal_replicate_zero _ _, ?_, ?_⟩
  · simp
    omega
  · simp only [List.all_append, hd, Bool.and_true]
    have : ∀ c ∈ List.replicate (w - cs.length) (Char.ofNat 48), c.isDigit = true := by
      intro c hc
      rw [List.eq_of_mem_replicate hc]
      decide
    simp only [List.all_eq_true]
    exact this

theorem pyFormat0d_spec (w : Nat) (y : Int) (hy : 0 ≤ y) (hw : (natToDigits y.toNat).length ≤ w) :
    (pyFormat0d w y).data = padZeros w (natToDigits y.toNat) ∧
    (pyFormat0d w y).data.length = w ∧
    (pyFormat0d w y).data.all Char.isDigit = true ∧
    digitsVal (pyFormat0d w y).data = y.toNat := by
  obtain ⟨hv, hall, _, _⟩ := natToDigits_spec y.toNat
  obtain ⟨pv, plen, pall⟩ := padZeros_spec w (natToDigits y.toNat) hw hall
  unfold pyFormat0d
  have hyn : ¬ y < 0 := by omega
  simp only [hyn, if_false]
  refine ⟨by simp, ?_, ?_, ?_⟩
  · exact plen
  · exact pall
  · show digitsVal (padZeros w (natToDigits y.toNat)) = y.toNat
    rw [pv, hv]

/-! ## Splitting on dashes and parsing year-month text -/

theorem splitOnChar_ne_nil (c : Char) (l : List Char) : splitOnChar c l ≠ [] := by
  cases l with
  | nil => simp [splitOnChar]
  | cons x xs =>
    unfold splitOnChar
    by_cases h : x = c
    · simp [h]
    · simp only [h, if_false]
      cases hr : splitOnChar c xs with
      | nil => simp
      | cons a b => simp

theorem splitOnChar_of_not_mem {c : Char} {l : List Char} (h : c ∉ l) :
    splitOnChar c l = [l] := by
  induction l with
  | nil => rfl
  | cons x xs ih =>
    have hx : ¬ x = c := fun he => h (he ▸ List.mem_cons_self x xs)
    unfold splitOnChar
    rw [ih fun hc => h (List.mem_cons_of_mem x hc)]
    simp [hx]

theorem splitOnChar_append_cons {c : Char} {a : List Char} (b : List Char) (h : c ∉ a) :
    splitOnChar c (a ++ c :: b) = a :: splitOnChar c b := by
  induction a with
  | nil =>
    show splitOnChar c (c :: b) = [] :: splitOnChar c b
    rw [splitOnChar]
    simp
  | cons x xs ih =>
    have hx : ¬ x = c := fun he => h (he ▸ List.mem_cons_self x xs)
    have hrec := ih fun hc => h (List.mem_cons_of_mem x hc)
    simp only [List.cons_append]
    rw [splitOnChar, hrec]
    simp [hx]

theorem joinSep_cons (c : Char) (p : List Char) (q : List (List Char)) (hq : q ≠ []) :
    joinSep c (p :: q) = p ++ c :: joinSep c q := by
  cases q with
  | nil => exact absurd rfl hq
  | cons r rs => rfl

theorem splitOnChar_join (c : Char) (l : List Char) : joinSep c (splitOnChar c l) = l := by
  induction l with
  | nil => rfl
  | cons x xs ih =>
    unfold splitOnChar
    by_cases hx : x = c
    · subst hx
      rw [if_pos rfl]
      rw [joinSep_cons x [] (splitOnChar x xs) (splitOnChar_ne_nil x xs)]
      rw [ih]
      rfl
    · simp only [hx, if_false]
      cases hr : splitOnChar c xs with
      | nil => exact absurd hr (splitOnChar_ne_nil c xs)
      | cons a b =>
        rw [hr] at ih
        cases b with
        | nil =>
          simp only [joinSep] at ih ⊢
          rw [ih]
        | cons b0 bs =>
          rw [joinSep_cons c (x :: a) (b0 :: bs) (by simp)]
          rw [joinSep_cons c a (b0 :: bs) (by simp)] at ih
          simp only [List.cons_append]
          rw [ih]

theorem dropWhile_ws_of_digits {l : List Char} (h : l.all Char.isDigit = true) :
    l.dropWhile Char.isWhitespace = l := by
  cases l with
  | nil => rfl
  | cons x xs =>
    simp only [List.all_cons, Bool.and_eq_true] at h
    simp [List.dropWhile, isDigit_not_ws h.1]

theorem pyIntOfChars_digits {cs : List Char} (hne : cs ≠ []) (hd : cs.all Char.isDigit = true) :
    pyIntOfChars cs = some ((digitsVal cs : Int)) := by
  unfold pyIntOfChars
  have hrev : cs.reverse.all Char.isDigit = true := by
    simp only [List.all_eq_true] at hd ⊢
    intro c hc
    exact hd c (List.mem_reverse.mp hc)
  rw [dropWhile_ws_of_digits hd, dropWhile_ws_of_digits hrev, List.reverse_reverse]
  cases cs with
  | nil => exact absurd rfl hne
  | cons c rest =>
    simp only [List.all_cons, Bool.and_eq_true] at hd
    simp [isDigit_ne_dash hd.1, isDigit_ne_plus hd.1, hd.1, hd.2]

theorem parseYM_two_fields {Y M : List Char} (hY : Y ≠ []) (hYd : Y.all Char.isDigit = true)
    (hM : M ≠ []) (hMd : M.all Char.isDigit = true) :
    parseYM (String.mk (Y ++ Char.ofNat 45 :: M)) =
      .ok ((digitsVal Y : Int), (digitsVal M : Int)) := by
  unfold parseYM
  have hYn : Char.ofNat 45 ∉ Y := by
    intro hc
    exact isDigit_ne_dash (List.all_eq_true.mp hYd _ hc) rfl
  have hMn : Char.ofNat 45 ∉ M := by
    intro hc
    exact isDigit_ne_dash (List.all_eq_true.mp hMd _ hc) rfl
  rw [show (String.mk (Y ++ Char.ofNat 45 :: M)).data = Y ++ Char.ofNat 45 :: M from rfl]
  rw [splitOnChar_append_cons M hYn, splitOnChar_of_not_mem hMn]
  simp [pyIntOfChars_digits hY hYd, pyIntOfChars_digits hM hMd]

theorem isYMD_inv {s : String} (h : isYMD s = true) :
    ∃ Y M D, s.data = Y ++ Char.ofNat 45 :: (M ++ Char.ofNat 45 :: D) ∧
      Y.length = 4 ∧ Y.all Char.isDigit = true ∧ 1 ≤ digitsVal Y ∧
      M.length = 2 ∧ M.all Char.isDigit = true ∧ 1 ≤ digitsVal M ∧ digitsVal M ≤ 12 ∧
      D.length = 2 ∧ D.all Char.isDigit = true := by
  unfold isYMD at h
  cases hsp : splitOnChar (Char.ofNat 45) s.data with
  | nil => exact absurd hsp (splitOnChar_ne_nil _ _)
  | cons Y q =>
    cases q with
    | nil => rw [hsp] at h; simp at h
    | cons M q2 =>
      cases q2 with
      | nil => rw [hsp] at h; simp at h
      | cons D q3 =>
        cases q3 with
        | cons _ _ => rw [hsp] at h; simp at h
        | nil =>
          rw [hsp] at h
          simp only [Bool.and_eq_true, decide_eq_true_eq] at h
          obtain ⟨⟨⟨⟨⟨⟨⟨⟨hy4, hyd⟩, hy1⟩, hm2⟩, hmd⟩, hm1⟩, hm12⟩, hd2⟩, hdd⟩ := h
          have hjoin := splitOnChar_join (Char.ofNat 45) s.data
          rw [hsp] at hjoin
          rw [joinSep_cons _ _ _ (by simp), joinSep_cons _ _ _ (by simp)] at hjoin
          exact ⟨Y, M, D, by rw [← hjoin]; rfl, hy4, hyd, hy1, hm2, hmd, hm1, hm12, hd2, hdd⟩

theorem take7_of_blocks {Y M : List Char} (rest : List Char) (hY : Y.length = 4)
    (hM : M.length = 2) :
    (Y ++ Char.ofNat 45 :: (M ++ rest)).take 7 = Y ++ Char.ofNat 45 :: M := by
  have h1 : Y ++ Char.ofNat 45 :: (M ++ rest) = (Y ++ Char.ofNat 45 :: M) ++ rest := by simp
  have h2 : (Y ++ Char.ofNat 45 :: M).length = 7 := by simp [hY, hM]
  rw [h1, ← h2, List.take_left]

theorem fmtYM01_data {y m : Int} (hy : 0 ≤ y) (hy2 : y ≤ 9999) (hm : 0 ≤ m) (hm2 : m ≤ 99) :
    ∃ Y M, (fmtYM01 (y, m)).data =
      Y ++ Char.ofNat 45 :: (M ++ Char.ofNat 45 :: [Char.ofNat 48, Char.ofNat 49]) ∧
      Y.length = 4 ∧ Y.all Char.isDigit = true ∧ digitsVal Y = y.toNat ∧
      M.length = 2 ∧ M.all Char.isDigit = true ∧ digitsVal M = m.toNat := by
  have hylt : y.toNat < 10 ^ 4 := by
    have : y.toNat ≤ 9999 := by omega
    calc y.toNat ≤ 9999 := this
      _ < 10 ^ 4 := by norm_num
  have hmlt : m.toNat < 10 ^ 2 := by
    have : m.toNat ≤ 99 := by omega
    calc m.toNat ≤ 99 := this
      _ < 10 ^ 2 := by norm_num
  have hYlen : (natToDigits y.toNat).length ≤ 4 :=
    (natToDigits_spec y.toNat).2.2.2 4 (by omega) hylt
  have hMlen : (natToDigits m.toNat).length ≤ 2 :=
    (natToDigits_spec m.toNat).2.2.2 2 (by omega) hmlt
  obtain ⟨pd4, pl4, pa4, pv4⟩ := pyFormat0d_spec 4 y hy hYlen
  obtain ⟨pd2, pl2, pa2, pv2⟩ := pyFormat0d_spec 2 m hm hMlen
  refine ⟨(pyFormat0d 4 y).data, (pyFormat0d 2 m).data, ?_, pl4, pa4, pv4, pl2, pa2, pv2⟩
  show (pyFormat0d 4 y ++ "-" ++ pyFormat0d 2 m ++ "-01").data = _
  rw [String.data_append, String.data_append, String.data_append]
  have hdash : ("-" : String).data = [Char.ofNat 45] := by decide
  have h01 : ("-01" : String).data = [Char.ofNat 45, Char.ofNat 48, Char.ofNat 49] := by decide
  rw [hdash, h01]
  simp

theorem parseYM_fmt {y m : Int} (hy : 0 ≤ y) (hy2 : y ≤ 9999) (hm : 0 ≤ m) (hm2 : m ≤ 99) :
    parseYM (strTake (fmtYM01 (y, m)) 7) = .ok (y, m) := by
  obtain ⟨Y, M, hdata, hY4, hYd, hYv, hM2, hMd, hMv⟩ := fmtYM01_data hy hy2 hm hm2
  have hYne : Y ≠ [] := by
    intro hc
    rw [hc] at hY4
    simp at hY4
  have hMne : M ≠ [] := by
    intro hc
    rw [hc] at hM2
    simp at hM2
  have htake : (fmtYM01 (y, m)).data.take 7 = Y ++ Char.ofNat 45 :: M := by
    rw [hdata]
    exact take7_of_blocks _ hY4 hM2
  show parseYM (String.mk ((fmtYM01 (y, m)).data.take 7)) = _
  rw [htake, parseYM_two_fields hYne hYd hMne hMd, hYv, hMv]
  congr 1
  rw [Prod.ext_iff]
  constructor
  · simp
    omega
  · simp
    omega

theorem parseYM_of_isYMD {s : String} (h : isYMD s = true) :
    ∃ Y M, s.data.take 7 = Y ++ Char.ofNat 45 :: M ∧
      Y.length = 4 ∧ Y.all Char.isDigit = true ∧ 1 ≤ digitsVal Y ∧
      M.length = 2 ∧ M.all Char.isDigit = true ∧ 1 ≤ digitsVal M ∧ digitsVal M ≤ 12 ∧
      s.data.length = 10 ∧
      parseYM (strTake s 7) = .ok ((digitsVal Y : Int), (digitsVal M : Int)) := by
  obtain ⟨Y, M, D, hdata, hy4, hyd, hy1, hm2, hmd, hm1, hm12, hd2, hdd⟩ := isYMD_inv h
  have hYne : Y ≠ [] := by
    intro hc; rw [hc] at hy4; simp at hy4
  have hMne : M ≠ [] := by
    intro hc; rw [hc] at hm2; simp at hm2
  have htake : s.data.take 7 = Y ++ Char.ofNat 45 :: M := by
    rw [hdata]
    exact take7_of_blocks _ hy4 hm2
  refine ⟨Y, M, htake, hy4, hyd, hy1, hm2, hmd, hm1, hm12, ?_, ?_⟩
  · rw [hdata]
    simp [hy4, hm2, hd2]
  · show parseYM (String.mk (s.data.take 7)) = _
    rw [htake]
    exact parseYM_two_fields hYne hyd hMne hmd

theorem setKey_setKey_same (k : String) (v w : Json) (l : Params) :
    setKey k v (setKey k w l) = setKey k v l := by
  induction l with
  | nil => simp [setKey]
  | cons p rest ih =>
    obtain ⟨k2, v2⟩ := p
    by_cases h : k2 = k
    · subst h
      simp [setKey]
    · simp [setKey, h, ih]

theorem setKey_comm {k1 k2 : String} (v1 v2 : Json) {l : Params} (hne : k1 ≠ k2)
    (h2 : (getKey k2 l).isSome) :
    setKey k1 v1 (setKey k2 v2 l) = setKey k2 v2 (setKey k1 v1 l) := by
  induction l with
  | nil => simp [getKey] at h2
  | cons p rest ih =>
    obtain ⟨ka, va⟩ := p
    by_cases ha2 : ka = k2
    · subst ha2
      simp [setKey, hne, Ne.symm hne]
    · by_cases ha1 : ka = k1
      · subst ha1
        simp [setKey, hne, Ne.symm hne, ha2]
      · have h2' : (getKey k2 rest).isSome := by
          simpa [getKey, ha2] using h2
        simp [setKey, ha1, ha2, ih h2']

theorem strTake_append_of_length {s : String} (t : String) {n : Nat}
    (h : s.data.length = n) : strTake (s ++ t) n = s := by
  have hd : (s ++ t).data.take n = s.data := by
    rw [String.data_append, ← h, List.take_left]
  show String.mk ((s ++ t).data.take n) = s
  rw [hd]

theorem strTake_length {s : String} {n : Nat} (h : n ≤ s.data.length) :
    (strTake s n).data.length = n := by
  have h2 : s.length = s.data.length := rfl
  simp [strTake]
  omega

theorem alignRangeMonth_ok {kvs : Params} {s e : String} {ym : Int × Int}
    (hs : getKey "start_date" kvs = some (.str s))
    (he : getKey "end_date" kvs = some (.str e))
    (hsl : 7 ≤ s.data.length) (hel : 7 ≤ e.data.length)
    (hp : parseYM (strTake s 7) = .ok ym) :
    alignRangeMonth (.obj kvs) = .ok (.obj
      (setKey "end_date" (.str (fmtYM01 (nextMonth ym)))
        (setKey "end_date" (.str (strTake e 7 ++ "-01"))
          (setKey "start_date" (.str (strTake s 7 ++ "-01")) kvs)))) := by
  have ht : strTake (strTake s 7 ++ "-01") 7 = strTake s 7 :=
    strTake_append_of_length _ (strTake_length hsl)
  have hsl2 : 7 ≤ s.length := hsl
  have hel2 : 7 ≤ e.length := hel
  unfold alignRangeMonth
  simp [pyIn, hs, he, pyLen, hsl2, hel2, ht, hp]

theorem fixRangeAlign_present {key : String} {fp : Params} {r r2 : Json}
    (hr : getKey key fp = some r) (ha : alignRangeMonth r = .ok r2) :
    fixRangeAlign key fp = .ok (setKey key r2 fp) := by
  unfold fixRangeAlign
  rw [hr]
  dsimp only
  rw [ha]

theorem shiftCurrentMonthRange_noop {today key : String} {fp rkvs : Params} {sd : String}
    (hr : getKey key fp = some (.obj rkvs))
    (hs : getKey "start_date" rkvs = some (.str sd))
    (hns : strStartsWith sd (strTake today 7) = false) :
    shiftCurrentMonthRange today key fp = .ok fp := by
  unfold shiftCurrentMonthRange
  rw [hr]
  simp [pyIn, hs, hns]

/-- C6: counterexample to the unconditional claim.  On 2025-09-10 the
baseline range {2025-09-05, 2025-09-20} is first aligned to September but
then rule 10 (current-month shift) moves it to August: the output start
date is "2025-08-01", not the claimed "2025-09-01". -/
theorem C6_counterexample_current_month_shift :
    fix_basic_parameters "2025-09-10" (Json.obj c6Params) (Json.str "get_cost_comparison") =
      .ok c6ShiftedOut ∧ c6ShiftedOut ≠ c6AlignedOut := by
  constructor
  · rfl
  · decide

theorem charListLt_irrefl (l : List Char) : charListLt l l = false := by
  induction l with
  | nil => rfl
  | cons c cs ih => simp [charListLt, ih]

theorem strLtB_irrefl (s : String) : strLtB s s = false := charListLt_irrefl s.data

theorem tagMap_tagMap (g : Json) : tagMap (tagMap g) = tagMap g := by
  by_cases h : isTagTyped g = true
  · have h2 : isTagTyped (Json.str "SERVICE") = false := rfl
    simp [tagMap, h, h2]
  · simp [tagMap, h]

theorem map_tagMap_idem (l : List Json) : (l.map tagMap).map tagMap = l.map tagMap := by
  rw [List.map_map]
  exact List.map_congr_left fun x _ => tagMap_tagMap x

theorem getKey_gb_fixGroupByShape (fp : Params) :
    getKey "group_by" (fixGroupByShape fp) = gbV1 (getKey "group_by" fp) := by
  unfold fixGroupByShape
  cases hg : getKey "group_by" fp with
  | none => simp [gbV1, hg]
  | some v =>
    cases v with
    | arr gb =>
      cases gb with
      | nil => simp [gbV1, getKey_setKey_same]
      | cons g0 rest =>
        cases g0 with
        | obj kvs =>
          cases hk : getKey "Key" kvs with
          | some kv => simp [gbV1, hk, getKey_setKey_same]
          | none => simp [gbV1, hk, hg]
        | str s => simp [gbV1, getKey_setKey_same]
        | null => simp [gbV1, hg]
        | bool b => simp [gbV1, hg]
        | int n => simp [gbV1, hg]
        | float f => simp [gbV1, hg]
        | arr l => simp [gbV1, hg]
    | null => simp [gbV1, hg]
    | bool b => simp [gbV1, hg]
    | int n => simp [gbV1, hg]
    | float f => simp [gbV1, hg]
    | str s => simp [gbV1, hg]
    | obj o => simp [gbV1, hg]

theorem getKey_gb_fixGroupByTagEntries (fp : Params) :
    getKey "group_by" (fixGroupByTagEntries fp) = gbV6 (getKey "group_by" fp) := by
  unfold fixGroupByTagEntries
  cases hg : getKey "group_by" fp with
  | none => simp [gbV6, hg]
  | some v =>
    cases v with
    | arr l => simp [gbV6, tagMap, getKey_setKey_same]
    | null => simp [gbV6, hg]
    | bool b => simp [gbV6, hg]
    | int n => simp [gbV6, hg]
    | float f => simp [gbV6, hg]
    | str s => simp [gbV6, hg]
    | obj o => simp [gbV6, hg]

theorem getKey_gb_fixGroupByInvalidDimension (fp : Params) :
    getKey "group_by" (fixGroupByInvalidDimension fp) = gbV7 (getKey "group_by" fp) := by
  unfold fixGroupByInvalidDimension
  cases hg : getKey "group_by" fp with
  | none => simp [gbV7, hg]
  | some v =>
    cases v with
    | str g =>
      dsimp only
      simp only [gbV7]
      by_cases hc : invalid_dimensions.contains g = true
      · rw [if_pos hc, if_pos hc]
        exact getKey_setKey_same _ _ _
      · rw [if_neg hc, if_neg hc]
        exact hg
    | null => simp [gbV7, hg]
    | bool b => simp [gbV7, hg]
    | int n => simp [gbV7, hg]
    | float f => simp [gbV7, hg]
    | arr l => simp [gbV7, hg]
    | obj o => simp [gbV7, hg]

theorem fixGroupByShape_self {fp : Params}
    (h : gbV1 (getKey "group_by" fp) = getKey "group_by" fp) :
    fixGroupByShape fp = fp := by
  unfold fixGroupByShape
  cases hg : getKey "group_by" fp with
  | none => rfl
  | some v =>
    rw [hg] at h
    cases v with
    | arr gb =>
      cases gb with
      | nil => simp [gbV1] at h
      | cons g0 rest =>
        cases g0 with
        | obj kvs =>
          dsimp only
          cases hk : getKey "Key" kvs with
          | some kv =>
            simp only [gbV1, hk] at h
            exact setKey_self _ _ _ (hg.trans h.symm)
          | none => rfl
        | str s =>
          simp only [gbV1] at h
          exact setKey_self _ _ _ (hg.trans h.symm)
        | null => rfl
        | bool b => rfl
        | int n => rfl
        | float f => rfl
        | arr l => rfl
    | null => rfl
    | bool b => rfl
    | int n => rfl
    | float f => rfl
    | str s => rfl
    | obj o => rfl

theorem fixGroupByTagEntries_self {fp : Params}
    (h : gbV6 (getKey "group_by" fp) = getKey "group_by" fp) :
    fixGroupByTagEntries fp = fp := by
  unfold fixGroupByTagEntries
  cases hg : getKey "group_by" fp with
  | none => rfl
  | some v =>
    rw [hg] at h
    cases v with
    | arr l =>
      simp only [gbV6] at h
      exact setKey_self _ _ _ (hg.trans h.symm)
    | null => rfl
    | bool b => rfl
    | int n => rfl
    | float f => rfl
    | str s => rfl
    | obj o => rfl

theorem fixGroupByInvalidDimension_self {fp : Params}
    (h : gbV7 (getKey "group_by" fp) = getKey "group_by" fp) :
    fixGroupByInvalidDimension fp = fp := by
  unfold fixGroupByInvalidDimension
  cases hg : getKey "group_by" fp with
  | none => rfl
  | some v =>
    rw [hg] at h
    cases v with
    | str g =>
      by_cases hc : invalid_dimensions.contains g = true
      · dsimp only
        rw [if_pos hc]
        simp only [gbV7, if_pos hc] at h
        exact setKey_self _ _ _ (hg.trans h.symm)
      · dsimp only
        rw [if_neg hc]
    | null => rfl
    | bool b => rfl
    | int n => rfl
    | float f => rfl
    | arr l => rfl
    | obj o => rfl

theorem gb_str_stable (s : String) :
    gbV1 (gbV7 (some (.str s))) = gbV7 (some (.str s)) ∧
    gbV6 (gbV7 (some (.str s))) = gbV7 (some (.str s)) ∧
    gbV7 (gbV7 (some (.str s))) = gbV7 (some (.str s)) := by
  by_cases hc : invalid_dimensions.contains s = true
  · simp only [gbV7, if_pos hc]
    refine ⟨rfl, rfl, ?_⟩
    have hns : invalid_dimensions.contains "SERVICE" = false := by decide
    show (if invalid_dimensions.contains "SERVICE" = true then some (Json.str "SERVICE")
      else some (Json.str "SERVICE")) = some (Json.str "SERVICE")
    rw [hns]
    rfl
  · simp only [gbV7, if_neg hc]
    exact ⟨rfl, rfl, by simp only [gbV7, if_neg hc]⟩

theorem gb_chain_stable_arr {g0 : Json} {rest : List Json}
    (hV1a : gbV1 (some (Json.arr (g0 :: rest))) = some (Json.arr (g0 :: rest)))
    (hV1b : gbV1 (some (Json.arr (g0 :: rest.map tagMap))) =
      some (Json.arr (g0 :: rest.map tagMap)))
    (htag : tagMap g0 = g0) :
    gbV1 (gbV7 (gbV6 (gbV1 (some (Json.arr (g0 :: rest)))))) =
      gbV7 (gbV6 (gbV1 (some (Json.arr (g0 :: rest))))) ∧
    gbV6 (gbV7 (gbV6 (gbV1 (some (Json.arr (g0 :: rest)))))) =
      gbV7 (gbV6 (gbV1 (some (Json.arr (g0 :: rest))))) ∧
    gbV7 (gbV7 (gbV6 (gbV1 (some (Json.arr (g0 :: rest)))))) =
      gbV7 (gbV6 (gbV1 (some (Json.arr (g0 :: rest))))) := by
  rw [hV1a]
  have h6 : gbV6 (some (Json.arr (g0 :: rest))) = some (Json.arr (g0 :: rest.map tagMap)) := by
    show some (Json.arr ((g0 :: rest).map tagMap)) = some (Json.arr (g0 :: rest.map tagMap))
    rw [List.map_cons, htag]
  rw [h6]
  have h7 : gbV7 (some (Json.arr (g0 :: rest.map tagMap))) =
      some (Json.arr (g0 :: rest.map tagMap)) := rfl
  rw [h7]
  refine ⟨hV1b, ?_, rfl⟩
  show some (Json.arr ((g0 :: rest.map tagMap).map tagMap)) =
    some (Json.arr (g0 :: rest.map tagMap))
  rw [List.map_cons, htag, map_tagMap_idem]

theorem gb_chain_stable (g : Option Json) (hpre : gbPre g = true) :
    gbV1 (gbV7 (gbV6 (gbV1 g))) = gbV7 (gbV6 (gbV1 g)) ∧
    gbV6 (gbV7 (gbV6 (gbV1 g))) = gbV7 (gbV6 (gbV1 g)) ∧
    gbV7 (gbV7 (gbV6 (gbV1 g))) = gbV7 (gbV6 (gbV1 g)) := by
  cases g with
  | none => exact ⟨rfl, rfl, rfl⟩
  | some v =>
    cases v with
    | str s => exact gb_str_stable s
    | null => exact ⟨rfl, rfl, rfl⟩
    | bool b => exact ⟨rfl, rfl, rfl⟩
    | int n => exact ⟨rfl, rfl, rfl⟩
    | float f => exact ⟨rfl, rfl, rfl⟩
    | obj o => exact ⟨rfl, rfl, rfl⟩
    | arr gb =>
      cases gb with
      | nil => exact ⟨rfl, rfl, rfl⟩
      | cons g0 rest =>
        cases g0 with
        | str s => exact gb_str_stable s
        | obj kvs =>
          cases hk : getKey "Key" kvs with
          | some kv =>
            have h1 : gbV1 (some (Json.arr (Json.obj kvs :: rest))) = some kv := by
              simp [gbV1, hk]
            rw [h1]
            cases kv with
            | arr l =>
              exfalso
              simp [gbPre, hk] at hpre
            | str s => exact gb_str_stable s
            | null => exact ⟨rfl, rfl, rfl⟩
            | bool b => exact ⟨rfl, rfl, rfl⟩
            | int n => exact ⟨rfl, rfl, rfl⟩
            | float f => exact ⟨rfl, rfl, rfl⟩
            | obj o => exact ⟨rfl, rfl, rfl⟩
          | none =>
            have htag : tagMap (Json.obj kvs) = Json.obj kvs := by
              simp [gbPre, hk] at hpre
              simp [tagMap, isTagTyped, hpre]
            exact gb_chain_stable_arr (by simp [gbV1, hk]) (by simp [gbV1, hk]) htag
        | null => exact gb_chain_stable_arr rfl rfl rfl
        | bool b => exact gb_chain_stable_arr rfl rfl rfl
        | int n => exact gb_chain_stable_arr rfl rfl rfl
        | float f => exact gb_chain_stable_arr rfl rfl rfl
        | arr l => exact gb_chain_stable_arr rfl rfl rfl

theorem lookupStr_mem_snd {k v : String} : ∀ {t : List (String × String)},
    lookupStr k t = some v → v ∈ t.map Prod.snd := by
  intro t
  induction t with
  | nil => intro h; simp [lookupStr] at h
  | cons p rest ih =>
    intro h
    obtain ⟨k2, v2⟩ := p
    by_cases hk : k2 = k
    · simp [lookupStr, hk] at h
      simp [h]
    · simp [lookupStr, hk] at h
      simp [ih h]

theorem forecast_vals_stable : ∀ v ∈ forecast_mapping.map Prod.snd,
    lookupStr v forecast_mapping = some v ∧ v ≠ "BOTH" ∧
    (strSubstr "amortized" (strLower v) && strSubstr "blended" (strLower v)) = false := by
  decide

theorem usage_vals_stable : ∀ v ∈ usage_mapping.map Prod.snd,
    lookupStr v usage_mapping = some v ∧ v ≠ "BOTH" ∧
    (strSubstr "amortized" (strLower v) && strSubstr "blended" (strLower v)) = false := by
  decide

theorem getKey_met_fixMetricNames {tool_name : Json} {fp fp2 : Params} {fc : Bool}
    (hfc : isForecastTool tool_name = .ok fc)
    (h : fixMetricNames tool_name fp = .ok fp2) :
    getKey "metric" fp2 = metV3 fc (getKey "metric" fp) := by
  unfold fixMetricNames at h
  repeat' split at h
  all_goals simp_all [metV3, getKey_setKey_same]
  all_goals rw [← h]
  all_goals exact getKey_setKey_same _ _ _

theorem getKey_met_fixMetricBoth {tool_name : Json} {fp fp2 : Params} {fc : Bool}
    (hfc : isForecastTool tool_name = .ok fc)
    (h : fixMetricBoth tool_name fp = .ok fp2) :
    getKey "metric" fp2 = metV4 fc (getKey "metric" fp) := by
  unfold fixMetricBoth at h
  repeat' split at h
  all_goals simp_all [metV4, getKey_setKey_same]
  all_goals rw [← h]
  all_goals exact getKey_setKey_same _ _ _

theorem getKey_met_fixMetricMultiple (fp : Params) :
    getKey "metric" (fixMetricMultiple fp) = metV5 (getKey "metric" fp) := by
  unfold fixMetricMultiple
  dsimp only
  cases hg : getKey "metric" fp with
  | none => simp [metV5, hg]
  | some v =>
    cases v with
    | str m =>
      by_cases hb : (strSubstr "amortized" (strLower m) && strSubstr "blended" (strLower m)) = true
      · simp [metV5, hb, getKey_setKey_same]
      · simp [metV5, hb, hg]
    | null => simp [metV5, hg]
    | bool b => simp [metV5, hg]
    | int n => simp [metV5, hg]
    | float f => simp [metV5, hg]
    | arr l => simp [metV5, hg]
    | obj o => simp [metV5, hg]

theorem fixMetricNames_noop {tool_name : Json} {fp : Params} {fc : Bool}
    (hfc : isForecastTool tool_name = .ok fc)
    (hm : metStable fc (getKey "metric" fp)) :
    fixMetricNames tool_name fp = .ok fp := by
  unfold fixMetricNames
  cases hg : getKey "metric" fp with
  | none => rfl
  | some v =>
    rw [hg] at hm
    dsimp only
    rw [hfc]
    cases v with
    | str m =>
      obtain ⟨hlk, hB, hbb⟩ := hm
      have hcond : ¬((!hashable (Json.str m)) = true) := fun hh => by
        simp [hashable] at hh
      dsimp only
      cases hlk with
      | inl h1 =>
        rw [if_neg hcond, h1]
        dsimp only
        rw [setKey_self _ _ _ hg]
      | inr h1 =>
        rw [if_neg hcond, h1]
    | null => rfl
    | bool b => rfl
    | int n => rfl
    | float f => rfl
    | arr l => simp [metStable, hashable] at hm
    | obj o => simp [metStable, hashable] at hm

theorem fixMetricBoth_noop {tool_name : Json} {fp : Params} {fc : Bool}
    (hm : metStable fc (getKey "metric" fp)) :
    fixMetricBoth tool_name fp = .ok fp := by
  unfold fixMetricBoth
  cases hg : getKey "metric" fp with
  | none => rfl
  | some v =>
    rw [hg] at hm
    cases v with
    | str m =>
      obtain ⟨hlk, hB, hbb⟩ := hm
      dsimp only
      rw [if_neg hB]
    | null => rfl
    | bool b => rfl
    | int n => rfl
    | float f => rfl
    | arr l => rfl
    | obj o => rfl

theorem fixMetricMultiple_noop {fp : Params} {fc : Bool}
    (hm : metStable fc (getKey "metric" fp)) :
    fixMetricMultiple fp = fp := by
  unfold fixMetricMultiple
  cases hg : getKey "metric" fp with
  | none => rfl
  | some v =>
    rw [hg] at hm
    cases v with
    | str m =>
      obtain ⟨hlk, hB, hbb⟩ := hm
      have hcond : ¬((strSubstr "amortized" (strLower m) &&
          strSubstr "blended" (strLower m)) = true) := by
        rw [hbb]
        decide
      dsimp only
      rw [if_neg hcond]
    | null => rfl
    | bool b => rfl
    | int n => rfl
    | float f => rfl
    | arr l => rfl
    | obj o => rfl

theorem metStable_chain (fc : Bool) (mv : Option Json) (hpre : metPre fc mv = true) :
    metStable fc (metV5 (metV4 fc (metV3 fc mv))) := by
  cases mv with
  | none => trivial
  | some v =>
    cases v with
    | str m =>
      cases fc with
      | false =>
        cases hl : lookupStr m usage_mapping with
        | some m2 =>
          have hmem : m2 ∈ usage_mapping.map Prod.snd := lookupStr_mem_snd hl
          obtain ⟨h1, h2, h3⟩ := usage_vals_stable m2 hmem
          have e3 : metV3 false (some (.str m)) = some (.str m2) := by simp [metV3, hl]
          rw [e3]
          have e4 : metV4 false (some (.str m2)) = some (.str m2) := by simp [metV4, h2]
          rw [e4]
          have e5 : metV5 (some (.str m2)) = some (.str m2) := by simp [metV5, h3]
          rw [e5]
          exact ⟨Or.inl h1, h2, h3⟩
        | none =>
          have e3 : metV3 false (some (.str m)) = some (.str m) := by simp [metV3, hl]
          rw [e3]
          by_cases hB : m = "BOTH"
          · subst hB
            have e4 : metV4 false (some (.str "BOTH")) = some (.str "AmortizedCost") := rfl
            rw [e4]
            have e5 : metV5 (some (.str "AmortizedCost")) =
                some (.str "AmortizedCost") := rfl
            rw [e5]
            exact ⟨Or.inl (by decide), by decide, by decide⟩
          · have e4 : metV4 false (some (.str m)) = some (.str m) := by simp [metV4, hB]
            rw [e4]
            cases hbb : (strSubstr "amortized" (strLower m) &&
                strSubstr "blended" (strLower m)) with
            | true =>
              have e5 : metV5 (some (.str m)) = some (.str "AmortizedCost") := by
                simp [metV5, hbb]
              rw [e5]
              exact ⟨Or.inl (by decide), by decide, by decide⟩
            | false =>
              have e5 : metV5 (some (.str m)) = some (.str m) := by simp [metV5, hbb]
              rw [e5]
              exact ⟨Or.inr hl, hB, hbb⟩
      | true =>
        have hAB : (strSubstr "amortized" (strLower m) &&
            strSubstr "blended" (strLower m)) = false := by
          simp [metPre] at hpre
          cases hpre with
          | inl h1 => simp [h1]
          | inr h1 => simp [h1]
        cases hl : lookupStr m forecast_mapping with
        | some m2 =>
          have hmem : m2 ∈ forecast_mapping.map Prod.snd := lookupStr_mem_snd hl
          obtain ⟨h1, h2, h3⟩ := forecast_vals_stable m2 hmem
          have e3 : metV3 true (some (.str m)) = some (.str m2) := by simp [metV3, hl]
          rw [e3]
          have e4 : metV4 true (some (.str m2)) = some (.str m2) := by simp [metV4, h2]
          rw [e4]
          have e5 : metV5 (some (.str m2)) = some (.str m2) := by simp [metV5, h3]
          rw [e5]
          exact ⟨Or.inl h1, h2, h3⟩
        | none =>
          have e3 : metV3 true (some (.str m)) = some (.str m) := by simp [metV3, hl]
          rw [e3]
          by_cases hB : m = "BOTH"
          · subst hB
            have e4 : metV4 true (some (.str "BOTH")) = some (.str "UNBLENDED_COST") := rfl
            rw [e4]
            have e5 : metV5 (some (.str "UNBLENDED_COST")) =
                some (.str "UNBLENDED_COST") := rfl
            rw [e5]
            exact ⟨Or.inl (by decide), by decide, by decide⟩
          · have e4 : metV4 true (some (.str m)) = some (.str m) := by simp [metV4, hB]
            rw [e4]
            have e5 : metV5 (some (.str m)) = some (.str m) := by simp [metV5, hAB]
            rw [e5]
            exact ⟨Or.inr hl, hB, hAB⟩
    | null => exact rfl
    | bool b => exact rfl
    | int n => exact rfl
    | float f => exact rfl
    | arr l => simp [metPre, hashable] at hpre
    | obj o => simp [metPre, hashable] at hpre

theorem string_ext {a b : String} (h : a.data = b.data) : a = b := by
  cases a with
  | mk d1 =>
    cases b with
    | mk d2 =>
      have h2 : d1 = d2 := h
      rw [h2]

theorem append_right_ne {a b : String} (s : String) (h : a ≠ b) : a ++ s ≠ b ++ s := by
  intro he
  apply h
  have hd : (a ++ s).data = (b ++ s).data := congrArg String.data he
  rw [String.data_append, String.data_append] at hd
  exact string_ext (List.append_cancel_right hd)

theorem pyFormat0d_length_ge (w : Nat) (n : Int) : w ≤ (pyFormat0d w n).data.length := by
  unfold pyFormat0d
  split <;> simp [padZeros] <;> omega

theorem fmtYM01_length_ge (ym : Int × Int) : 7 ≤ (fmtYM01 ym).data.length := by
  show 7 ≤ (pyFormat0d 4 ym.1 ++ "-" ++ pyFormat0d 2 ym.2 ++ "-01").data.length
  rw [String.data_append, String.data_append, String.data_append]
  have h4 := pyFormat0d_length_ge 4 ym.1
  have h2 := pyFormat0d_length_ge 2 ym.2
  have hd1 : ("-" : String).data.length = 1 := rfl
  have hd3 : ("-01" : String).data.length = 3 := rfl
  simp only [List.length_append, hd1, hd3]
  omega

theorem fixRangeAlign_noop_absent {key : String} {fp : Params}
    (h : getKey key fp = none) : fixRangeAlign key fp = .ok fp := by
  unfold fixRangeAlign
  rw [h]

theorem shiftCurrentMonthRange_noop_absent {today key : String} {fp : Params}
    (h : getKey key fp = none) : shiftCurrentMonthRange today key fp = .ok fp := by
  unfold shiftCurrentMonthRange
  rw [h]

theorem fixComparisonCollision_noop_absentC {fp : Params}
    (h : getKey "comparison_date_range" fp = none) :
    fixComparisonCollision fp = .ok fp := by
  unfold fixComparisonCollision
  rw [h]
  cases getKey "baseline_date_range" fp <;> rfl

theorem fixComparisonCollision_noop_absentB {fp : Params}
    (h : getKey "baseline_date_range" fp = none) :
    fixComparisonCollision fp = .ok fp := by
  unfold fixComparisonCollision
  rw [h]

theorem fixComparisonCollision_noop_distinct {fp bkvs ckvs : Params} {sB sC : String}
    (hb : getKey "baseline_date_range" fp = some (.obj bkvs))
    (hc : getKey "comparison_date_range" fp = some (.obj ckvs))
    (hsB : getKey "start_date" bkvs = some (.str sB))
    (hsC : getKey "start_date" ckvs = some (.str sC))
    (hne : sB ≠ sC) :
    fixComparisonCollision fp = .ok fp := by
  unfold fixComparisonCollision
  rw [hb, hc]
  dsimp only
  rw [show pyGetOpt (Json.obj bkvs) "start_date" = .ok (some (Json.str sB)) by
    simp [pyGetOpt, hsB]]
  dsimp only
  rw [show pyGetOpt (Json.obj ckvs) "start_date" = .ok (some (Json.str sC)) by
    simp [pyGetOpt, hsC]]
  dsimp only
  have hbeq : (some (Json.str sB) == some (Json.str sC)) = false := by
    apply beq_eq_false_iff_ne.mpr
    intro he
    apply hne
    simpa using he
  have hcond : ¬((some (Json.str sB) == some (Json.str sC)) = true) := by
    rw [hbeq]
    exact Bool.false_ne_true
  rw [if_neg hcond]

theorem fixForecastStartDate_stable {today : String} {fp fp2 : Params}
    (h : fixForecastStartDate today fp = .ok fp2) :
    ∀ fq : Params, getKey "date_range" fq = getKey "date_range" fp2 →
      fixForecastStartDate today fq = .ok fq := by
  intro fq hq
  unfold fixForecastStartDate at h ⊢
  cases hg : getKey "date_range" fp with
  | none =>
    rw [hg] at h
    injection h with h2
    have hfq : getKey "date_range" fq = none := by rw [hq, ← h2, hg]
    rw [hfq]
  | some dr =>
    rw [hg] at h
    dsimp only at h
    cases hin : pyIn "start_date" dr with
    | error e =>
      rw [hin] at h
      simp at h
    | ok b =>
      rw [hin] at h
      cases b with
      | false =>
        dsimp only at h
        injection h with h2
        have hfq : getKey "date_range" fq = some dr := by rw [hq, ← h2, hg]
        rw [hfq]
        dsimp only
        rw [hin]
      | true =>
        dsimp only at h
        cases dr with
        | obj drkvs =>
          dsimp only at h
          cases hsd : getKey "start_date" drkvs with
          | some sv =>
            cases sv with
            | str s =>
              rw [hsd] at h
              dsimp only at h
              by_cases hlt : strLtB today s = true
              · rw [if_pos hlt] at h
                injection h with h2
                have hfq : getKey "date_range" fq =
                    some (.obj (setKey "start_date" (Json.str today) drkvs)) := by
                  rw [hq, ← h2, getKey_setKey_same]
                rw [hfq]
                dsimp only
                rw [show pyIn "start_date"
                    (Json.obj (setKey "start_date" (Json.str today) drkvs)) = .ok true by
                  simp [pyIn, getKey_setKey_same]]
                dsimp only
                rw [getKey_setKey_same]
                dsimp only
                have hir : ¬(strLtB today today = true) := by
                  rw [strLtB_irrefl]
                  exact Bool.false_ne_true
                rw [if_neg hir]
              · rw [if_neg hlt] at h
                injection h with h2
                have hfq : getKey "date_range" fq = some (.obj drkvs) := by
                  rw [hq, ← h2, hg]
                rw [hfq]
                dsimp only
                rw [hin]
                dsimp only
                rw [hsd]
                dsimp only
                rw [if_neg hlt]
            | null => rw [hsd] at h; simp at h
            | bool x => rw [hsd] at h; simp at h
            | int x => rw [hsd] at h; simp at h
            | float x => rw [hsd] at h; simp at h
            | arr x => rw [hsd] at h; simp at h
            | obj x => rw [hsd] at h; simp at h
          | none =>
            rw [hsd] at h
            simp at h
        | null => simp at h
        | bool x => simp at h
        | int x => simp at h
        | float x => simp at h
        | str x => simp at h
        | arr x => simp at h

theorem fixFilterTagDimension_idem {fp fp2 : Params}
    (h : fixFilterTagDimension fp = .ok fp2) :
    fixFilterTagDimension fp2 = .ok fp2 := by
  unfold fixFilterTagDimension at h ⊢
  cases hg : getKey "filter_expression" fp with
  | none =>
    rw [hg] at h
    injection h with h2
    rw [← h2, hg]
  | some v =>
    rw [hg] at h
    cases v with
    | obj fe =>
      dsimp only at h
      cases hd : getKey "Dimensions" fe with
      | some dv =>
        cases dv with
        | obj dkvs =>
          rw [hd] at h
          dsimp only at h
          by_cases hkey : (getKey "Key" dkvs == some (Json.str "TAG")) = true
          · rw [if_pos hkey] at h
            cases hidx : pyIndex0 ((getKey "Values" dkvs).getD (Json.arr [Json.str ""])) with
            | error e =>
              rw [hidx] at h
              simp at h
            | ok tkv =>
              rw [hidx] at h
              dsimp only at h
              cases hcol : pyIn ":" tkv with
              | error e =>
                rw [hcol] at h
                simp at h
              | ok b =>
                rw [hcol] at h
                cases b with
                | true =>
                  dsimp only at h
                  cases tkv with
                  | str s =>
                    dsimp only at h
                    injection h with h2
                    rw [← h2, getKey_setKey_same]
                    dsimp only
                    rw [getKey_removeKey_same]
                  | null => simp at h
                  | bool x => simp at h
                  | int x => simp at h
                  | float x => simp at h
                  | arr x => simp at h
                  | obj x => simp at h
                | false =>
                  dsimp only at h
                  injection h with h2
                  rw [← h2, getKey_setKey_same]
                  dsimp only
                  rw [getKey_removeKey_same]
          · rw [if_neg hkey] at h
            injection h with h2
            rw [← h2, hg]
            dsimp only
            rw [hd]
            dsimp only
            rw [if_neg hkey]
        | null => rw [hd] at h; dsimp only at h; injection h with h2; rw [← h2, hg]; dsimp only; rw [hd]
        | bool x => rw [hd] at h; dsimp only at h; injection h with h2; rw [← h2, hg]; dsimp only; rw [hd]
        | int x => rw [hd] at h; dsimp only at h; injection h with h2; rw [← h2, hg]; dsimp only; rw [hd]
        | float x => rw [hd] at h; dsimp only at h; injection h with h2; rw [← h2, hg]; dsimp only; rw [hd]
        | str x => rw [hd] at h; dsimp only at h; injection h with h2; rw [← h2, hg]; dsimp only; rw [hd]
        | arr x => rw [hd] at h; dsimp only at h; injection h with h2; rw [← h2, hg]; dsimp only; rw [hd]
      | none =>
        rw [hd] at h
        dsimp only at h
        injection h with h2
        rw [← h2, hg]
        dsimp only
        rw [hd]
    | null => dsimp only at h; injection h with h2; rw [← h2, hg]
    | bool x => dsimp only at h; injection h with h2; rw [← h2, hg]
    | int x => dsimp only at h; injection h with h2; rw [← h2, hg]
    | float x => dsimp only at h; injection h with h2; rw [← h2, hg]
    | str x => dsimp only at h; injection h with h2; rw [← h2, hg]
    | arr x => dsimp only at h; injection h with h2; rw [← h2, hg]

theorem alignRangeMonth_aligned {bkvs : Params} {s e : String} {ym : Int × Int}
    (hsl : 7 ≤ s.data.length) (hp : parseYM (strTake s 7) = .ok ym) :
    alignRangeMonth (Json.obj
      (setKey "end_date" (Json.str (fmtYM01 (nextMonth ym)))
        (setKey "end_date" (Json.str (strTake e 7 ++ "-01"))
          (setKey "start_date" (Json.str (strTake s 7 ++ "-01")) bkvs)))) =
    .ok (Json.obj
      (setKey "end_date" (Json.str (fmtYM01 (nextMonth ym)))
        (setKey "end_date" (Json.str (strTake e 7 ++ "-01"))
          (setKey "start_date" (Json.str (strTake s 7 ++ "-01")) bkvs)))) := by
  set A := setKey "end_date" (Json.str (fmtYM01 (nextMonth ym)))
    (setKey "end_date" (Json.str (strTake e 7 ++ "-01"))
      (setKey "start_date" (Json.str (strTake s 7 ++ "-01")) bkvs)) with hAdef
  have hAs : getKey "start_date" A = some (.str (strTake s 7 ++ "-01")) := by
    rw [hAdef, getKey_setKey_other "start_date" "end_date" _ _ (by decide),
      getKey_setKey_other "start_date" "end_date" _ _ (by decide), getKey_setKey_same]
  have hAe : getKey "end_date" A = some (.str (fmtYM01 (nextMonth ym))) := by
    rw [hAdef]
    exact getKey_setKey_same _ _ _
  have hS1l : 7 ≤ (strTake s 7 ++ "-01").data.length := by
    rw [String.data_append]
    have h7 := strTake_length hsl
    simp only [List.length_append, h7]
    omega
  have hp1 : parseYM (strTake (strTake s 7 ++ "-01") 7) = .ok ym := by
    rw [strTake_append_of_length _ (strTake_length hsl)]
    exact hp
  have h := alignRangeMonth_ok hAs hAe hS1l (fmtYM01_length_ge (nextMonth ym)) hp1
  rw [h, strTake_append_of_length _ (strTake_length hsl)]
  rw [setKey_self _ _ _ hAs, setKey_setKey_same, setKey_self _ _ _ hAe]

theorem fixRangeAlign_self {key : String} {fp : Params} {r : Json}
    (hr : getKey key fp = some r) (ha : alignRangeMonth r = .ok r) :
    fixRangeAlign key fp = .ok fp := by
  rw [fixRangeAlign_present hr ha, setKey_self _ _ _ hr]

theorem aligned_facts {bkvs : Params} {s e : String}
    (hs : getKey "start_date" bkvs = some (Json.str s))
    (he : getKey "end_date" bkvs = some (Json.str e))
    (hY : isYMD s = true) (hel : 7 ≤ e.data.length) :
    ∃ A : Params,
      alignRangeMonth (Json.obj bkvs) = .ok (Json.obj A) ∧
      getKey "start_date" A = some (Json.str (strTake s 7 ++ "-01")) ∧
      alignRangeMonth (Json.obj A) = .ok (Json.obj A) := by
  obtain ⟨Y, M, h1, h2, h3, h4, h5, h6, h7, h8, hlen, hparse⟩ := parseYM_of_isYMD hY
  have hsl : 7 ≤ s.data.length := by omega
  refine ⟨_, alignRangeMonth_ok hs he hsl hel hparse, ?_, ?_⟩
  · rw [getKey_setKey_other "start_date" "end_date" _ _ (by decide),
      getKey_setKey_other "start_date" "end_date" _ _ (by decide), getKey_setKey_same]
  · exact alignRangeMonth_aligned hsl hparse

theorem range_tail_idem {today : String} {fp fp9 fp10 fp11 fp12 fp13 outp : Params}
    (hbr : rangePre today (getKey "baseline_date_range" fp))
    (hcr : rangePre today (getKey "comparison_date_range" fp))
    (hdist : rangesDistinct (getKey "baseline_date_range" fp)
      (getKey "comparison_date_range" fp))
    (h9 : fixRangeAlign "baseline_date_range" fp = .ok fp9)
    (h10 : fixRangeAlign "comparison_date_range" fp9 = .ok fp10)
    (h11 : shiftCurrentMonthRange today "baseline_date_range" fp10 = .ok fp11)
    (h12 : shiftCurrentMonthRange today "comparison_date_range" fp11 = .ok fp12)
    (h13 : fixComparisonCollision fp12 = .ok fp13)
    (h14 : fixFilterTagDimension fp13 = .ok outp) :
    fixRangeAlign "baseline_date_range" outp = .ok outp ∧
    fixRangeAlign "comparison_date_range" outp = .ok outp ∧
    shiftCurrentMonthRange today "baseline_date_range" outp = .ok outp ∧
    shiftCurrentMonthRange today "comparison_date_range" outp = .ok outp ∧
    fixComparisonCollision outp = .ok outp := by
  have houtB : getKey "baseline_date_range" outp = getKey "baseline_date_range" fp13 :=
    fixFilterTagDimension_frame _ h14 (by decide)
  have houtC : getKey "comparison_date_range" outp = getKey "comparison_date_range" fp13 :=
    fixFilterTagDimension_frame _ h14 (by decide)
  cases hbP : getKey "baseline_date_range" fp with
  | some bv =>
    obtain ⟨bkvs, sB, eB, hveq, hbs, hbe, hbY, hbel, hbns⟩ := hbr bv hbP
    subst hveq
    obtain ⟨AB, alignB, startB, alignB2⟩ := aligned_facts hbs hbe hbY hbel
    have h9' := fixRangeAlign_present hbP alignB
    rw [h9] at h9'
    injection h9' with hfp9
    have hb9 : getKey "baseline_date_range" fp9 = some (Json.obj AB) := by
      rw [hfp9]
      exact getKey_setKey_same _ _ _
    have hc9 : getKey "comparison_date_range" fp9 =
        getKey "comparison_date_range" fp := by
      rw [hfp9]
      exact getKey_setKey_other _ _ _ _ (by decide)
    cases hcP : getKey "comparison_date_range" fp with
    | some cv =>
      obtain ⟨ckvs, sC, eC, hveq, hcs, hce, hcY, hcel, hcns⟩ := hcr cv hcP
      subst hveq
      obtain ⟨AC, alignC, startC, alignC2⟩ := aligned_facts hcs hce hcY hcel
      have h10' := fixRangeAlign_present (hc9.trans hcP) alignC
      rw [h10] at h10'
      injection h10' with hfp10
      have hb10 : getKey "baseline_date_range" fp10 = some (Json.obj AB) := by
        rw [hfp10, getKey_setKey_other _ _ _ _ (by decide)]
        exact hb9
      have hc10 : getKey "comparison_date_range" fp10 = some (Json.obj AC) := by
        rw [hfp10]
        exact getKey_setKey_same _ _ _
      have h11' := shiftCurrentMonthRange_noop hb10 startB hbns
      rw [h11] at h11'
      injection h11' with hfp11
      have h12' := shiftCurrentMonthRange_noop (hfp11 ▸ hc10) startC hcns
      rw [h12] at h12'
      injection h12' with hfp12
      have hb12 : getKey "baseline_date_range" fp12 = some (Json.obj AB) := by
        rw [hfp12, hfp11]
        exact hb10
      have hc12 : getKey "comparison_date_range" fp12 = some (Json.obj AC) := by
        rw [hfp12, hfp11]
        exact hc10
      have hSne : strTake sB 7 ++ "-01" ≠ strTake sC 7 ++ "-01" :=
        append_right_ne _ (hdist bkvs ckvs sB sC hbP hcP hbs hcs)
      have h13' := fixComparisonCollision_noop_distinct hb12 hc12 startB startC hSne
      rw [h13] at h13'
      injection h13' with hfp13
      have hbOut : getKey "baseline_date_range" outp = some (Json.obj AB) := by
        rw [houtB, hfp13]
        exact hb12
      have hcOut : getKey "comparison_date_range" outp = some (Json.obj AC) := by
        rw [houtC, hfp13]
        exact hc12
      exact ⟨fixRangeAlign_self hbOut alignB2, fixRangeAlign_self hcOut alignC2,
        shiftCurrentMonthRange_noop hbOut startB hbns,
        shiftCurrentMonthRange_noop hcOut startC hcns,
        fixComparisonCollision_noop_distinct hbOut hcOut startB startC hSne⟩
    | none =>
      have h10' := fixRangeAlign_noop_absent (hc9.trans hcP)
      rw [h10] at h10'
      injection h10' with hfp10
      have h11' := shiftCurrentMonthRange_noop (hfp10 ▸ hb9) startB hbns
      rw [h11] at h11'
      injection h11' with hfp11
      have hc11 : getKey "comparison_date_range" fp11 = none := by
        rw [hfp11, hfp10]
        exact hc9.trans hcP
      have h12' := @shiftCurrentMonthRange_noop_absent today _ _ hc11
      rw [h12] at h12'
      injection h12' with hfp12
      have hc12 : getKey "comparison_date_range" fp12 = none := by
        rw [hfp12]
        exact hc11
      have h13' := fixComparisonCollision_noop_absentC hc12
      rw [h13] at h13'
      injection h13' with hfp13
      have hbOut : getKey "baseline_date_range" outp = some (Json.obj AB) := by
        rw [houtB, hfp13, hfp12, hfp11, hfp10]
        exact hb9
      have hcOut : getKey "comparison_date_range" outp = none := by
        rw [houtC, hfp13]
        exact hc12
      exact ⟨fixRangeAlign_self hbOut alignB2, fixRangeAlign_noop_absent hcOut,
        shiftCurrentMonthRange_noop hbOut startB hbns,
        shiftCurrentMonthRange_noop_absent hcOut,
        fixComparisonCollision_noop_absentC hcOut⟩
  | none =>
    have h9' := fixRangeAlign_noop_absent hbP
    rw [h9] at h9'
    injection h9' with hfp9
    have hb9 : getKey "baseline_date_range" fp9 = none := by
      rw [hfp9]
      exact hbP
    have hc9 : getKey "comparison_date_range" fp9 =
        getKey "comparison_date_range" fp := by
      rw [hfp9]
    cases hcP : getKey "comparison_date_range" fp with
    | some cv =>
      obtain ⟨ckvs, sC, eC, hveq, hcs, hce, hcY, hcel, hcns⟩ := hcr cv hcP
      subst hveq
      obtain ⟨AC, alignC, startC, alignC2⟩ := aligned_facts hcs hce hcY hcel
      have h10' := fixRangeAlign_present (hc9.trans hcP) alignC
      rw [h10] at h10'
      injection h10' with hfp10
      have hb10 : getKey "baseline_date_range" fp10 = none := by
        rw [hfp10, getKey_setKey_other _ _ _ _ (by decide)]
        exact hb9
      have hc10 : getKey "comparison_date_range" fp10 = some (Json.obj AC) := by
        rw [hfp10]
        exact getKey_setKey_same _ _ _
      have h11' := @shiftCurrentMonthRange_noop_absent today _ _ hb10
      rw [h11] at h11'
      injection h11' with hfp11
      have h12' := shiftCurrentMonthRange_noop (hfp11 ▸ hc10) startC hcns
      rw [h12] at h12'
      injection h12' with hfp12
      have hb12 : getKey "baseline_date_range" fp12 = none := by
        rw [hfp12, hfp11]
        exact hb10
      have hc12 : getKey "comparison_date_range" fp12 = some (Json.obj AC) := by
        rw [hfp12, hfp11]
        exact hc10
      have h13' := fixComparisonCollision_noop_absentB hb12
      rw [h13] at h13'
      injection h13' with hfp13
      have hbOut : getKey "baseline_date_range" outp = none := by
        rw [houtB, hfp13]
        exact hb12
      have hcOut : getKey "comparison_date_range" outp = some (Json.obj AC) := by
        rw [houtC, hfp13]
        exact hc12
      exact ⟨fixRangeAlign_noop_absent hbOut, fixRangeAlign_self hcOut alignC2,
        shiftCurrentMonthRange_noop_absent hbOut,
        shiftCurrentMonthRange_noop hcOut startC hcns,
        fixComparisonCollision_noop_absentB hbOut⟩
    | none =>
      have h10' := fixRangeAlign_noop_absent (hc9.trans hcP)
      rw [h10] at h10'
      injection h10' with hfp10
      have hb10 : getKey "baseline_date_range" fp10 = none := by
        rw [hfp10]
        exact hb9
      have hc10 : getKey "comparison_date_range" fp10 = none := by
        rw [hfp10]
        exact hc9.trans hcP
      have h11' := @shiftCurrentMonthRange_noop_absent today _ _ hb10
      rw [h11] at h11'
      injection h11' with hfp11
      have h12' := @shiftCurrentMonthRange_noop_absent today _ _ (hfp11 ▸ hc10)
      rw [h12] at h12'
      injection h12' with hfp12
      have hc12 : getKey "comparison_date_range" fp12 = none := by
        rw [hfp12, hfp11]
        exact hc10
      have h13' := fixComparisonCollision_noop_absentC hc12
      rw [h13] at h13'
      injection h13' with hfp13
      have hbOut : getKey "baseline_date_range" outp = none := by
        rw [houtB, hfp13, hfp12, hfp11, hfp10]
        exact hb9
      have hcOut : getKey "comparison_date_range" outp = none := by
        rw [houtC, hfp13]
        exact hc12
      exact ⟨fixRangeAlign_noop_absent hbOut, fixRangeAlign_noop_absent hcOut,
        shiftCurrentMonthRange_noop_absent hbOut,
        shiftCurrentMonthRange_noop_absent hcOut,
        fixComparisonCollision_noop_absentC hcOut⟩

/-- C1: counterexample to unconditional idempotence.  A `group_by` list
headed by a keyless TAG-typed dict survives rule 1, rule 6 turns it into
`["SERVICE"]`, and only a second pass collapses that to the string
`"SERVICE"`: the two passes disagree. -/
theorem C1_counterexample_not_idempotent :
    fix_basic_parameters "2026-10-12" (Json.obj c1GbIn) Json.null =
      .ok (Json.obj [("group_by", Json.arr [Json.str "SERVICE"])]) ∧
    fix_basic_parameters "2026-10-12"
      (Json.obj [("group_by", Json.arr [Json.str "SERVICE"])]) Json.null =
      .ok (Json.obj [("group_by", Json.str "SERVICE")]) ∧
    Json.obj [("group_by", Json.str "SERVICE")] ≠
      Json.obj [("group_by", Json.arr [Json.str "SERVICE"])] := by
  refine ⟨rfl, rfl, ?_⟩
  decide

/-- C1 (amended): the normalizer is idempotent on dict parameter bags
whose `group_by` cannot be collapsed twice, whose string metric bound for
a forecast tool does not name two cost bases, whose generic period keys
are not both present, and whose comparison-family ranges are well-formed
dicts with `YYYY-MM-DD` starts in pairwise different months away from the
current month. -/
theorem C1_normalizer_idempotent (today : String) (tool_name : Json) (fc : Bool)
    (p : Params) (out : Json)
    (hfc : isForecastTool tool_name = .ok fc)
    (hgb : gbPre (getKey "group_by" p) = true)
    (hmet : metPre fc (getKey "metric" p) = true)
    (hper : getKey "current_period" p = none ∨ getKey "previous_period" p = none)
    (hbr : rangePre today (getKey "baseline_date_range" p))
    (hcr : rangePre today (getKey "comparison_date_range" p))
    (hdist : rangesDistinct (getKey "baseline_date_range" p)
      (getKey "comparison_date_range" p))
    (hok : fix_basic_parameters today (.obj p) tool_name = .ok out) :
    fix_basic_parameters today out tool_name = .ok out := by
  unfold fix_basic_parameters at hok
  dsimp only at hok
  cases hpl : fix_params_pipeline today tool_name p with
  | error msg =>
    rw [hpl] at hok
    simp [Except.map] at hok
  | ok outp =>
    rw [hpl] at hok
    simp [Except.map] at hok
    subst hok
    suffices hpipe : fix_params_pipeline today tool_name outp = .ok outp by
      unfold fix_basic_parameters
      dsimp only
      rw [hpipe]
      rfl
    obtain ⟨fp2, fp3, fp4, fp9, fp10, fp11, fp12, fp13, h2, h3, h4, h9, h10, h11, h12, h13,
      h14⟩ := pipeline_steps hpl
    set Q5 := fixMetricMultiple fp4 with hQ5
    set Q6 := fixGroupByTagEntries Q5 with hQ6
    set Q7 := fixGroupByInvalidDimension Q6 with hQ7
    set Q8 := fixComparisonKeyNames Q7 with hQ8
    have htr : ∀ k : String, k ≠ "group_by" → k ≠ "date_range" → k ≠ "metric" →
        getKey k Q7 = getKey k p := by
      intro k hk1 hk2 hk3
      rw [hQ7, fixGroupByInvalidDimension_frame _ _ hk1, hQ6,
        fixGroupByTagEntries_frame _ _ hk1, hQ5, fixMetricMultiple_frame _ _ hk3,
        fixMetricBoth_frame _ h4 hk3, fixMetricNames_frame _ h3 hk3,
        fixForecastStartDate_frame _ h2 hk2, fixGroupByShape_frame _ _ hk1]
    have hQ8eq : Q8 = Q7 := by
      rw [hQ8]
      apply fixComparisonKeyNames_eq_self
      cases hper with
      | inl h0 => exact Or.inl ((htr _ (by decide) (by decide) (by decide)).trans h0)
      | inr h0 => exact Or.inr ((htr _ (by decide) (by decide) (by decide)).trans h0)
    have htr2 : ∀ k : String, k ≠ "baseline_date_range" → k ≠ "comparison_date_range" →
        k ≠ "filter_expression" → getKey k outp = getKey k Q8 := by
      intro k hk1 hk2 hk3
      rw [fixFilterTagDimension_frame _ h14 hk3, fixComparisonCollision_frame _ h13 hk2,
        shiftCurrentMonthRange_frame _ h12 hk2, shiftCurrentMonthRange_frame _ h11 hk1,
        fixRangeAlign_frame _ h10 hk2, fixRangeAlign_frame _ h9 hk1]
    have hgvOut : getKey "group_by" outp = gbV7 (gbV6 (gbV1 (getKey "group_by" p))) := by
      rw [htr2 _ (by decide) (by decide) (by decide), hQ8eq, hQ7,
        getKey_gb_fixGroupByInvalidDimension]
      congr 1
      rw [hQ6, getKey_gb_fixGroupByTagEntries]
      congr 1
      rw [hQ5, fixMetricMultiple_frame _ _ (by decide), fixMetricBoth_frame _ h4 (by decide),
        fixMetricNames_frame _ h3 (by decide), fixForecastStartDate_frame _ h2 (by decide)]
      exact getKey_gb_fixGroupByShape p
    obtain ⟨hgb1, hgb6, hgb7⟩ := gb_chain_stable _ hgb
    have ngb1 : fixGroupByShape outp = outp :=
      fixGroupByShape_self (by rw [hgvOut]; exact hgb1)
    have ngb6 : fixGroupByTagEntries outp = outp :=
      fixGroupByTagEntries_self (by rw [hgvOut]; exact hgb6)
    have ngb7 : fixGroupByInvalidDimension outp = outp :=
      fixGroupByInvalidDimension_self (by rw [hgvOut]; exact hgb7)
    have hmvOut : getKey "metric" outp =
        metV5 (metV4 fc (metV3 fc (getKey "metric" p))) := by
      rw [htr2 _ (by decide) (by decide) (by decide), hQ8eq, hQ7,
        fixGroupByInvalidDimension_frame _ _ (by decide), hQ6,
        fixGroupByTagEntries_frame _ _ (by decide), hQ5, getKey_met_fixMetricMultiple]
      congr 1
      rw [getKey_met_fixMetricBoth hfc h4]
      congr 1
      rw [getKey_met_fixMetricNames hfc h3]
      congr 1
      rw [fixForecastStartDate_frame _ h2 (by decide), fixGroupByShape_frame _ _ (by decide)]
    have hmst : metStable fc (getKey "metric" outp) := by
      rw [hmvOut]
      exact metStable_chain fc _ hmet
    have nmet3 : fixMetricNames tool_name outp = .ok outp := fixMetricNames_noop hfc hmst
    have nmet4 : fixMetricBoth tool_name outp = .ok outp := fixMetricBoth_noop hmst
    have nmet5 : fixMetricMultiple outp = outp := fixMetricMultiple_noop hmst
    have hdrOut : getKey "date_range" outp = getKey "date_range" fp2 := by
      rw [htr2 _ (by decide) (by decide) (by decide), hQ8eq, hQ7,
        fixGroupByInvalidDimension_frame _ _ (by decide), hQ6,
        fixGroupByTagEntries_frame _ _ (by decide), hQ5,
        fixMetricMultiple_frame _ _ (by decide), fixMetricBoth_frame _ h4 (by decide),
        fixMetricNames_frame _ h3 (by decide)]
    have ndr : fixForecastStartDate today outp = .ok outp :=
      fixForecastStartDate_stable h2 outp hdrOut
    have hcpOut : getKey "current_period" outp = getKey "current_period" p := by
      rw [htr2 _ (by decide) (by decide) (by decide), hQ8eq,
        htr _ (by decide) (by decide) (by decide)]
    have hppOut : getKey "previous_period" outp = getKey "previous_period" p := by
      rw [htr2 _ (by decide) (by decide) (by decide), hQ8eq,
        htr _ (by decide) (by decide) (by decide)]
    have nper : fixComparisonKeyNames outp = outp := by
      apply fixComparisonKeyNames_eq_self
      cases hper with
      | inl h0 => exact Or.inl (hcpOut.trans h0)
      | inr h0 => exact Or.inr (hppOut.trans h0)
    have hbQ8 : getKey "baseline_date_range" Q8 = getKey "baseline_date_range" p := by
      rw [hQ8eq, htr _ (by decide) (by decide) (by decide)]
    have hcQ8 : getKey "comparison_date_range" Q8 = getKey "comparison_date_range" p := by
      rw [hQ8eq, htr _ (by decide) (by decide) (by decide)]
    have hbrQ8 : rangePre today (getKey "baseline_date_range" Q8) := by
      rw [hbQ8]
      exact hbr
    have hcrQ8 : rangePre today (getKey "comparison_date_range" Q8) := by
      rw [hcQ8]
      exact hcr
    have hdistQ8 : rangesDistinct (getKey "baseline_date_range" Q8)
        (getKey "comparison_date_range" Q8) := by
      rw [hbQ8, hcQ8]
      exact hdist
    obtain ⟨n9b, n9c, n10b, n10c, n11c⟩ :=
      range_tail_idem hbrQ8 hcrQ8 hdistQ8 h9 h10 h11 h12 h13 h14
    have nfil : fixFilterTagDimension outp = .ok outp := fixFilterTagDimension_idem h14
    unfold fix_params_pipeline
    rw [ngb1, ndr]
    simp only [exBind]
    rw [nmet3]
    simp only [exBind]
    rw [nmet4]
    simp only [exBind]
    rw [nmet5, ngb6, ngb7, nper, n9b]
    simp only [exBind]
    rw [n9c]
    simp only [exBind]
    rw [n10b]
    simp only [exBind]
    rw [n10c]
    simp only [exBind]
    rw [n11c]
    simp only [exBind]
    exact nfil

/-- C1 witness: a bag exercising the collapse, clamp, metric, alignment
and filter rules is normalized once into `c1Out`, and a second
application returns `c1Out` unchanged. -/
theorem C1_normalizer_idempotent_witness :
    fix_basic_parameters "2026-10-12" c1Out (Json.str "get_cost_and_usage") = .ok c1Out :=
  C1_normalizer_idempotent "2026-10-12" (Json.str "get_cost_and_usage") false c1In c1Out
    rfl (by decide) (by decide) (Or.inl rfl)
    (by
      intro v hv
      have hveq := Option.some.inj hv
      subst hveq
      exact ⟨_, _, _, rfl, rfl, rfl, by decide, by decide, by decide⟩)
    (by
      intro v hv
      have hveq := Option.some.inj hv
      subst hveq
      exact ⟨_, _, _, rfl, rfl, rfl, by decide, by decide, by decide⟩)
    (by
      intro bkvs ckvs sB sC hb hc hsB hsC
      have hbk := Json.obj.inj (Option.some.inj hb)
      subst hbk
      have hck := Json.obj.inj (Option.some.inj hc)
      subst hck
      have hsb := Json.str.inj (Option.some.inj hsB)
      subst hsb
      have hsc := Json.str.inj (Option.some.inj hsC)
      subst hsc
      decide)
    (by rfl)

theorem range_tail_values {today : String} {fp fp9 fp10 fp11 fp12 fp13 outp : Params}
    (hbr : rangePre today (getKey "baseline_date_range" fp))
    (hcr : rangePre today (getKey "comparison_date_range" fp))
    (hdist : rangesDistinct (getKey "baseline_date_range" fp)
      (getKey "comparison_date_range" fp))
    (h9 : fixRangeAlign "baseline_date_range" fp = .ok fp9)
    (h10 : fixRangeAlign "comparison_date_range" fp9 = .ok fp10)
    (h11 : shiftCurrentMonthRange today "baseline_date_range" fp10 = .ok fp11)
    (h12 : shiftCurrentMonthRange today "comparison_date_range" fp11 = .ok fp12)
    (h13 : fixComparisonCollision fp12 = .ok fp13)
    (h14 : fixFilterTagDimension fp13 = .ok outp) :
    (∀ rkvs, getKey "baseline_date_range" fp = some (Json.obj rkvs) →
      ∃ A, getKey "baseline_date_range" outp = some (Json.obj A) ∧
        alignRangeMonth (Json.obj rkvs) = .ok (Json.obj A)) ∧
    (∀ rkvs, getKey "comparison_date_range" fp = some (Json.obj rkvs) →
      ∃ A, getKey "comparison_date_range" outp = some (Json.obj A) ∧
        alignRangeMonth (Json.obj rkvs) = .ok (Json.obj A)) := by
  have houtB : getKey "baseline_date_range" outp = getKey "baseline_date_range" fp13 :=
    fixFilterTagDimension_frame _ h14 (by decide)
  have houtC : getKey "comparison_date_range" outp = getKey "comparison_date_range" fp13 :=
    fixFilterTagDimension_frame _ h14 (by decide)
  cases hbP : getKey "baseline_date_range" fp with
  | some bv =>
    obtain ⟨bkvs, sB, eB, hveq, hbs, hbe, hbY, hbel, hbns⟩ := hbr bv hbP
    subst hveq
    obtain ⟨AB, alignB, startB, alignB2⟩ := aligned_facts hbs hbe hbY hbel
    have h9' := fixRangeAlign_present hbP alignB
    rw [h9] at h9'
    injection h9' with hfp9
    have hb9 : getKey "baseline_date_range" fp9 = some (Json.obj AB) := by
      rw [hfp9]
      exact getKey_setKey_same _ _ _
    have hc9 : getKey "comparison_date_range" fp9 =
        getKey "comparison_date_range" fp := by
      rw [hfp9]
      exact getKey_setKey_other _ _ _ _ (by decide)
    cases hcP : getKey "comparison_date_range" fp with
    | some cv =>
      obtain ⟨ckvs, sC, eC, hveq, hcs, hce, hcY, hcel, hcns⟩ := hcr cv hcP
      subst hveq
      obtain ⟨AC, alignC, startC, alignC2⟩ := aligned_facts hcs hce hcY hcel
      have h10' := fixRangeAlign_present (hc9.trans hcP) alignC
      rw [h10] at h10'
      injection h10' with hfp10
      have hb10 : getKey "baseline_date_range" fp10 = some (Json.obj AB) := by
        rw [hfp10, getKey_setKey_other _ _ _ _ (by decide)]
        exact hb9
      have hc10 : getKey "comparison_date_range" fp10 = some (Json.obj AC) := by
        rw [hfp10]
        exact getKey_setKey_same _ _ _
      have h11' := shiftCurrentMonthRange_noop hb10 startB hbns
      rw [h11] at h11'
      injection h11' with hfp11
      have h12' := shiftCurrentMonthRange_noop (hfp11 ▸ hc10) startC hcns
      rw [h12] at h12'
      injection h12' with hfp12
      have hb12 : getKey "baseline_date_range" fp12 = some (Json.obj AB) := by
        rw [hfp12, hfp11]
        exact hb10
      have hc12 : getKey "comparison_date_range" fp12 = some (Json.obj AC) := by
        rw [hfp12, hfp11]
        exact hc10
      have hSne : strTake sB 7 ++ "-01" ≠ strTake sC 7 ++ "-01" :=
        append_right_ne _ (hdist bkvs ckvs sB sC hbP hcP hbs hcs)
      have h13' := fixComparisonCollision_noop_distinct hb12 hc12 startB startC hSne
      rw [h13] at h13'
      injection h13' with hfp13
      refine ⟨?_, ?_⟩
      · intro rkvs hrk
        have h0 := Json.obj.inj (Option.some.inj hrk)
        subst h0
        exact ⟨AB, by rw [houtB, hfp13]; exact hb12, alignB⟩
      · intro rkvs hrk
        have h0 := Json.obj.inj (Option.some.inj hrk)
        subst h0
        exact ⟨AC, by rw [houtC, hfp13]; exact hc12, alignC⟩
    | none =>
      have h10' := fixRangeAlign_noop_absent (hc9.trans hcP)
      rw [h10] at h10'
      injection h10' with hfp10
      have h11' := shiftCurrentMonthRange_noop (hfp10 ▸ hb9) startB hbns
      rw [h11] at h11'
      injection h11' with hfp11
      have hc11 : getKey "comparison_date_range" fp11 = none := by
        rw [hfp11, hfp10]
        exact hc9.trans hcP
      have h12' := @shiftCurrentMonthRange_noop_absent today _ _ hc11
      rw [h12] at h12'
      injection h12' with hfp12
      have hc12 : getKey "comparison_date_range" fp12 = none := by
        rw [hfp12]
        exact hc11
      have h13' := fixComparisonCollision_noop_absentC hc12
      rw [h13] at h13'
      injection h13' with hfp13
      refine ⟨?_, ?_⟩
      · intro rkvs hrk
        have h0 := Json.obj.inj (Option.some.inj hrk)
        subst h0
        exact ⟨AB, by rw [houtB, hfp13, hfp12, hfp11, hfp10]; exact hb9, alignB⟩
      · intro rkvs hrk
        exact Option.noConfusion hrk
  | none =>
    have h9' := fixRangeAlign_noop_absent hbP
    rw [h9] at h9'
    injection h9' with hfp9
    have hb9 : getKey "baseline_date_range" fp9 = none := by
      rw [hfp9]
      exact hbP
    have hc9 : getKey "comparison_date_range" fp9 =
        getKey "comparison_date_range" fp := by
      rw [hfp9]
    cases hcP : getKey "comparison_date_range" fp with
    | some cv =>
      obtain ⟨ckvs, sC, eC, hveq, hcs, hce, hcY, hcel, hcns⟩ := hcr cv hcP
      subst hveq
      obtain ⟨AC, alignC, startC, alignC2⟩ := aligned_facts hcs hce hcY hcel
      have h10' := fixRangeAlign_present (hc9.trans hcP) alignC
      rw [h10] at h10'
      injection h10' with hfp10
      have hb10 : getKey "baseline_date_range" fp10 = none := by
        rw [hfp10, getKey_setKey_other _ _ _ _ (by decide)]
        exact hb9
      have hc10 : getKey "comparison_date_range" fp10 = some (Json.obj AC) := by
        rw [hfp10]
        exact getKey_setKey_same _ _ _
      have h11' := @shiftCurrentMonthRange_noop_absent today _ _ hb10
      rw [h11] at h11'
      injection h11' with hfp11
      have h12' := shiftCurrentMonthRange_noop (hfp11 ▸ hc10) startC hcns
      rw [h12] at h12'
      injection h12' with hfp12
      have hb12 : getKey "baseline_date_range" fp12 = none := by
        rw [hfp12, hfp11]
        exact hb10
      have hc12 : getKey "comparison_date_range" fp12 = some (Json.obj AC) := by
        rw [hfp12, hfp11]
        exact hc10
      have h13' := fixComparisonCollision_noop_absentB hb12
      rw [h13] at h13'
      injection h13' with hfp13
      refine ⟨?_, ?_⟩
      · intro rkvs hrk
        exact Option.noConfusion hrk
      · intro rkvs hrk
        have h0 := Json.obj.inj (Option.some.inj hrk)
        subst h0
        exact ⟨AC, by rw [houtC, hfp13]; exact hc12, alignC⟩
    | none =>
      refine ⟨?_, ?_⟩
      · intro rkvs hrk
        exact Option.noConfusion hrk
      · intro rkvs hrk
        exact Option.noConfusion hrk

/-- C6 (amended): for either of the two comparison-family keys —
`baseline_date_range` or `comparison_date_range` — whose value is a dict
with string `start_date`/`end_date`, a well-formed `YYYY-MM-DD` start and
an end of length at least 7, provided the generic period keys do not
rename over it, the truncated start does not fall in the current month
(rule 10 would shift it), and — for the comparison range only — the
baseline range is absent or itself well-formed with a start in a
different month (rule 11 would otherwise shift the comparison range), a
successful normalizer run outputs that range with `start_date` truncated
to the first day of its month and `end_date` the first day of the month
immediately after the start month. -/
theorem C6_month_alignment (today : String) (tool_name : Json) (p rkvs : Params)
    (key : String) (s e : String) (ym : Int × Int) (out : Json)
    (hkey : key = "baseline_date_range" ∨ key = "comparison_date_range")
    (hr : getKey key p = some (.obj rkvs))
    (hcp : getKey "current_period" p = none)
    (hs : getKey "start_date" rkvs = some (.str s))
    (he : getKey "end_date" rkvs = some (.str e))
    (hY : isYMD s = true)
    (hel : 7 ≤ e.data.length)
    (hp : parseYM (strTake s 7) = .ok ym)
    (hns : strStartsWith (strTake s 7 ++ "-01") (strTake today 7) = false)
    (hside : key = "comparison_date_range" →
      rangePre today (getKey "baseline_date_range" p) ∧
      rangesDistinct (getKey "baseline_date_range" p)
        (getKey "comparison_date_range" p))
    (hok : fix_basic_parameters today (.obj p) tool_name = .ok out) :
    ∃ outp r, out = Json.obj outp ∧
      getKey key outp = some (.obj r) ∧
      getKey "start_date" r = some (.str (strTake s 7 ++ "-01")) ∧
      getKey "end_date" r = some (.str (fmtYM01 (nextMonth ym))) := by
  unfold fix_basic_parameters at hok
  dsimp only at hok
  cases hpl : fix_params_pipeline today tool_name p with
  | error msg =>
    rw [hpl] at hok
    simp [Except.map] at hok
  | ok outp =>
    rw [hpl] at hok
    simp [Except.map] at hok
    obtain ⟨fp2, fp3, fp4, fp9, fp10, fp11, fp12, fp13, h2, h3, h4, h9, h10, h11, h12, h13,
      h14⟩ := pipeline_steps hpl
    set Q5 := fixMetricMultiple fp4 with hQ5
    set Q6 := fixGroupByTagEntries Q5 with hQ6
    set Q7 := fixGroupByInvalidDimension Q6 with hQ7
    set Q8 := fixComparisonKeyNames Q7 with hQ8
    have htr : ∀ k : String, k ≠ "group_by" → k ≠ "date_range" → k ≠ "metric" →
        getKey k Q7 = getKey k p := by
      intro k hk1 hk2 hk3
      rw [hQ7, fixGroupByInvalidDimension_frame _ _ hk1, hQ6,
        fixGroupByTagEntries_frame _ _ hk1, hQ5, fixMetricMultiple_frame _ _ hk3,
        fixMetricBoth_frame _ h4 hk3, fixMetricNames_frame _ h3 hk3,
        fixForecastStartDate_frame _ h2 hk2, fixGroupByShape_frame _ _ hk1]
    have hQ8eq : Q8 = Q7 := by
      rw [hQ8]
      exact fixComparisonKeyNames_eq_self
        (Or.inl ((htr _ (by decide) (by decide) (by decide)).trans hcp))
    have hbQ8 : getKey "baseline_date_range" Q8 = getKey "baseline_date_range" p := by
      rw [hQ8eq, htr _ (by decide) (by decide) (by decide)]
    have hcQ8 : getKey "comparison_date_range" Q8 =
        getKey "comparison_date_range" p := by
      rw [hQ8eq, htr _ (by decide) (by decide) (by decide)]
    obtain ⟨Y, M, hx1, hx2, hx3, hx4, hx5, hx6, hx7, hx8, hlen, hx9⟩ := parseYM_of_isYMD hY
    have hsl : 7 ≤ s.data.length := by omega
    have halign := alignRangeMonth_ok hs he hsl hel hp
    cases hkey with
    | inl hkb =>
      subst hkb
      have hbQ8' : getKey "baseline_date_range" Q8 = some (.obj rkvs) := hbQ8.trans hr
      have h9' := fixRangeAlign_present hbQ8' halign
      rw [h9] at h9'
      injection h9' with hfp9
      set A := setKey "end_date" (Json.str (fmtYM01 (nextMonth ym)))
        (setKey "end_date" (Json.str (strTake e 7 ++ "-01"))
          (setKey "start_date" (Json.str (strTake s 7 ++ "-01")) rkvs)) with hAdef
      have hAs : getKey "start_date" A = some (.str (strTake s 7 ++ "-01")) := by
        rw [hAdef, getKey_setKey_other "start_date" "end_date" _ _ (by decide),
          getKey_setKey_other "start_date" "end_date" _ _ (by decide), getKey_setKey_same]
      have hAe : getKey "end_date" A = some (.str (fmtYM01 (nextMonth ym))) := by
        rw [hAdef]
        exact getKey_setKey_same _ _ _
      have hb9 : getKey "baseline_date_range" fp9 = some (Json.obj A) := by
        rw [hfp9]
        exact getKey_setKey_same _ _ _
      have hb10 : getKey "baseline_date_range" fp10 = some (Json.obj A) := by
        rw [fixRangeAlign_frame _ h10 (by decide)]
        exact hb9
      have hnoop := shiftCurrentMonthRange_noop hb10 hAs hns
      rw [h11] at hnoop
      injection hnoop with hfp11
      have hb12 : getKey "baseline_date_range" fp12 = some (Json.obj A) := by
        rw [shiftCurrentMonthRange_frame _ h12 (by decide), hfp11]
        exact hb10
      have hb13 : getKey "baseline_date_range" fp13 = some (Json.obj A) := by
        rw [fixComparisonCollision_frame _ h13 (by decide)]
        exact hb12
      have hbOut : getKey "baseline_date_range" outp = some (Json.obj A) := by
        rw [fixFilterTagDimension_frame _ h14 (by decide)]
        exact hb13
      exact ⟨outp, A, hok.symm, hbOut, hAs, hAe⟩
    | inr hkc =>
      subst hkc
      obtain ⟨hbrP, hdistP⟩ := hside rfl
      have hcrP : rangePre today (getKey "comparison_date_range" p) := by
        intro v hv
        have hveq := Option.some.inj (hr.symm.trans hv)
        exact ⟨rkvs, s, e, hveq.symm, hs, he, hY, hel, hns⟩
      have hbrQ8 : rangePre today (getKey "baseline_date_range" Q8) := by
        rw [hbQ8]
        exact hbrP
      have hcrQ8 : rangePre today (getKey "comparison_date_range" Q8) := by
        rw [hcQ8]
        exact hcrP
      have hdistQ8 : rangesDistinct (getKey "baseline_date_range" Q8)
          (getKey "comparison_date_range" Q8) := by
        rw [hbQ8, hcQ8]
        exact hdistP
      obtain ⟨hBvals, hCvals⟩ :=
        range_tail_values hbrQ8 hcrQ8 hdistQ8 h9 h10 h11 h12 h13 h14
      obtain ⟨A, hcOut, halignA⟩ := hCvals rkvs (hcQ8.trans hr)
      rw [halignA] at halign
      injection halign with halign2
      have hAeq := Json.obj.inj halign2
      refine ⟨outp, A, hok.symm, hcOut, ?_, ?_⟩
      · rw [hAeq, getKey_setKey_other "start_date" "end_date" _ _ (by decide),
          getKey_setKey_other "start_date" "end_date" _ _ (by decide), getKey_setKey_same]
      · rw [hAeq]
        exact getKey_setKey_same _ _ _

/-- C6 witness: the claim's example dates in the comparison range,
alongside an August baseline, on 2026-10-12 — the comparison range comes
out as {2025-09-01, 2025-10-01}. -/
theorem C6_month_alignment_witness :
    ∃ outp r, c6CmpOut = Json.obj outp ∧
      getKey "comparison_date_range" outp = some (.obj r) ∧
      getKey "start_date" r = some (.str (strTake "2025-09-05" 7 ++ "-01")) ∧
      getKey "end_date" r = some (.str (fmtYM01 (nextMonth (2025, 9)))) :=
  C6_month_alignment "2026-10-12" (.str "get_cost_comparison") c6CmpParams c6CmpRange
    "comparison_date_range" "2025-09-05" "2025-09-20" (2025, 9) c6CmpOut
    (Or.inr rfl) rfl rfl rfl rfl (by decide) (by decide) (by rfl) (by decide)
    (fun _ =>
      ⟨by
        intro v hv
        have hveq := Option.some.inj hv
        subst hveq
        exact ⟨_, _, _, rfl, rfl, rfl, by decide, by decide, by decide⟩,
      by
        intro bkvs ckvs sB sC hb hc hsB hsC
        have hbk := Json.obj.inj (Option.some.inj hb)
        subst hbk
        have hck := Json.obj.inj (Option.some.inj hc)
        subst hck
        have hsb := Json.str.inj (Option.some.inj hsB)
        subst hsb
        have hsc := Json.str.inj (Option.some.inj hsC)
        subst hsc
        decide⟩)
    (by rfl)

end CostReporting
